import Mathlib

/-!
# KisanMitr `fs-gate` server

A shallow embedding of `src/fs-gate/src/server.ts`: the tool registry
(`toolHandlers`), the tool descriptors (`mcpTools`), the JSON-RPC dispatcher
(`handleMCPRequest`), the tool handlers and the HTTP listener (`httpServer`),
together with the two runtime builtins the dispatcher relies on,
`JSON.stringify` and `JSON.parse`; then the properties of the dispatcher, of
the listener and of the handlers.  What the server takes from its environment
(the clock, the random source, the process environment, the upstream services)
is a parameter, `Runtime`.

The file `server.ts` still contains the markers of an unresolved merge: a `HEAD`
side with six tools and an incoming side that adds `scheme-tool`.  Both sides
are embedded; `MergeSide` selects one.
-/

namespace KisanMitr

/-! ## JavaScript values -/

/-- A JavaScript number by its exact value: `NaN`, the two infinities, and the
finite numbers as rationals.  The rounding of IEEE 754 doubles is
`Double.nearest` below: the number text, `JSON.parse` and `pestConfidence`
round with it (the text `0.1` is read as the double nearest one tenth,
`3602879701896397 / 2 ^ 55`); the arithmetic of the other handlers is exact,
on the exact value of their literals.  The sign of zero is outside the
embedding. -/
inductive JsNumber where
  | nan
  | infinity (negative : Bool)
  | finite (q : ℚ)
  deriving DecidableEq

/-- The JavaScript values that travel through the server: what `JSON.parse`
produces, plus `undefined` (the value of an absent property).  The integers are
`num n`; every other number (`NaN`, an infinity, a fraction) is `nonInt x`.  An
object is the list of its own properties in enumeration order. -/
inductive JsVal where
  | undefined
  | null
  | bool (b : Bool)
  | num (n : Int)
  | str (s : String)
  | arr (items : List JsVal)
  | obj (fields : List (String × JsVal))
  | nonInt (x : JsNumber)

mutual
/-- Decidable equality of values. -/
def JsVal.decEq : (a b : JsVal) → Decidable (a = b)
  | .undefined, .undefined => isTrue rfl
  | .undefined, .null => isFalse fun e => JsVal.noConfusion e
  | .undefined, .bool _ => isFalse fun e => JsVal.noConfusion e
  | .undefined, .num _ => isFalse fun e => JsVal.noConfusion e
  | .undefined, .str _ => isFalse fun e => JsVal.noConfusion e
  | .undefined, .arr _ => isFalse fun e => JsVal.noConfusion e
  | .undefined, .obj _ => isFalse fun e => JsVal.noConfusion e
  | .undefined, .nonInt _ => isFalse fun e => JsVal.noConfusion e
  | .null, .undefined => isFalse fun e => JsVal.noConfusion e
  | .null, .null => isTrue rfl
  | .null, .bool _ => isFalse fun e => JsVal.noConfusion e
  | .null, .num _ => isFalse fun e => JsVal.noConfusion e
  | .null, .str _ => isFalse fun e => JsVal.noConfusion e
  | .null, .arr _ => isFalse fun e => JsVal.noConfusion e
  | .null, .obj _ => isFalse fun e => JsVal.noConfusion e
  | .null, .nonInt _ => isFalse fun e => JsVal.noConfusion e
  | .bool _, .undefined => isFalse fun e => JsVal.noConfusion e
  | .bool _, .null => isFalse fun e => JsVal.noConfusion e
  | .bool x, .bool y =>
    if h : x = y then isTrue (congrArg JsVal.bool h)
    else isFalse fun e => h (JsVal.bool.inj e)
  | .bool _, .num _ => isFalse fun e => JsVal.noConfusion e
  | .bool _, .str _ => isFalse fun e => JsVal.noConfusion e
  | .bool _, .arr _ => isFalse fun e => JsVal.noConfusion e
  | .bool _, .obj _ => isFalse fun e => JsVal.noConfusion e
  | .bool _, .nonInt _ => isFalse fun e => JsVal.noConfusion e
  | .num _, .undefined => isFalse fun e => JsVal.noConfusion e
  | .num _, .null => isFalse fun e => JsVal.noConfusion e
  | .num _, .bool _ => isFalse fun e => JsVal.noConfusion e
  | .num x, .num y =>
    if h : x = y then isTrue (congrArg JsVal.num h)
    else isFalse fun e => h (JsVal.num.inj e)
  | .num _, .str _ => isFalse fun e => JsVal.noConfusion e
  | .num _, .arr _ => isFalse fun e => JsVal.noConfusion e
  | .num _, .obj _ => isFalse fun e => JsVal.noConfusion e
  | .num _, .nonInt _ => isFalse fun e => JsVal.noConfusion e
  | .str _, .undefined => isFalse fun e => JsVal.noConfusion e
  | .str _, .null => isFalse fun e => JsVal.noConfusion e
  | .str _, .bool _ => isFalse fun e => JsVal.noConfusion e
  | .str _, .num _ => isFalse fun e => JsVal.noConfusion e
  | .str x, .str y =>
    if h : x = y then isTrue (congrArg JsVal.str h)
    else isFalse fun e => h (JsVal.str.inj e)
  | .str _, .arr _ => isFalse fun e => JsVal.noConfusion e
  | .str _, .obj _ => isFalse fun e => JsVal.noConfusion e
  | .str _, .nonInt _ => isFalse fun e => JsVal.noConfusion e
  | .arr _, .undefined => isFalse fun e => JsVal.noConfusion e
  | .arr _, .null => isFalse fun e => JsVal.noConfusion e
  | .arr _, .bool _ => isFalse fun e => JsVal.noConfusion e
  | .arr _, .num _ => isFalse fun e => JsVal.noConfusion e
  | .arr _, .str _ => isFalse fun e => JsVal.noConfusion e
  | .arr xs, .arr ys =>
    match JsVal.decEqItems xs ys with
    | isTrue h => isTrue (congrArg JsVal.arr h)
    | isFalse h => isFalse fun e => h (JsVal.arr.inj e)
  | .arr _, .obj _ => isFalse fun e => JsVal.noConfusion e
  | .arr _, .nonInt _ => isFalse fun e => JsVal.noConfusion e
  | .obj _, .undefined => isFalse fun e => JsVal.noConfusion e
  | .obj _, .null => isFalse fun e => JsVal.noConfusion e
  | .obj _, .bool _ => isFalse fun e => JsVal.noConfusion e
  | .obj _, .num _ => isFalse fun e => JsVal.noConfusion e
  | .obj _, .str _ => isFalse fun e => JsVal.noConfusion e
  | .obj _, .arr _ => isFalse fun e => JsVal.noConfusion e
  | .obj xs, .obj ys =>
    match JsVal.decEqFields xs ys with
    | isTrue h => isTrue (congrArg JsVal.obj h)
    | isFalse h => isFalse fun e => h (JsVal.obj.inj e)
  | .obj _, .nonInt _ => isFalse fun e => JsVal.noConfusion e
  | .nonInt _, .undefined => isFalse fun e => JsVal.noConfusion e
  | .nonInt _, .null => isFalse fun e => JsVal.noConfusion e
  | .nonInt _, .bool _ => isFalse fun e => JsVal.noConfusion e
  | .nonInt _, .num _ => isFalse fun e => JsVal.noConfusion e
  | .nonInt _, .str _ => isFalse fun e => JsVal.noConfusion e
  | .nonInt _, .arr _ => isFalse fun e => JsVal.noConfusion e
  | .nonInt _, .obj _ => isFalse fun e => JsVal.noConfusion e
  | .nonInt x, .nonInt y =>
    if h : x = y then isTrue (congrArg JsVal.nonInt h)
    else isFalse fun e => h (JsVal.nonInt.inj e)
/-- Decidable equality of arrays. -/
def JsVal.decEqItems : (xs ys : List JsVal) → Decidable (xs = ys)
  | [], [] => isTrue rfl
  | [], _ :: _ => isFalse fun e => List.noConfusion e
  | _ :: _, [] => isFalse fun e => List.noConfusion e
  | x :: xs, y :: ys =>
    match JsVal.decEq x y, JsVal.decEqItems xs ys with
    | isTrue h, isTrue t => isTrue (by rw [h, t])
    | isFalse h, _ => isFalse fun e => h (List.cons.inj e).1
    | _, isFalse t => isFalse fun e => t (List.cons.inj e).2
/-- Decidable equality of property lists. -/
def JsVal.decEqFields : (xs ys : List (String × JsVal)) → Decidable (xs = ys)
  | [], [] => isTrue rfl
  | [], _ :: _ => isFalse fun e => List.noConfusion e
  | _ :: _, [] => isFalse fun e => List.noConfusion e
  | (j, x) :: xs, (k, y) :: ys =>
    if hk : j = k then
      match JsVal.decEq x y, JsVal.decEqFields xs ys with
      | isTrue h, isTrue t => isTrue (by rw [hk, h, t])
      | isFalse h, _ => isFalse fun e => h (Prod.mk.inj (List.cons.inj e).1).2
      | _, isFalse t => isFalse fun e => t (List.cons.inj e).2
    else isFalse fun e => hk (Prod.mk.inj (List.cons.inj e).1).1
end

instance : DecidableEq JsVal := JsVal.decEq

/-- A thrown JavaScript exception.  `typeError` is a `TypeError` raised by the
engine itself, `thrown` any other thrown value, kept by its `String(...)` form. -/
inductive JsError where
  | typeError (message : String)
  | thrown (text : String)

/-- The result of `String(error)` on a caught exception. -/
def JsError.toString : JsError → String
  | .typeError message => "TypeError: " ++ message
  | .thrown text => text

/-- The decimal digit `d` as a character. -/
def digitChar (d : Nat) : Char := Char.ofNat (48 + d)

/-- Decimal digits of a natural number, most significant first; the first
argument bounds the number of digits. -/
def natTextAux : Nat → Nat → List Char
  | 0, _ => []
  | fuel + 1, n =>
    if n < 10 then [digitChar n] else natTextAux fuel (n / 10) ++ [digitChar (n % 10)]

/-- The decimal text of a natural number. -/
def natText (n : Nat) : List Char := natTextAux (n + 1) n

/-- The decimal digits of an integer, with its sign. -/
def intText : Int → List Char
  | .ofNat n => natText n
  | .negSucc n => '-' :: natText (n + 1)

/-! ## Double-precision numbers

A finite JavaScript number is a double: a rational of the form
`m × 2 ^ s` with `m < 2 ^ 53` and `-1074 ≤ s`, below `2 ^ 1024` in magnitude.
`Double.nearest` is the rounding of IEEE 754 (to nearest, ties to even) that
the engine applies to every number text and every arithmetic result, and
`numberText` the text of `Number::toString`: the shortest decimal that reads
back as the same double. -/

namespace Double

/-- The number of binary digits of `n`, read in at most `fuel` steps. -/
def bitLengthAux : Nat → Nat → Nat
  | 0, _ => 0
  | fuel + 1, n => if n = 0 then 0 else bitLengthAux fuel (n / 2) + 1

/-- The number of binary digits of `n`: `0` for `0`, `3` for `5`. -/
def bitLength (n : Nat) : Nat := bitLengthAux n n

/-- The binary exponent of the positive fraction `a / b`: the `e` with
`2 ^ e ≤ a / b < 2 ^ (e + 1)`. -/
def binaryExponent (a b : Nat) : Int :=
  let e : Int := (bitLength a : Int) - (bitLength b : Int)
  if b * 2 ^ e.toNat ≤ a * 2 ^ (-e).toNat then e else e - 1

/-- The integer nearest to `n / d`, the even one of two that are equally
near. -/
def roundHalfEven (n d : Nat) : Nat :=
  if 2 * (n % d) < d then n / d
  else if d < 2 * (n % d) then n / d + 1
  else if n / d % 2 = 0 then n / d
  else n / d + 1

/-- The exponent of the last binary place of the double nearest `a / b`: 52
places below the leading one, and never below the place `2 ^ -1074` of the
subnormal numbers. -/
def quantum (a b : Nat) : Int := max (binaryExponent a b - 52) (-1074)

/-- The significand of the double nearest `a / b`, in units of its last
place. -/
def significand (a b : Nat) : Nat :=
  roundHalfEven (a * 2 ^ (-quantum a b).toNat) (b * 2 ^ (quantum a b).toNat)

/-- The double nearest a rational, ties to even; the exponent has no bound
above (see `JsNumber.ofRat` for the overflow to an infinity). -/
def nearest (q : ℚ) : ℚ :=
  if q.num < 0 then
    -((significand q.num.natAbs q.den : ℚ) * 2 ^ quantum q.num.natAbs q.den)
  else (significand q.num.natAbs q.den : ℚ) * 2 ^ quantum q.num.natAbs q.den

end Double

/-- The number that a real value is stored as: the nearest double, an infinity
when that lies beyond the largest double. -/
def JsNumber.ofRat (q : ℚ) : JsNumber :=
  if (2 : ℚ) ^ 1024 ≤ |Double.nearest q| then .infinity (decide (q < 0))
  else .finite (Double.nearest q)

/-- The number as a value: an integer is `num`, any other number `nonInt`. -/
def JsNumber.toVal : JsNumber → JsVal
  | .finite q => if q.den = 1 then .num q.num else .nonInt (.finite q)
  | x => .nonInt x

/-- A decimal number `digits × 10 ^ exponent`. -/
structure Decimal where
  digits : Nat
  exponent : Int
  deriving DecidableEq

namespace Decimal

/-- The value of a decimal. -/
def value (d : Decimal) : ℚ := (d.digits : ℚ) * 10 ^ d.exponent

/-- Drop trailing zeros of the digits, in at most `fuel` steps. -/
def stripAux : Nat → Decimal → Decimal
  | 0, d => d
  | fuel + 1, d =>
    if d.digits % 10 = 0 ∧ d.digits ≠ 0 then
      stripAux fuel { digits := d.digits / 10, exponent := d.exponent + 1 }
    else d

/-- The same decimal without trailing zeros in its digits. -/
def strip (d : Decimal) : Decimal := stripAux d.digits d

end Decimal

namespace Double

/-- The decimal exponent of the positive fraction `a / b`: the `n` with
`10 ^ (n - 1) ≤ a / b < 10 ^ n`. -/
def decimalExponent (a b : Nat) : Int :=
  let n : Int := ((natText a).length : Int) - ((natText b).length : Int)
  if b * 10 ^ n.toNat ≤ a * 10 ^ (-n).toNat then n + 1 else n

/-- The two decimals of `p` significant digits next to the positive number
`x`, the nearer one first (of two equally near, the even one first). -/
def candidates (x : ℚ) (p : Nat) : List Decimal :=
  let e : Int := decimalExponent x.num.natAbs x.den - p
  let scaled : ℚ := x / 10 ^ e
  let below : Nat := ⌊scaled⌋.toNat
  if scaled - below < 1 / 2 ∨ (scaled - below = 1 / 2 ∧ below % 2 = 0) then
    [{ digits := below, exponent := e }, { digits := below + 1, exponent := e }]
  else [{ digits := below + 1, exponent := e }, { digits := below, exponent := e }]

/-- Whether the decimal `d` reads back as the double `x`. -/
def readsAs (x : ℚ) (d : Decimal) : Bool := d.digits ≠ 0 ∧ nearest d.value = x

/-- The exact decimal expansion of the double nearest the positive number
`x`. -/
def exact (x : ℚ) : Decimal :=
  if 0 ≤ quantum x.num.natAbs x.den then
    { digits := significand x.num.natAbs x.den * 2 ^ (quantum x.num.natAbs x.den).toNat
      exponent := 0 }
  else
    { digits := significand x.num.natAbs x.den * 5 ^ (-quantum x.num.natAbs x.den).toNat
      exponent := quantum x.num.natAbs x.den }

/-- The digits `Number::toString` prints for the positive double `x`: the
decimal of fewest significant digits that reads back as `x`, the nearest to
`x` among those.  Seventeen digits are enough for every double; the exact
expansion closes the definition. -/
def shortest (x : ℚ) : Decimal :=
  match (((List.range 17).map fun i => candidates x (i + 1)).flatten).find? (readsAs x) with
  | some d => d.strip
  | none => (exact x).strip

end Double

/-- The layout of `Number::toString` for the digits `ds` of a positive number
below `10 ^ n`: plain digits up to 21 integer places, a decimal point within
the digits or after up to six leading zeros, and the exponent form
otherwise. -/
def layout (ds : List Char) (n : Int) : List Char :=
  if (ds.length : Int) ≤ n ∧ n ≤ 21 then ds ++ List.replicate (n - ds.length).toNat '0'
  else if 0 < n ∧ n ≤ 21 then ds.take n.toNat ++ '.' :: ds.drop n.toNat
  else if -6 < n ∧ n ≤ 0 then '0' :: '.' :: (List.replicate (-n).toNat '0' ++ ds)
  else
    match ds with
    | [] => []
    | d :: more =>
      (if more = [] then [d] else d :: '.' :: more) ++
        ('e' :: (if 0 ≤ n - 1 then '+' else '-') :: natText (n - 1).natAbs)

/-- The text `Number::toString` gives the double nearest `q`. -/
def numberText (q : ℚ) : List Char :=
  if Double.nearest q = 0 then ['0']
  else
    (if Double.nearest q < 0 then ['-'] else []) ++
      layout (natText (Double.shortest |Double.nearest q|).digits)
        ((Double.shortest |Double.nearest q|).exponent +
          (natText (Double.shortest |Double.nearest q|).digits).length)

/-- The text `Number::toString` gives a number. -/
def JsNumber.text : JsNumber → List Char
  | .nan => ['N', 'a', 'N']
  | .infinity false => ['I', 'n', 'f', 'i', 'n', 'i', 't', 'y']
  | .infinity true => ['-', 'I', 'n', 'f', 'i', 'n', 'i', 't', 'y']
  | .finite q => numberText q

namespace JsVal

/-- JavaScript truthiness (`ToBoolean`), as used by `if (x)` and `!x`. -/
def truthy : JsVal → Bool
  | undefined => false
  | null => false
  | bool b => b
  | num n => n != 0
  | str s => s != ""
  | arr _ => true
  | obj _ => true
  | nonInt .nan => false
  | nonInt (.infinity _) => true
  | nonInt (.finite q) => q != 0

/-- Whether the value is `null` or `undefined`. -/
def isNullish : JsVal → Bool
  | undefined => true
  | null => true
  | _ => false

/-- The own property `key` of an object, if present (`none` for every value
that is not an object). -/
def field? (v : JsVal) (key : String) : Option JsVal :=
  match v with
  | obj fields => fields.lookup key
  | _ => none

/-- The name of a nullish value inside an engine error message. -/
def nullishName : JsVal → String
  | null => "null"
  | _ => "undefined"

/-- The value of the expression `v.key` when `v` is neither `null` nor
`undefined`, for the property names the server reads (none of which lives on a
prototype): the own property of an object, and `undefined` otherwise. -/
def prop (v : JsVal) (key : String) : JsVal :=
  match v with
  | obj fields => (fields.lookup key).getD undefined
  | _ => undefined

/-- The property read `v.key`: a `TypeError` on `null` and `undefined`. -/
def getProp (v : JsVal) (key : String) : Except JsError JsVal :=
  match v with
  | undefined | null =>
    .error (.typeError
      ("Cannot read properties of " ++ nullishName v ++ " (reading \x27" ++ key ++ "\x27)"))
  | _ => .ok (v.prop key)

/-- One binding `key` of an object destructuring pattern applied to `v`, the
value of the expression `source`: a `TypeError` when `v` is `null` or
`undefined`, else the property read. -/
def destructure (v : JsVal) (key : String) (source : String) : Except JsError JsVal :=
  match v with
  | undefined | null =>
    .error (.typeError
      ("Cannot destructure property \x27" ++ key ++ "\x27 of \x27" ++ source ++
        "\x27 as it is " ++ nullishName v ++ "."))
  | _ => .ok (v.prop key)

mutual
/-- The string conversion `ToString(v)` of a template literal substitution.  An
object converts through `OrdinaryToPrimitive`: an own `toString` property
(never callable in a parsed value) hides `Object.prototype.toString`, the
inherited `valueOf` returns the object itself, and the conversion throws;
without such a property the result is `[object Object]`.  An array converts
through `join`, where `null` and `undefined` elements give the empty string. -/
def toStr : JsVal → Except JsError String
  | undefined => .ok "undefined"
  | null => .ok "null"
  | bool true => .ok "true"
  | bool false => .ok "false"
  | num n => .ok (String.mk (numberText n))
  | str s => .ok s
  | arr items =>
    match joinParts items with
    | .ok parts => .ok (String.intercalate "," parts)
    | .error e => .error e
  | obj fields =>
    match fields.lookup "toString" with
    | some _ => .error (.typeError "Cannot convert object to primitive value")
    | none => .ok "[object Object]"
  | nonInt x => .ok (String.mk x.text)
/-- The element strings of `Array.prototype.join`. -/
def joinParts : List JsVal → Except JsError (List String)
  | [] => .ok []
  | x :: rest =>
    match (match x with
      | undefined => Except.ok ""
      | null => Except.ok ""
      | y => toStr y) with
    | .error e => .error e
    | .ok s =>
      match joinParts rest with
      | .ok parts => .ok (s :: parts)
      | .error e => .error e
end

end JsVal

/-! ## `JSON.stringify(value, null, 2)` -/

namespace JSON

/-- The lower-case hexadecimal digit of `n < 16`. -/
def hexDigit (n : Nat) : Char :=
  if n < 10 then Char.ofNat (48 + n) else Char.ofNat (87 + n)

/-- One character of `QuoteJSONString`: the two-character escapes, `\u00XX`
for the other control characters, and every other character unchanged. -/
def quoteChar (c : Char) : List Char :=
  if c = Char.ofNat 8 then ['\\', 'b']
  else if c = Char.ofNat 9 then ['\\', 't']
  else if c = Char.ofNat 10 then ['\\', 'n']
  else if c = Char.ofNat 12 then ['\\', 'f']
  else if c = Char.ofNat 13 then ['\\', 'r']
  else if c = '"' then ['\\', '"']
  else if c = '\\' then ['\\', '\\']
  else if c.toNat < 32 then
    ['\\', 'u', '0', '0', hexDigit (c.toNat / 16), hexDigit (c.toNat % 16)]
  else [c]

/-- The escaped characters of a string, without the surrounding quotes. -/
def quoteChars : List Char → List Char
  | [] => []
  | c :: cs => quoteChar c ++ quoteChars cs

/-- The function `QuoteJSONString`. -/
def quote (s : String) : List Char :=
  '"' :: (quoteChars s.data ++ ['"'])

/-- Indentation at nesting depth `depth` with a gap of two spaces. -/
def pad (depth : Nat) : List Char := List.replicate (2 * depth) ' '

/-- Join the serialised members with `sep`. -/
def joinWith (sep : List Char) : List (List Char) → List Char
  | [] => []
  | [p] => p
  | p :: q :: rest => p ++ sep ++ joinWith sep (q :: rest)

/-- The text of a non-empty array or object at nesting depth `depth`:
opening bracket, members one per line at depth `depth + 1`, closing bracket. -/
def wrap (opening closing : Char) (depth : Nat) (parts : List (List Char)) : List Char :=
  opening :: '\n' :: (pad (depth + 1) ++
    (joinWith (',' :: '\n' :: pad (depth + 1)) parts ++ ('\n' :: (pad depth ++ [closing]))))

mutual
/-- The operation `SerializeJSONProperty` with gap `"  "`, at nesting depth
`depth`; `none` stands for the result `undefined`. -/
def serialize (depth : Nat) : JsVal → Option (List Char)
  | .undefined => none
  | .null => some ['n', 'u', 'l', 'l']
  | .bool true => some ['t', 'r', 'u', 'e']
  | .bool false => some ['f', 'a', 'l', 's', 'e']
  | .num n => some (numberText n)
  | .str s => some (quote s)
  | .arr items =>
    match serializeItems (depth + 1) items with
    | [] => some ['[', ']']
    | p :: parts => some (wrap '[' ']' depth (p :: parts))
  | .obj fields =>
    match serializeFields (depth + 1) fields with
    | [] => some ['\x7b', '\x7d']
    | p :: parts => some (wrap '\x7b' '\x7d' depth (p :: parts))
  | .nonInt (.finite q) => some (numberText q)
  | .nonInt _ => some ['n', 'u', 'l', 'l']
/-- The elements of an array; an element without a serialisation is written
`null`. -/
def serializeItems (depth : Nat) : List JsVal → List (List Char)
  | [] => []
  | x :: rest =>
    (match serialize depth x with
      | some text => text
      | none => ['n', 'u', 'l', 'l']) :: serializeItems depth rest
/-- The members of an object; a property without a serialisation is left
out. -/
def serializeFields (depth : Nat) : List (String × JsVal) → List (List Char)
  | [] => []
  | (key, value) :: rest =>
    match serialize depth value with
    | some text => (quote key ++ (':' :: ' ' :: text)) :: serializeFields depth rest
    | none => serializeFields depth rest
end

/-- The call `JSON.stringify(value, null, 2)`: a string, or `undefined` when
the value has no serialisation. -/
def stringify (value : JsVal) : JsVal :=
  match serialize 0 value with
  | some text => .str (String.mk text)
  | none => .undefined

end JSON

/-! ## The tool registry -/

/-- The two sides of the unresolved merge in `server.ts`: `head` is the text
between `<<<<<<< HEAD` and `=======`, `incoming` the text between `=======` and
`>>>>>>> c7ba531`. -/
inductive MergeSide where
  | head
  | incoming

/-- A tool handler as the dispatcher sees it: the outcome of `await handler(args)`,
either the value the promise resolves to or the exception it rejects with. -/
abbrev ToolHandler := JsVal → Except JsError JsVal

/-- The `Failure` shape of a tool result: the object literal with the single
property `error` that the handlers return. -/
def failure (error : JsVal) : JsVal := .obj [("error", error)]

/-- The `Success` shape of a tool result: the object literal with `success: true`
and the payload `data` that the handlers return. -/
def success (data : JsVal) : JsVal := .obj [("success", .bool true), ("data", data)]

/-- The handler functions defined in `server.ts`.  The dispatch layer stores
them and calls them, and never looks inside. -/
structure Handlers where
  cropPriceHandler : ToolHandler
  searchHandler : ToolHandler
  soilHealthHandler : ToolHandler
  weatherHandler : ToolHandler
  pestIdentifierHandler : ToolHandler
  mandiPriceHandler : ToolHandler
  schemeToolHandler : ToolHandler

/-- A JavaScript `Map` with string keys, as the list of its entries in
insertion order. -/
abbrev JsMap (α : Type) := List (String × α)

namespace JsMap

/-- The method `Map.prototype.set`: replace the value of an existing key in
place, or append a new entry. -/
def set {α : Type} : JsMap α → String → α → JsMap α
  | [], key, value => [(key, value)]
  | (k, v) :: rest, key, value =>
    if k = key then (key, value) :: rest else (k, v) :: set rest key value

/-- The method `Map.prototype.get` for an arbitrary key value: only a string
can equal one of the keys; `none` stands for `undefined`. -/
def get {α : Type} (m : JsMap α) (key : JsVal) : Option α :=
  match key with
  | .str k => m.lookup k
  | _ => none

/-- The call `Array.from(map.keys())`. -/
def keys {α : Type} (m : JsMap α) : List String := m.map Prod.fst

end JsMap

/-- The registry `toolHandlers`, built by the successive `set` calls. -/
def toolHandlers (side : MergeSide) (hs : Handlers) : JsMap ToolHandler :=
  let m : JsMap ToolHandler := []
  let m := m.set "crop-price" hs.cropPriceHandler
  let m := m.set "search" hs.searchHandler
  let m := m.set "soil-health" hs.soilHealthHandler
  let m := m.set "weather" hs.weatherHandler
  let m := m.set "pest-identifier" hs.pestIdentifierHandler
  let m := m.set "mandi-price" hs.mandiPriceHandler
  match side with
  | .head => m
  | .incoming => m.set "scheme-tool" hs.schemeToolHandler

/-- The registry keys as a JavaScript array of strings. -/
def toolNames (side : MergeSide) (hs : Handlers) : JsVal :=
  .arr ((toolHandlers side hs).keys.map JsVal.str)

/-! ## The tool descriptors -/

/-- The descriptor of `crop-price` in `mcpTools`. -/
def cropPriceDescriptor : JsVal :=
  .obj [
    ("name", .str "crop-price"),
    ("description", .str "Fetch crop price data from data.gov.in with state/district/commodity filters"),
    ("inputSchema", .obj [
      ("type", .str "object"),
      ("properties", .obj [
        ("state", .obj [
          ("type", .str "string"),
          ("description", .str "State filter (e.g., Punjab, Maharashtra)")]),
        ("district", .obj [
          ("type", .str "string"),
          ("description", .str "District filter (e.g., Ludhiana, Mumbai)")]),
        ("commodity", .obj [
          ("type", .str "string"),
          ("description", .str "Commodity filter (e.g., Wheat, Rice, Cotton)")]),
        ("limit", .obj [
          ("type", .str "number"),
          ("description", .str "Max records to return (default: 50)"),
          ("default", .num 50)]),
        ("offset", .obj [
          ("type", .str "number"),
          ("description", .str "Records to skip (default: 0)"),
          ("default", .num 0)])])])]

/-- The descriptor of `search` in `mcpTools`. -/
def searchDescriptor : JsVal :=
  .obj [
    ("name", .str "search"),
    ("description", .str "Search the web for agricultural information using EXA API"),
    ("inputSchema", .obj [
      ("type", .str "object"),
      ("properties", .obj [
        ("query", .obj [
          ("type", .str "string"),
          ("description", .str "Search query for agricultural information")]),
        ("num_results", .obj [
          ("type", .str "number"),
          ("description", .str "Number of results to return (default: 5)"),
          ("default", .num 5)]),
        ("include_domains", .obj [
          ("type", .str "array"),
          ("items", .obj [("type", .str "string")]),
          ("description", .str "Domains to include in search")]),
        ("exclude_domains", .obj [
          ("type", .str "array"),
          ("items", .obj [("type", .str "string")]),
          ("description", .str "Domains to exclude from search")])]),
      ("required", .arr [.str "query"])])]

/-- The descriptor of `soil-health` in `mcpTools`. -/
def soilHealthDescriptor : JsVal :=
  .obj [
    ("name", .str "soil-health"),
    ("description", .str "Analyze soil health parameters and provide crop recommendations based on NPK, pH, and organic content"),
    ("inputSchema", .obj [
      ("type", .str "object"),
      ("properties", .obj [
        ("state", .obj [("type", .str "string"), ("description", .str "State where soil sample is from")]),
        ("district", .obj [
          ("type", .str "string"),
          ("description", .str "District where soil sample is from")]),
        ("soil_type", .obj [
          ("type", .str "string"),
          ("description", .str "Type of soil (e.g., Alluvial, Black Cotton, Red, Laterite)")]),
        ("npk_values", .obj [
          ("type", .str "object"),
          ("properties", .obj [
            ("nitrogen", .obj [("type", .str "number"), ("description", .str "Nitrogen content (kg/ha)")]),
            ("phosphorus", .obj [("type", .str "number"), ("description", .str "Phosphorus content (kg/ha)")]),
            ("potassium", .obj [("type", .str "number"), ("description", .str "Potassium content (kg/ha)")])]),
          ("description", .str "NPK values from soil test")]),
        ("ph_level", .obj [("type", .str "number"), ("description", .str "Soil pH level (0-14 scale)")]),
        ("organic_content", .obj [
          ("type", .str "number"),
          ("description", .str "Organic carbon content percentage")])])])]

/-- The descriptor of `weather` in `mcpTools`. -/
def weatherDescriptor : JsVal :=
  .obj [
    ("name", .str "weather"),
    ("description", .str "Get farming-specific weather forecast with irrigation and pest risk alerts"),
    ("inputSchema", .obj [
      ("type", .str "object"),
      ("properties", .obj [
        ("location", .obj [
          ("type", .str "string"),
          ("description", .str "Location for weather forecast (city, district, or coordinates)")]),
        ("days", .obj [
          ("type", .str "number"),
          ("description", .str "Number of days to forecast (default: 7, max: 14)"),
          ("default", .num 7)]),
        ("include_farming_alerts", .obj [
          ("type", .str "boolean"),
          ("description", .str "Include farming-specific alerts and recommendations"),
          ("default", .bool true)])]),
      ("required", .arr [.str "location"])])]

/-- The descriptor of `pest-identifier` in `mcpTools`. -/
def pestIdentifierDescriptor : JsVal :=
  .obj [
    ("name", .str "pest-identifier"),
    ("description", .str "Identify crop pests and diseases based on symptoms and provide treatment recommendations"),
    ("inputSchema", .obj [
      ("type", .str "object"),
      ("properties", .obj [
        ("crop", .obj [
          ("type", .str "string"),
          ("description", .str "Type of crop affected (e.g., rice, wheat, cotton, maize)")]),
        ("symptoms", .obj [
          ("type", .str "string"),
          ("description", .str "Comma-separated list of observed symptoms (e.g., \x27yellowing leaves, holes in stem, stunted growth\x27)")]),
        ("image_description", .obj [
          ("type", .str "string"),
          ("description", .str "Description of what is visible in pest/disease images")]),
        ("location", .obj [
          ("type", .str "string"),
          ("description", .str "Location where pest/disease is observed")])]),
      ("required", .arr [.str "crop", .str "symptoms"])])]

/-- The descriptor of `mandi-price` in `mcpTools`. -/
def mandiPriceDescriptor : JsVal :=
  .obj [
    ("name", .str "mandi-price"),
    ("description", .str "Track mandi prices with trends, predictions, and market recommendations"),
    ("inputSchema", .obj [
      ("type", .str "object"),
      ("properties", .obj [
        ("commodity", .obj [
          ("type", .str "string"),
          ("description", .str "Commodity to track (e.g., wheat, rice, cotton, maize, soybean)")]),
        ("state", .obj [("type", .str "string"), ("description", .str "State for price tracking")]),
        ("district", .obj [("type", .str "string"), ("description", .str "District for local mandi prices")]),
        ("days_back", .obj [
          ("type", .str "number"),
          ("description", .str "Number of days of historical data (default: 30)"),
          ("default", .num 30)]),
        ("include_predictions", .obj [
          ("type", .str "boolean"),
          ("description", .str "Include 7-day price predictions"),
          ("default", .bool true)])]),
      ("required", .arr [.str "commodity"])])]

/-- The descriptor of `scheme-tool` in `mcpTools`. -/
def schemeToolDescriptor : JsVal :=
  .obj [
    ("name", .str "scheme-tool"),
    ("description", .str "Help farmers with crop damage schemes, insurance claims, and government relief programs. Searches for recent relief announcements and provides personalized guidance."),
    ("inputSchema", .obj [
      ("type", .str "object"),
      ("properties", .obj [
        ("damage_type", .obj [
          ("type", .str "string"),
          ("description", .str "Type of damage (e.g., drought, flood, cyclone, hailstorm, pest_attack, disease, fire)"),
          ("enum", .arr [
            .str "drought",
            .str "flood",
            .str "cyclone",
            .str "hailstorm",
            .str "pest_attack",
            .str "disease",
            .str "fire",
            .str "unseasonal_rain",
            .str "frost",
            .str "other"])]),
        ("crop_type", .obj [
          ("type", .str "string"),
          ("description", .str "Type of crop affected (e.g., wheat, rice, cotton, sugarcane, maize)")]),
        ("state", .obj [("type", .str "string"), ("description", .str "State where damage occurred")]),
        ("district", .obj [("type", .str "string"), ("description", .str "District where damage occurred")]),
        ("damage_extent", .obj [
          ("type", .str "string"),
          ("description", .str "Extent of damage"),
          ("enum", .arr [.str "minor", .str "moderate", .str "severe", .str "complete"])]),
        ("has_insurance", .obj [
          ("type", .str "boolean"),
          ("description", .str "Whether farmer has crop insurance"),
          ("default", .bool false)]),
        ("insurance_type", .obj [
          ("type", .str "string"),
          ("description", .str "Type of insurance (e.g., PMFBY, WBCIS, private)"),
          ("enum", .arr [.str "pmfby", .str "wbcis", .str "private", .str "none"])]),
        ("farmer_category", .obj [
          ("type", .str "string"),
          ("description", .str "Category of farmer"),
          ("enum", .arr [.str "small", .str "marginal", .str "medium", .str "large"])]),
        ("land_size_acres", .obj [("type", .str "number"), ("description", .str "Size of affected land in acres")]),
        ("damage_date", .obj [
          ("type", .str "string"),
          ("description", .str "Date when damage occurred (YYYY-MM-DD format)")]),
        ("search_relief_schemes", .obj [
          ("type", .str "boolean"),
          ("description", .str "Whether to search for recent government relief announcements"),
          ("default", .bool true)])]),
      ("required", .arr [.str "damage_type", .str "state", .str "district"])])]

/-- The array `mcpTools`. -/
def mcpTools (side : MergeSide) : List JsVal :=
  [cropPriceDescriptor, searchDescriptor, soilHealthDescriptor, weatherDescriptor,
    pestIdentifierDescriptor, mandiPriceDescriptor] ++
  match side with
  | .head => []
  | .incoming => [schemeToolDescriptor]

/-! ## The dispatcher -/

/-- The comparison `value === literal` of a `case` label that is a string
literal. -/
def strictEqStr (value : JsVal) (literal : String) : Bool :=
  match value with
  | .str s => s == literal
  | _ => false

/-- The `result` of the `initialize` branch. -/
def initializeResult : JsVal :=
  .obj [
    ("protocolVersion", .str "2024-11-05"),
    ("capabilities", .obj [("tools", .obj [])]),
    ("serverInfo", .obj [("name", .str "agricultural-ai-mcp"), ("version", .str "1.0.0")])]

/-- The `tools/call` branch of `handleMCPRequest`. -/
def toolsCall (side : MergeSide) (hs : Handlers) (request : JsVal) : Except JsError JsVal := do
  let params ← request.getProp "params"
  let name ← params.destructure "name" "request.params"
  let args ← params.destructure "arguments" "request.params"
  match (toolHandlers side hs).get name with
  | none =>
    let id ← request.getProp "id"
    let shown ← name.toStr
    pure (.obj [
      ("jsonrpc", .str "2.0"),
      ("id", id),
      ("error", .obj [
        ("code", .num (-32601)),
        ("message", .str ("Tool \x27" ++ shown ++ "\x27 not found")),
        ("data", .obj [("availableTools", toolNames side hs)])])])
  | some handler =>
    let result ← handler args
    let error ← result.getProp "error"
    if error.truthy then
      let id ← request.getProp "id"
      let message ← result.getProp "error"
      pure (.obj [
        ("jsonrpc", .str "2.0"),
        ("id", id),
        ("error", .obj [("code", .num (-32603)), ("message", message)])])
    else
      let id ← request.getProp "id"
      let data ← result.getProp "data"
      pure (.obj [
        ("jsonrpc", .str "2.0"),
        ("id", id),
        ("result", .obj [
          ("content", .arr [.obj [("type", .str "text"), ("text", JSON.stringify data)]])])])

/-- The body of the `try` block of `handleMCPRequest`: the `switch` on
`request.method`. -/
def dispatch (side : MergeSide) (hs : Handlers) (request : JsVal) : Except JsError JsVal := do
  let method ← request.getProp "method"
  if strictEqStr method "initialize" then
    let id ← request.getProp "id"
    pure (.obj [("jsonrpc", .str "2.0"), ("id", id), ("result", initializeResult)])
  else if strictEqStr method "tools/list" then
    let id ← request.getProp "id"
    pure (.obj [
      ("jsonrpc", .str "2.0"),
      ("id", id),
      ("result", .obj [("tools", .arr (mcpTools side))])])
  else if strictEqStr method "tools/call" then
    toolsCall side hs request
  else
    let id ← request.getProp "id"
    let shown ← method.toStr
    pure (.obj [
      ("jsonrpc", .str "2.0"),
      ("id", id),
      ("error", .obj [
        ("code", .num (-32601)),
        ("message", .str ("Method \x27" ++ shown ++ "\x27 not found"))])])

/-- The function `handleMCPRequest`: the value the returned promise resolves
to, or the exception it rejects with.  The `catch` block reads `request.id`
again while it builds the `-32603` response. -/
def handleMCPRequest (side : MergeSide) (hs : Handlers) (request : JsVal) :
    Except JsError JsVal :=
  match dispatch side hs request with
  | .ok response => .ok response
  | .error error => do
    let id ← request.getProp "id"
    pure (.obj [
      ("jsonrpc", .str "2.0"),
      ("id", id),
      ("error", .obj [
        ("code", .num (-32603)),
        ("message", .str ("Internal error: " ++ error.toString))])])

/-- What the HTTP listener writes: the status of `res.writeHead` and the value
handed to `JSON.stringify` for `res.end`. -/
structure HttpResponse where
  status : Nat
  body : JsVal

/-- The `end` callback of the `POST /mcp` route, given the outcome of
`JSON.parse(body)`: one `try` block around the parse and the dispatcher, whose
`catch` answers 400 with a `-32700` error. -/
def mcpRoute (side : MergeSide) (hs : Handlers) (parsed : Except JsError JsVal) :
    HttpResponse :=
  match parsed >>= handleMCPRequest side hs with
  | .ok mcpResponse => { status := 200, body := mcpResponse }
  | .error error =>
    { status := 400,
      body := .obj [
        ("jsonrpc", .str "2.0"),
        ("id", .num 0),
        ("error", .obj [
          ("code", .num (-32700)),
          ("message", .str ("Parse error: " ++ error.toString))])] }


/-! ## `JSON.parse`

The grammar of ECMA-404 on the values of `JsVal`.  A number is read as the
double nearest its decimal value.  A `\u` escape of a surrogate code unit has
no counterpart in `JsVal`, whose strings hold Unicode scalar values, and is
reported like a syntax error.  The message of the `SyntaxError` differs from
one engine version to the next: one text stands for each of the two ways in
which the reading fails. -/

namespace JSON

/-- JSON white space: space, tab, line feed, carriage return. -/
def isWs (c : Char) : Bool :=
  c = ' ' || c = Char.ofNat 9 || c = Char.ofNat 10 || c = Char.ofNat 13

/-- Drop leading white space. -/
def skipWs : List Char → List Char
  | [] => []
  | c :: cs => if isWs c then skipWs cs else c :: cs

/-- Match the characters `literal` at the head of the input; the rest of the
input on success. -/
def expectText : List Char → List Char → Option (List Char)
  | [], cs => some cs
  | _ :: _, [] => none
  | p :: ps, c :: cs => if p = c then expectText ps cs else none

/-- The value of a hexadecimal digit, in either case. -/
def hexValue (c : Char) : Option Nat :=
  if 48 ≤ c.toNat ∧ c.toNat ≤ 57 then some (c.toNat - 48)
  else if 97 ≤ c.toNat ∧ c.toNat ≤ 102 then some (c.toNat - 87)
  else if 65 ≤ c.toNat ∧ c.toNat ≤ 70 then some (c.toNat - 55)
  else none

/-- The character of the two-character escape `\e`. -/
def simpleEscape (e : Char) : Option Char :=
  if e = '"' then some '"'
  else if e = '\\' then some '\\'
  else if e = '/' then some '/'
  else if e = 'b' then some (Char.ofNat 8)
  else if e = 'f' then some (Char.ofNat 12)
  else if e = 'n' then some (Char.ofNat 10)
  else if e = 'r' then some (Char.ofNat 13)
  else if e = 't' then some (Char.ofNat 9)
  else none

/-- Put a character in front of the characters parsed after it. -/
def consChar (c : Char) : Option (List Char × List Char) → Option (List Char × List Char)
  | some (s, rest) => some (c :: s, rest)
  | none => none

/-- Where the reader stands inside a string: between characters, after a
backslash, or inside a `\u` escape, where the next character is a hexadecimal
digit, `remaining` more follow it, and `code` is the value read so far. -/
inductive StringMode where
  | plain
  | escape
  | hex (remaining : Nat) (code : Nat)

/-- The characters of a string, read one input character at a time up to the
closing quote; the rest of the input follows.  A `\u` escape of a surrogate
code unit is rejected. -/
def parseStringFrom : StringMode → List Char → Option (List Char × List Char)
  | _, [] => none
  | .plain, c :: cs =>
    if c = '"' then some ([], cs)
    else if c = '\\' then parseStringFrom .escape cs
    else if c.toNat < 32 then none
    else consChar c (parseStringFrom .plain cs)
  | .escape, e :: cs =>
    if e = 'u' then parseStringFrom (.hex 3 0) cs
    else
      match simpleEscape e with
      | some ch => consChar ch (parseStringFrom .plain cs)
      | none => none
  | .hex (remaining + 1) code, c :: cs =>
    match hexValue c with
    | some v => parseStringFrom (.hex remaining (code * 16 + v)) cs
    | none => none
  | .hex 0 code, c :: cs =>
    match hexValue c with
    | some v =>
      if 55296 ≤ code * 16 + v ∧ code * 16 + v ≤ 57343 then none
      else consChar (Char.ofNat (code * 16 + v)) (parseStringFrom .plain cs)
    | none => none

/-- The characters of a string, read after its opening quote. -/
def parseString (cs : List Char) : Option (List Char × List Char) :=
  parseStringFrom .plain cs

/-- Read decimal digits into the accumulator; the rest of the input follows. -/
def parseDigits : List Char → Nat → Nat × List Char
  | [], acc => (acc, [])
  | c :: cs, acc =>
    if 48 ≤ c.toNat ∧ c.toNat ≤ 57 then parseDigits cs (acc * 10 + (c.toNat - 48))
    else (acc, c :: cs)

/-- The integer part of a number: `0`, or a non-zero digit followed by digits. -/
def parseNat : List Char → Option (Nat × List Char)
  | [] => none
  | c :: cs =>
    if c = '0' then some (0, cs)
    else if 49 ≤ c.toNat ∧ c.toNat ≤ 57 then some (parseDigits (c :: cs) 0)
    else none

/-- Whether the input goes on with more of a number: a digit, a fraction or an
exponent. -/
def continuesNumber : List Char → Bool
  | [] => false
  | c :: _ => (48 ≤ c.toNat ∧ c.toNat ≤ 57) || c = '.' || c = 'e' || c = 'E'

/-- The number that a list of digit characters denotes, continuing `acc`. -/
def digitsValue (acc : Nat) (ds : List Char) : Nat :=
  ds.foldl (fun a c => a * 10 + (c.toNat - 48)) acc

/-- The digits at the head of the input, and the rest of the input. -/
def spanDigits : List Char → List Char × List Char
  | [] => ([], [])
  | c :: cs =>
    if 48 ≤ c.toNat ∧ c.toNat ≤ 57 then ((c :: (spanDigits cs).1), (spanDigits cs).2)
    else ([], c :: cs)

/-- The fraction of a number, if it has one: a point and at least one digit.
The result is the digits (none without a fraction) and the rest. -/
def parseFraction (cs : List Char) : Option (List Char × List Char) :=
  match cs with
  | [] => some ([], [])
  | c :: rest =>
    if c = '.' then
      match spanDigits rest with
      | ([], _) => none
      | (d :: ds, after) => some (d :: ds, after)
    else some ([], c :: rest)

/-- The digits of an exponent: at least one; `negative` is its sign. -/
def parseExponentDigits (negative : Bool) (cs : List Char) : Option (Int × List Char) :=
  match spanDigits cs with
  | ([], _) => none
  | (d :: ds, after) =>
    some (if negative then -(digitsValue 0 (d :: ds) : Int) else (digitsValue 0 (d :: ds) : Int),
      after)

/-- The exponent of a number, if it has one: `e` or `E`, an optional sign and
at least one digit.  The result is the exponent (`0` without one) and the
rest. -/
def parseExponent (cs : List Char) : Option (Int × List Char) :=
  match cs with
  | [] => some (0, [])
  | c :: rest =>
    if c = 'e' ∨ c = 'E' then
      match rest with
      | [] => none
      | s :: after =>
        if s = '-' then parseExponentDigits true after
        else if s = '+' then parseExponentDigits false after
        else parseExponentDigits false (s :: after)
    else some (0, c :: rest)

/-- The value of a number text: the integer part `whole`, the fraction digits
`fraction` and the exponent, stored as a double. -/
def numberValue (negative : Bool) (whole : Nat) (fraction : List Char) (exponent : Int) :
    JsNumber :=
  JsNumber.ofRat
    ((if negative then -1 else 1) *
      (((whole * 10 ^ fraction.length + digitsValue 0 fraction : Nat) : ℚ) *
        10 ^ (exponent - fraction.length)))

/-- A number after its sign: integer part, fraction and exponent. -/
def parseUnsigned (negative : Bool) (cs : List Char) : Option (JsVal × List Char) :=
  match parseNat cs with
  | none => none
  | some (whole, afterWhole) =>
    match parseFraction afterWhole with
    | none => none
    | some (fraction, afterFraction) =>
      match parseExponent afterFraction with
      | none => none
      | some (exponent, after) =>
        some ((numberValue negative whole fraction exponent).toVal, after)

/-- A number: an optional minus sign, an integer part, and optionally a
fraction and an exponent. -/
def parseNumber (cs : List Char) : Option (JsVal × List Char) :=
  match cs with
  | [] => none
  | c :: rest => if c = '-' then parseUnsigned true rest else parseUnsigned false (c :: rest)

/-- Define the properties of an object in the order of the text: a repeated
name keeps its place and takes the later value.  (JavaScript enumerates
integer-like names first; the list keeps the order of the text.) -/
def buildObject (members : List (String × JsVal)) : JsVal :=
  .obj (members.foldl (fun fields member => JsMap.set fields member.1 member.2) [])

mutual
/-- A JSON value, after optional white space; the rest of the input follows.
The first argument bounds the nesting and the number of members read. -/
def parseValue : Nat → List Char → Option (JsVal × List Char)
  | 0, _ => none
  | fuel + 1, cs =>
    match skipWs cs with
    | [] => none
    | c :: rest =>
      if c = 'n' then
        match expectText ['u', 'l', 'l'] rest with
        | some after => some (.null, after)
        | none => none
      else if c = 't' then
        match expectText ['r', 'u', 'e'] rest with
        | some after => some (.bool true, after)
        | none => none
      else if c = 'f' then
        match expectText ['a', 'l', 's', 'e'] rest with
        | some after => some (.bool false, after)
        | none => none
      else if c = '"' then
        match parseString rest with
        | some (s, after) => some (.str (String.mk s), after)
        | none => none
      else if c = '[' then
        match skipWs rest with
        | [] => none
        | d :: after =>
          if d = ']' then some (.arr [], after)
          else
            match parseItems fuel (d :: after) with
            | some (items, last) => some (.arr items, last)
            | none => none
      else if c = '\x7b' then
        match skipWs rest with
        | [] => none
        | d :: after =>
          if d = '\x7d' then some (.obj [], after)
          else
            match parseMembers fuel (d :: after) with
            | some (members, last) => some (buildObject members, last)
            | none => none
      else parseNumber (c :: rest)
/-- The elements of a non-empty array up to the closing bracket. -/
def parseItems : Nat → List Char → Option (List JsVal × List Char)
  | 0, _ => none
  | fuel + 1, cs =>
    match parseValue fuel cs with
    | none => none
    | some (value, rest) =>
      match skipWs rest with
      | [] => none
      | c :: after =>
        if c = ',' then
          match parseItems fuel after with
          | some (items, last) => some (value :: items, last)
          | none => none
        else if c = ']' then some ([value], after)
        else none
/-- The members of a non-empty object up to the closing brace. -/
def parseMembers : Nat → List Char → Option (List (String × JsVal) × List Char)
  | 0, _ => none
  | fuel + 1, cs =>
    match skipWs cs with
    | [] => none
    | q :: rest =>
      if q = '"' then
        match parseString rest with
        | none => none
        | some (key, afterKey) =>
          match skipWs afterKey with
          | [] => none
          | colon :: afterColon =>
            if colon = ':' then
              match parseValue fuel afterColon with
              | none => none
              | some (value, afterValue) =>
                match skipWs afterValue with
                | [] => none
                | c :: after =>
                  if c = ',' then
                    match parseMembers fuel after with
                    | some (members, last) => some ((String.mk key, value) :: members, last)
                    | none => none
                  else if c = '\x7d' then some ([(String.mk key, value)], after)
                  else none
            else none
      else none
end

/-- The call `JSON.parse(text)`: the value of the text, or the `SyntaxError`
thrown when the text is not one JSON value surrounded by white space. -/
def parse (text : String) : Except JsError JsVal :=
  match parseValue (text.length + 1) text.data with
  | some (value, rest) =>
    match skipWs rest with
    | [] => .ok value
    | _ :: _ => .error (.thrown "SyntaxError: Unexpected non-whitespace character after JSON")
  | none => .error (.thrown "SyntaxError: Unexpected token in JSON")

end JSON

mutual
/-- The values that the `JSON.parse` above can produce and `JSON.stringify`
writes back unchanged, the JSON values: no `undefined` anywhere, the
properties of an object under distinct names, and every number a finite
double (`NaN` and the infinities have no JSON text).  A number `q` is a finite
double when the rounding leaves it unchanged, `JsNumber.ofRat q = .finite q`:
so are 6.5, 0.75, every integer up to `2 ^ 53` and the number that any number
text within range is read as, for instance the double nearest one tenth for
the text `0.1`. -/
def JsVal.isJson : JsVal → Bool
  | .undefined => false
  | .null => true
  | .bool _ => true
  | .num n => JsNumber.ofRat n = .finite n
  | .str _ => true
  | .arr items => JsVal.isJsonItems items
  | .obj fields => JsVal.isJsonFields fields
  | .nonInt (.finite q) => q.den ≠ 1 ∧ JsNumber.ofRat q = .finite q
  | .nonInt _ => false
/-- Every element is such a value. -/
def JsVal.isJsonItems : List JsVal → Bool
  | [] => true
  | x :: rest => JsVal.isJson x && JsVal.isJsonItems rest
/-- Every property is such a value, under a name that does not come again. -/
def JsVal.isJsonFields : List (String × JsVal) → Bool
  | [] => true
  | (key, value) :: rest =>
    !(rest.any fun p => p.1 == key) && JsVal.isJson value && JsVal.isJsonFields rest
end

/-! ## Numbers

Arithmetic as the handlers use it, exact on the rationals, with the rules of
the language for `NaN` and the infinities. -/

namespace JsNumber

/-- The number of an integer. -/
def ofInt (n : Int) : JsNumber := .finite n

/-- Unary minus. -/
def neg : JsNumber → JsNumber
  | nan => nan
  | infinity negative => infinity (!negative)
  | finite q => finite (-q)

/-- The sum `a + b` of two numbers. -/
def add : JsNumber → JsNumber → JsNumber
  | nan, _ => nan
  | _, nan => nan
  | infinity a, infinity b => if a = b then infinity a else nan
  | infinity a, finite _ => infinity a
  | finite _, infinity b => infinity b
  | finite p, finite q => finite (p + q)

/-- The difference `a - b`. -/
def sub (a b : JsNumber) : JsNumber := add a (neg b)

/-- The product `a * b`. -/
def mul : JsNumber → JsNumber → JsNumber
  | nan, _ => nan
  | _, nan => nan
  | infinity a, infinity b => infinity (a != b)
  | infinity a, finite q => if q = 0 then nan else infinity (a != decide (q < 0))
  | finite p, infinity b => if p = 0 then nan else infinity (b != decide (p < 0))
  | finite p, finite q => finite (p * q)

/-- The quotient `a / b`: a zero divisor gives `NaN` or an infinity. -/
def div : JsNumber → JsNumber → JsNumber
  | nan, _ => nan
  | _, nan => nan
  | infinity _, infinity _ => nan
  | infinity a, finite q => infinity (a != decide (q < 0))
  | finite _, infinity _ => finite 0
  | finite p, finite q =>
    if q = 0 then (if p = 0 then nan else infinity (decide (p < 0))) else finite (p / q)

/-- The comparison `a < b`, false when either side is `NaN`. -/
def lt : JsNumber → JsNumber → Bool
  | nan, _ => false
  | _, nan => false
  | infinity a, infinity b => a && !b
  | infinity a, finite _ => a
  | finite _, infinity b => !b
  | finite p, finite q => decide (p < q)

/-- The comparison `a > b`. -/
def gt (a b : JsNumber) : Bool := lt b a

/-- The comparison `a <= b`, false when either side is `NaN`. -/
def le : JsNumber → JsNumber → Bool
  | nan, _ => false
  | _, nan => false
  | a, b => !lt b a

/-- The comparison `a >= b`. -/
def ge (a b : JsNumber) : Bool := le b a

/-- The function `Math.round`: the nearest integer, a half rounding up. -/
def round : JsNumber → JsNumber
  | finite q => finite (⌊q + 1 / 2⌋ : Int)
  | x => x

/-- The function `Math.floor`. -/
def floor : JsNumber → JsNumber
  | finite q => finite (⌊q⌋ : Int)
  | x => x

/-- The function `Math.abs`. -/
def abs : JsNumber → JsNumber
  | nan => nan
  | infinity _ => infinity false
  | finite q => finite |q|

/-- The function `Math.max` of two arguments. -/
def max : JsNumber → JsNumber → JsNumber
  | nan, _ => nan
  | _, nan => nan
  | a, b => if lt a b then b else a

/-- The function `Math.min` of two arguments. -/
def min : JsNumber → JsNumber → JsNumber
  | nan, _ => nan
  | _, nan => nan
  | a, b => if lt b a then b else a

end JsNumber

/-! ## The runtime

What the server takes from the engine, the clock, the environment and the
network.  Every field is arbitrary: a property proved for all runtimes holds
for the real one. -/

/-- The engine builtins that are not spelled out here, the process
environment, the clock, the random source and the two upstream services. -/
structure Runtime where
  /-- The builtin `JSON.parse` on a request body. -/
  parse : String → Except JsError JsVal
  /-- The variable `process.env[name]`; `none` when it is not set. -/
  env : String → Option String
  /-- The text `new Date().toISOString()`. -/
  timestamp : String
  /-- The text `date.toISOString().split('T')[0]` after
  `date.setDate(date.getDate() + offset)` on the current date; a `RangeError`
  when the moved date is invalid. -/
  isoDay : JsNumber → Except JsError String
  /-- The number `date.getMonth()` of the current date moved by `offset` days. -/
  month : JsNumber → JsNumber
  /-- The number `new Date().getFullYear()`. -/
  year : Int
  /-- The text `new Date(Date.now() - 90 * 24 * 60 * 60 * 1000).toISOString()`. -/
  ninetyDaysAgo : String
  /-- The result of the call to `Math.random()` at the call site numbered
  `site` (in source order within its handler) during iteration `i` of the
  enclosing loop. -/
  random : Nat → Nat → ℚ
  /-- The number `Math.sin(x * 2 * Math.PI)`. -/
  sinTurns : JsNumber → JsNumber
  /-- The method `String.prototype.toLowerCase`. -/
  toLowerCase : String → String
  /-- The conversion `StringToNumber` of the operators on a string operand. -/
  strToNumber : String → JsNumber
  /-- The most arguments that a call `f(...list)` can spread before the engine
  throws its `RangeError`. -/
  spreadLimit : Nat
  /-- The remainder of `cropPriceHandler` once the key is known: the outbound
  request to data.gov.in and the formatting of its records. -/
  cropPriceUpstream : String → JsVal → Except JsError JsVal
  /-- The remainder of `searchHandler` once the key is known: the outbound
  request to the EXA API and the formatting of its results. -/
  searchUpstream : String → JsVal → Except JsError JsVal

namespace JsVal

/-- The conversion `ToNumber(v)`: an array or an object goes through its string
form, which may throw. -/
def toNumber (rt : Runtime) : JsVal → Except JsError JsNumber
  | undefined => .ok .nan
  | null => .ok (.finite 0)
  | bool b => .ok (.finite (if b then 1 else 0))
  | num n => .ok (.finite n)
  | nonInt x => .ok x
  | str s => .ok (rt.strToNumber s)
  | arr items =>
    match toStr (arr items) with
    | .ok s => .ok (rt.strToNumber s)
    | .error e => .error e
  | obj fields =>
    match toStr (obj fields) with
    | .ok s => .ok (rt.strToNumber s)
    | .error e => .error e

/-- The operator `a || b`. -/
def orElse (a b : JsVal) : JsVal := if a.truthy then a else b

/-- A destructuring default `key = fallback`: the fallback replaces
`undefined` only. -/
def withDefault (v fallback : JsVal) : JsVal :=
  match v with
  | undefined => fallback
  | _ => v

end JsVal

/-! ## The tool handlers

Each handler is one `try` block whose `catch` returns a `Failure`; the block is
embedded as a computation that may throw, and `catchAs` is the `catch`. -/

/-- The statement `try { body } catch (err) { return { error: label + String(err) } }`
around a body that returns a tool result. -/
def catchAs (label : String) (body : Except JsError JsVal) : Except JsError JsVal :=
  match body with
  | .ok result => .ok result
  | .error err => .ok (failure (.str (label ++ err.toString)))

/-- The binding `key` of the destructuring `const { first, ..., key, ... } = params`,
which throws when the params are `null` or `undefined`. -/
def paramOf (params : JsVal) (first key : String) : Except JsError JsVal :=
  match params.destructure first "params" with
  | .ok _ => .ok (params.prop key)
  | .error e => .error e

/-- The optional chain `v?.key`. -/
def JsVal.optProp (v : JsVal) (key : String) : JsVal :=
  if v.isNullish then .undefined else v.prop key

/-- The first occurrence of each string, in order, as `[...new Set(xs)]`. -/
def dedupe : List String → List String
  | [] => []
  | x :: xs => x :: (dedupe xs).filter fun y => y != x

/-- The band score of a soil parameter: `best` from `high` upwards, `good` from
`low` upwards, `poor` below (and for `NaN`). -/
def bandScore (x : JsNumber) (high low : ℚ) (best good poor : Nat) : Nat :=
  if x.ge (.finite high) then best
  else if x.ge (.finite low) then good
  else poor

/-- The pH score: 25 within 6.0 to 7.5, 15 within 5.5 to 8.0, else 5. -/
def phScore (ph : JsNumber) : Nat :=
  if ph.ge (.finite 6) && ph.le (.finite (15 / 2)) then 25
  else if ph.ge (.finite (11 / 2)) && ph.le (.finite 8) then 15
  else 5

/-- The sum `healthScore` of `soilHealthHandler`. -/
def healthScore (ph nitrogen phosphorus potassium organic : JsNumber) : Nat :=
  phScore ph + bandScore nitrogen 280 200 20 15 5 + bandScore phosphorus 20 15 20 15 5 +
    bandScore potassium 280 200 20 15 5 + bandScore organic (3 / 4) (1 / 2) 15 10 3

/-- The list `recommendations` of `soilHealthHandler`. -/
def soilRecommendations (ph nitrogen phosphorus potassium organic : JsNumber) : List String :=
  (if ph.lt (.finite 6) then ["Apply lime to increase soil pH"] else []) ++
  (if ph.gt (.finite (15 / 2)) then ["Apply organic matter to reduce soil pH"] else []) ++
  (if nitrogen.lt (.finite 200) then ["Apply nitrogen-rich fertilizers or compost"] else []) ++
  (if phosphorus.lt (.finite 15) then ["Apply phosphorus fertilizers (DAP/SSP)"] else []) ++
  (if potassium.lt (.finite 200) then ["Apply potassium fertilizers (MOP)"] else []) ++
  (if organic.lt (.finite (1 / 2)) then
    ["Increase organic matter through compost and crop residues"] else [])

/-- The list `suitableCrops` of `soilHealthHandler`, before duplicates are
removed. -/
def suitableCrops (ph nitrogen phosphorus potassium organic : JsNumber) : List String :=
  (if ph.ge (.finite 6) && ph.le (.finite (15 / 2)) then
    (if nitrogen.ge (.finite 250) then ["Wheat", "Rice", "Maize"] else []) ++
    (if phosphorus.ge (.finite 20) then ["Cotton", "Sugarcane"] else []) ++
    (if potassium.ge (.finite 250) then ["Potato", "Tomato"] else [])
  else []) ++
  (if ph.ge (.finite (11 / 2)) && ph.le (.finite (13 / 2)) then ["Tea", "Coffee"] else []) ++
  (if organic.ge (.finite (3 / 4)) then ["Organic vegetables", "Pulses"] else [])

/-- The value `data` that `soilHealthHandler` returns, or the exception thrown
on the way: the destructuring of the params, the defaults, and the comparisons,
each of which converts its operand to a number. -/
def soilHealthData (rt : Runtime) (params : JsVal) : Except JsError JsVal := do
  let state ← paramOf params "state" "state"
  let district := params.prop "district"
  let soil_type := params.prop "soil_type"
  let npk_values := params.prop "npk_values"
  let ph_level := params.prop "ph_level"
  let organic_content := params.prop "organic_content"
  let ph := ph_level.orElse (.nonInt (.finite (13 / 2)))
  let nitrogen := (npk_values.optProp "nitrogen").orElse (.num 280)
  let phosphorus := (npk_values.optProp "phosphorus").orElse (.num 23)
  let potassium := (npk_values.optProp "potassium").orElse (.num 280)
  let organic := organic_content.orElse (.nonInt (.finite (3 / 4)))
  let phN ← ph.toNumber rt
  let nitrogenN ← nitrogen.toNumber rt
  let phosphorusN ← phosphorus.toNumber rt
  let potassiumN ← potassium.toNumber rt
  let organicN ← organic.toNumber rt
  pure (.obj [
    ("analysis", .obj [
      ("location", .obj [("state", state), ("district", district)]),
      ("soil_parameters", .obj [
        ("type", soil_type.orElse (.str "Unknown")),
        ("ph_level", ph),
        ("nitrogen", nitrogen),
        ("phosphorus", phosphorus),
        ("potassium", potassium),
        ("organic_content", organic)]),
      ("health_score",
        .num (Nat.min (healthScore phN nitrogenN phosphorusN potassiumN organicN) 100)),
      ("recommendations", .arr
        ((soilRecommendations phN nitrogenN phosphorusN potassiumN organicN).map JsVal.str)),
      ("suitable_crops", .arr
        ((dedupe (suitableCrops phN nitrogenN phosphorusN potassiumN organicN)).map
          JsVal.str))]),
    ("timestamp", .str rt.timestamp),
    ("source", .str "Soil Health Card Scheme simulation")])

/-- The handler `soilHealthHandler`. -/
def soilHealthHandler (rt : Runtime) (params : JsVal) : Except JsError JsVal :=
  catchAs "Soil analysis error: " (do
    let data ← soilHealthData rt params
    pure (success data))

/-! ### Shared pieces of the simulated handlers -/

/-- Run `f` over the items in order and collect the results; the first
exception ends the loop. -/
def collect {α β : Type} (f : α → Except JsError β) : List α → Except JsError (List β)
  | [] => .ok []
  | a :: rest =>
    match f a with
    | .error e => .error e
    | .ok b =>
      match collect f rest with
      | .error e => .error e
      | .ok bs => .ok (b :: bs)

/-- No date lies more than this many days from the current one: time values
range over 100,000,000 days on either side of the epoch. -/
def dateHorizon : Nat := 200000000

/-- The text `date.toISOString().split('T')[0]` of the current date moved by
`offset` days: a `RangeError` for an invalid date, which every offset beyond
the horizon and every offset that is not finite gives. -/
def isoDayAt (rt : Runtime) (offset : JsNumber) : Except JsError String :=
  match offset with
  | .finite q =>
    if (dateHorizon : ℚ) < |q| then .error (.thrown "RangeError: Invalid time value")
    else rt.isoDay offset
  | _ => .error (.thrown "RangeError: Invalid time value")

/-- The names that every object literal inherits from `Object.prototype`; the
value under each is a function or an object. -/
def objectPrototypeKeys : List String :=
  ["constructor", "__defineGetter__", "__defineSetter__", "hasOwnProperty",
    "__lookupGetter__", "__lookupSetter__", "isPrototypeOf", "propertyIsEnumerable",
    "toString", "valueOf", "__proto__", "toLocaleString"]

/-- The property key that a value used as `table[v]` stands for, for the values
that reach the tables: `undefined` and strings. -/
def keyOf : JsVal → String
  | .str s => s
  | _ => "undefined"

/-- The call `v?.toLowerCase()` on the variable `name`: `undefined` for a
nullish value, the lower-cased string, and a `TypeError` for any other value,
which has no such method. -/
def lowerCased (rt : Runtime) (name : String) (v : JsVal) : Except JsError JsVal :=
  match v with
  | .undefined => .ok .undefined
  | .null => .ok .undefined
  | .str s => .ok (.str (rt.toLowerCase s))
  | _ => .error (.typeError (name ++ "?.toLowerCase is not a function"))

/-- The sum of numbers as `reduce((a, b) => a + b, 0)` computes it. -/
def sumNumbers (xs : List JsNumber) : JsNumber :=
  xs.foldl JsNumber.add (.finite 0)

/-- The last `n` items: `slice(-n)`. -/
def lastItems {α : Type} (n : Nat) (xs : List α) : List α :=
  xs.drop (xs.length - n)

/-- The text of a number inside a template literal. -/
def numberString (x : JsNumber) : String := String.mk x.text

/-! ### `mandiPriceHandler` -/

/-- The table `basePrice`. -/
def basePrice : List (String × ℚ) :=
  [("wheat", 2100), ("rice", 1800), ("cotton", 5500), ("maize", 1600), ("soybean", 4200),
    ("sugarcane", 350), ("onion", 2500), ("potato", 1200)]

/-- The number in `basePrice[key] || 2000`: the price in the table, `NaN` (in
the arithmetic that follows) for an inherited property, else 2000. -/
def commodityPriceOf (key : String) : JsNumber :=
  match basePrice.lookup key with
  | some price => .finite price
  | none => if objectPrototypeKeys.contains key then .nan else .finite 2000

/-- One entry of `priceHistory`. -/
structure PricePoint where
  date : String
  price : JsNumber
  market : String
  volume : JsNumber
  quality : JsVal

/-- The object literal of a `PricePoint`. -/
def PricePoint.toVal (p : PricePoint) : JsVal :=
  .obj [
    ("date", .str p.date),
    ("price", p.price.toVal),
    ("market", .str p.market),
    ("volume", p.volume.toVal),
    ("quality", p.quality)]

/-- The number of passes of `for (let i = d; i >= 0; i--)`.  From `Infinity`
the counter never moves, and the first pass already throws on its date. -/
def countDown (d : JsNumber) : Nat :=
  match d with
  | .finite q => if q < 0 then 0 else ⌊q⌋.toNat + 1
  | .infinity false => 1
  | _ => 0

/-- The element `["FAQ", "Good", "Average"][index]`. -/
def qualityAt (index : JsNumber) : JsVal :=
  match index with
  | .finite q =>
    if q = 0 then .str "FAQ" else if q = 1 then .str "Good"
    else if q = 2 then .str "Average" else .undefined
  | _ => .undefined

/-- The pass number `k` of the history loop, in which `i` is `d - k`: the price
from the random variation, the seasonal factor and the trend, then the pushed
entry, whose date and market name may throw. -/
def pricePointAt (rt : Runtime) (commodityPrice d : JsNumber) (district : JsVal) (k : Nat) :
    Except JsError PricePoint := do
  let i := d.sub (.finite k)
  let variation : JsNumber := .finite ((rt.random 0 k - 1 / 2) * (1 / 5))
  let seasonalFactor :=
    (rt.sinTurns ((rt.month i.neg).div (.finite 12))).mul (.finite (1 / 10))
  let trendFactor := (((d.sub i).div d)).mul (.finite (1 / 20))
  let price :=
    commodityPrice.mul ((((JsNumber.finite 1).add variation).add seasonalFactor).add trendFactor)
  let date ← isoDayAt rt i.neg
  let place ← (district.orElse (.str "Local")).toStr
  pure {
    date := date
    price := price.round
    market := place ++ " Mandi"
    volume := (JsNumber.finite (50 + rt.random 1 k * 200)).round
    quality := qualityAt (JsNumber.finite (rt.random 2 k * 3)).floor }

/-- One entry of `predictions`: the day `i` after the current one. -/
def predictionAt (rt : Runtime) (lastPrice : JsNumber) (trendFactor : ℚ) (i : Nat) :
    Except JsError JsVal := do
  let date ← isoDayAt rt (.finite i)
  let predictedPrice :=
    (lastPrice.mul (.finite (trendFactor ^ i))).mul
      (.finite (1 + (rt.random 3 i - 1 / 2) * (1 / 20)))
  pure (.obj [
    ("date", .str date),
    ("predicted_price", predictedPrice.round.toVal),
    ("confidence", .num (Max.max (60 - (i : Int) * 5) 30))])

/-- The price of the last entry, `priceHistory[priceHistory.length - 1].price`,
a `TypeError` when there is no entry. -/
def lastPriceOf (history : List PricePoint) : Except JsError JsNumber :=
  match history.getLast? with
  | some p => .ok p.price
  | none => .error (.typeError "Cannot read properties of undefined (reading \x27price\x27)")

/-- One entry of `nearbyMarkets`. -/
structure Market where
  name : String
  price : JsNumber
  distance : Int

/-- Insert a market into a list sorted by `(a, b) => b.price - a.price`: after
the markets it does not beat. -/
def insertMarket (m : Market) : List Market → List Market
  | [] => [m]
  | x :: rest => if x.price.lt m.price then m :: x :: rest else x :: insertMarket m rest

/-- The call `sort((a, b) => b.price - a.price)`: descending by price, equal
prices in their first order. -/
def sortMarkets (ms : List Market) : List Market :=
  ms.foldl (fun sorted m => insertMarket m sorted) []

/-- The object literal of a `Market`. -/
def Market.toVal (m : Market) : JsVal :=
  .obj [("name", .str m.name), ("price", m.price.toVal), ("distance", .num m.distance)]

/-- The array `recommendations` of `mandiPriceHandler`. -/
def marketAdvice (currentPrice avgPrice : JsNumber) : JsVal :=
  if currentPrice.gt (avgPrice.mul (.finite (11 / 10))) then
    .obj [
      ("action", .str "sell"),
      ("reason", .str ("Current price (₹" ++ numberString currentPrice ++ ") is " ++
        numberString (((currentPrice.sub avgPrice).div avgPrice).mul (.finite 100)).round ++
        "% above average")),
      ("urgency", .str "high")]
  else if currentPrice.lt (avgPrice.mul (.finite (9 / 10))) then
    .obj [
      ("action", .str "hold"),
      ("reason", .str ("Current price (₹" ++ numberString currentPrice ++
        ") is below average. Wait for better rates")),
      ("urgency", .str "medium")]
  else
    .obj [
      ("action", .str "monitor"),
      ("reason", .str "Price is near average. Monitor for trend changes"),
      ("urgency", .str "low")]

/-- The call `Math.max(...xs)` or `Math.min(...xs)`, folded from its value on
no argument: a `RangeError` when the list is too long to spread. -/
def spreadFold (rt : Runtime) (f : JsNumber → JsNumber → JsNumber) (start : JsNumber)
    (xs : List JsNumber) : Except JsError JsNumber :=
  if rt.spreadLimit < xs.length then
    .error (.thrown "RangeError: Maximum call stack size exceeded")
  else .ok (xs.foldl f start)

/-- The average `recentAvg`: the mean of the last seven prices. -/
def recentAvg (prices : List JsNumber) : JsNumber :=
  (sumNumbers (lastItems 7 prices)).div (.finite (lastItems 7 prices).length)

/-- The prices of `priceHistory.slice(-14, -7)`. -/
def olderPrices (prices : List JsNumber) : List JsNumber :=
  (prices.take (prices.length - 7)).drop (prices.length - 14)

/-- The average `olderAvg`: the mean of the seven prices before the last
seven. -/
def olderAvg (prices : List JsNumber) : JsNumber :=
  (sumNumbers (olderPrices prices)).div (.finite (olderPrices prices).length)

/-- The string `trend`. -/
def priceTrend (prices : List JsNumber) : String :=
  if (recentAvg prices).gt (olderAvg prices) then "increasing"
  else if (recentAvg prices).lt (olderAvg prices) then "decreasing" else "stable"

/-- The number `trendPercentage`. -/
def trendPercentage (prices : List JsNumber) : JsNumber :=
  ((((recentAvg prices).sub (olderAvg prices)).div (olderAvg prices)).mul (.finite 100)).abs

/-- The array `predictions`: seven entries when `include_predictions` is
truthy, none otherwise. -/
def pricePredictions (rt : Runtime) (include_predictions : JsVal)
    (priceHistory : List PricePoint) (trend : String) : Except JsError (List JsVal) :=
  if include_predictions.truthy then do
    let lastPrice ← lastPriceOf priceHistory
    let trendFactor : ℚ :=
      if trend = "increasing" then 51 / 50 else if trend = "decreasing" then 49 / 50 else 1
    collect (predictionAt rt lastPrice trendFactor) [1, 2, 3, 4, 5, 6, 7]
  else pure []

/-- The value `data` that `mandiPriceHandler` returns, or the exception thrown
on the way. -/
def mandiPriceData (rt : Runtime) (params : JsVal) : Except JsError JsVal := do
  let commodity ← paramOf params "commodity" "commodity"
  let state := params.prop "state"
  let district := params.prop "district"
  let days_back := (params.prop "days_back").withDefault (.num 30)
  let include_predictions := (params.prop "include_predictions").withDefault (.bool true)
  let key ← lowerCased rt "commodity" commodity
  let commodityPrice := commodityPriceOf (keyOf key)
  let d ← days_back.toNumber rt
  let priceHistory ← collect (pricePointAt rt commodityPrice d district)
    (List.range (countDown d))
  let prices := priceHistory.map PricePoint.price
  let trend := priceTrend prices
  let predictions ← pricePredictions rt include_predictions priceHistory trend
  let currentPrice ← lastPriceOf priceHistory
  let avgPrice := (sumNumbers prices).div (.finite prices.length)
  let localName ← (district.orElse (.str "Local")).toStr
  let stateName ← (state.orElse (.str "State")).toStr
  let nearbyMarkets := sortMarkets [
    { name := localName ++ " Mandi", price := currentPrice, distance := 0 },
    { name := stateName ++ " Central Market",
      price := (currentPrice.mul (.finite (21 / 20))).round, distance := 25 },
    { name := "Regional Hub Market",
      price := (currentPrice.mul (.finite (27 / 25))).round, distance := 45 }]
  let highest ← spreadFold rt JsNumber.max (.infinity true) prices
  let lowest ← spreadFold rt JsNumber.min (.infinity false) prices
  pure (.obj [
    ("commodity", commodity.orElse (.str "Unknown")),
    ("location", .obj [("state", state), ("district", district)]),
    ("current_price", currentPrice.toVal),
    ("price_history", .arr ((lastItems 14 priceHistory).map PricePoint.toVal)),
    ("trend_analysis", .obj [
      ("direction", .str trend),
      ("percentage_change",
        ((((trendPercentage prices).mul (.finite 100)).round).div (.finite 100)).toVal),
      ("period", .str "7 days")]),
    ("predictions", .arr predictions),
    ("recommendations", .arr [marketAdvice currentPrice avgPrice]),
    ("best_markets", .arr (nearbyMarkets.map Market.toVal)),
    ("market_summary", .obj [
      ("highest_price", highest.toVal),
      ("lowest_price", lowest.toVal),
      ("average_price", avgPrice.round.toVal),
      ("total_volume", (sumNumbers (priceHistory.map PricePoint.volume)).toVal)]),
    ("timestamp", .str rt.timestamp),
    ("source", .str "Multi-Mandi Price Aggregation simulation")])

/-- The handler `mandiPriceHandler`. -/
def mandiPriceHandler (rt : Runtime) (params : JsVal) : Except JsError JsVal :=
  catchAs "Mandi price tracking error: " (do
    let data ← mandiPriceData rt params
    pure (success data))

/-! ### `weatherHandler` -/

/-- One entry of `forecast`, with the rounded numbers that the entry holds. -/
structure WeatherDay where
  date : String
  tempMax : ℚ
  tempMin : ℚ
  humidity : ℚ
  rainfall : ℚ
  windSpeed : ℚ
  conditions : String

/-- The value of `Math.round` on a rational number. -/
def roundHalfUp (q : ℚ) : ℚ := (⌊q + 1 / 2⌋ : Int)

/-- The object literal of a `WeatherDay`. -/
def WeatherDay.toVal (day : WeatherDay) : JsVal :=
  .obj [
    ("date", .str day.date),
    ("temperature", .obj [
      ("max", (JsNumber.finite day.tempMax).toVal),
      ("min", (JsNumber.finite day.tempMin).toVal)]),
    ("humidity", (JsNumber.finite day.humidity).toVal),
    ("rainfall", (JsNumber.finite day.rainfall).toVal),
    ("wind_speed", (JsNumber.finite day.windSpeed).toVal),
    ("conditions", .str day.conditions)]

/-- The number of passes of `for (let i = 0; i < d; i++)`.  Towards `Infinity`
the loop runs until its date leaves the calendar, which ends it with a throw. -/
def countBelow (d : JsNumber) : Nat :=
  match d with
  | .finite q => ⌈q⌉.toNat
  | .infinity false => dateHorizon + 2
  | _ => 0

/-- The pass number `i` of the forecast loop: six draws from the random source
(the fifth only on a rainy day), then the pushed entry, whose date may throw. -/
def weatherDayAt (rt : Runtime) (i : Nat) : Except JsError WeatherDay := do
  let temp_max := 28 + rt.random 0 i * 10
  let temp_min := temp_max - 8 - rt.random 1 i * 4
  let humidity := 60 + rt.random 2 i * 30
  let rainfall := if rt.random 3 i > 7 / 10 then rt.random 4 i * 25 else 0
  let wind_speed := 5 + rt.random 5 i * 15
  let date ← isoDayAt rt (.finite i)
  pure {
    date := date
    tempMax := roundHalfUp temp_max
    tempMin := roundHalfUp temp_min
    humidity := roundHalfUp humidity
    rainfall := roundHalfUp (rainfall * 10) / 10
    windSpeed := roundHalfUp wind_speed
    conditions := if rainfall > 0 then "Rainy" else if humidity > 80 then "Cloudy" else "Clear" }

/-- An entry of `alerts`. -/
def weatherAlert (day : WeatherDay) (type severity message : String) : JsVal :=
  .obj [
    ("date", .str day.date),
    ("type", .str type),
    ("severity", .str severity),
    ("message", .str message)]

/-- The alerts that one day of the forecast adds, in the order of the four
tests. -/
def dayAlerts (day : WeatherDay) : List JsVal :=
  (if day.rainfall > 10 then
    [weatherAlert day "irrigation" "info"
      "Heavy rainfall expected. Skip irrigation for the day."] else []) ++
  (if day.humidity > 85 ∧ day.tempMax > 30 then
    [weatherAlert day "pest_risk" "warning"
      "High humidity and temperature. Monitor for pest activity."] else []) ++
  (if day.rainfall = 0 ∧ day.tempMax > 35 then
    [weatherAlert day "heat_stress" "warning"
      "High temperature with no rain. Ensure adequate irrigation."] else []) ++
  (if day.windSpeed > 15 then
    [weatherAlert day "wind" "caution"
      "Strong winds expected. Secure tall crops and structures."] else [])

/-- The entry of `irrigation_schedule` that one day of the forecast adds, if
any. -/
def dayIrrigation (day : WeatherDay) : List JsVal :=
  if day.rainfall < 5 ∧ day.tempMax > 30 then
    [.obj [
      ("date", .str day.date),
      ("recommendation", .str "irrigate"),
      ("timing", .str "early_morning"),
      ("duration", .str (if day.tempMax > 35 then "extended" else "normal")),
      ("reason", .str ("Low rainfall (" ++ numberString (.finite day.rainfall) ++
        "mm) and high temperature (" ++ numberString (.finite day.tempMax) ++ "°C)"))]]
  else if day.rainfall > 10 then
    [.obj [
      ("date", .str day.date),
      ("recommendation", .str "skip"),
      ("reason", .str ("Adequate rainfall expected (" ++ numberString (.finite day.rainfall) ++
        "mm)"))]]
  else []

/-- The number of entries whose field `key` is the string `value`. -/
def countWhere (key value : String) (entries : List JsVal) : Nat :=
  (entries.filter fun entry => entry.prop key == .str value).length

/-- The value `data` that `weatherHandler` returns, or the exception thrown on
the way. -/
def weatherData (rt : Runtime) (params : JsVal) : Except JsError JsVal := do
  let location ← paramOf params "location" "location"
  let days := (params.prop "days").withDefault (.num 7)
  let include_farming_alerts := (params.prop "include_farming_alerts").withDefault (.bool true)
  let d ← days.toNumber rt
  let forecast ← collect (weatherDayAt rt) (List.range (countBelow d))
  let alerts :=
    if include_farming_alerts.truthy then (forecast.map dayAlerts).flatten else []
  let irrigation_schedule := (forecast.map dayIrrigation).flatten
  pure (.obj [
    ("location", location),
    ("forecast", .arr (forecast.map WeatherDay.toVal)),
    ("alerts", .arr alerts),
    ("irrigation_schedule", .arr irrigation_schedule),
    ("summary", .obj [
      ("total_rainfall",
        (JsNumber.finite ((forecast.map WeatherDay.rainfall).foldl (· + ·) 0)).toVal),
      ("avg_temperature",
        ((JsNumber.finite ((forecast.map WeatherDay.tempMax).foldl (· + ·) 0)).div
          (.finite forecast.length)).round.toVal),
      ("high_risk_days", .num (countWhere "severity" "warning" alerts)),
      ("irrigation_days", .num (countWhere "recommendation" "irrigate" irrigation_schedule))]),
    ("timestamp", .str rt.timestamp),
    ("source", .str "IMD Weather Forecast simulation")])

/-- The handler `weatherHandler`. -/
def weatherHandler (rt : Runtime) (params : JsVal) : Except JsError JsVal :=
  catchAs "Weather prediction error: " (do
    let data ← weatherData rt params
    pure (success data))

/-! ### `pestIdentifierHandler` -/

/-- An entry of `pestDatabase`. -/
structure PestData where
  name : String
  symptoms : List String
  treatment : List String
  severity : String
  season : String
  deriving DecidableEq

/-- The table `pestDatabase`. -/
def pestDatabase : List (String × List PestData) :=
  [("rice", [
      { name := "Brown Plant Hopper"
        symptoms := ["yellowing leaves", "stunted growth", "hopper burn"]
        treatment := ["Use neem oil spray", "Apply imidacloprid", "Maintain proper water levels"]
        severity := "high"
        season := "kharif" },
      { name := "Stem Borer"
        symptoms := ["dead hearts", "white ears", "holes in stem"]
        treatment :=
          ["Use pheromone traps", "Apply cartap hydrochloride", "Remove affected tillers"]
        severity := "medium"
        season := "kharif" }]),
    ("wheat", [
      { name := "Aphids"
        symptoms := ["curled leaves", "sticky honeydew", "yellowing"]
        treatment := ["Spray neem oil", "Use ladybird beetles", "Apply dimethoate"]
        severity := "medium"
        season := "rabi" },
      { name := "Rust Disease"
        symptoms := ["orange spots", "leaf yellowing", "reduced yield"]
        treatment :=
          ["Apply propiconazole", "Use resistant varieties", "Proper field sanitation"]
        severity := "high"
        season := "rabi" }]),
    ("cotton", [
      { name := "Bollworm"
        symptoms := ["holes in bolls", "damaged squares", "frass presence"]
        treatment := ["Use Bt cotton varieties", "Apply spinosad", "Pheromone traps"]
        severity := "high"
        season := "kharif" },
      { name := "Whitefly"
        symptoms := ["yellowing leaves", "sooty mold", "leaf curl"]
        treatment := ["Yellow sticky traps", "Spray acetamiprid", "Reflective mulch"]
        severity := "medium"
        season := "kharif" }])]

/-- The value `pestDatabase[key] || []`: the pests of a crop of the table, no
pest for an unknown key, and `none` for an inherited property, whose value is
truthy and not an array. -/
def cropPestsOf (key : String) : Option (List PestData) :=
  match pestDatabase.lookup key with
  | some pests => some pests
  | none => if objectPrototypeKeys.contains key then none else some []

/-- The characters that `trim` removes: white space and line terminators. -/
def isTrimmed (c : Char) : Bool :=
  c.val = 0x09 || c.val = 0x0A || c.val = 0x0B || c.val = 0x0C || c.val = 0x0D ||
  c.val = 0x20 || c.val = 0xA0 || c.val = 0x1680 || (0x2000 ≤ c.val && c.val ≤ 0x200A) ||
  c.val = 0x2028 || c.val = 0x2029 || c.val = 0x202F || c.val = 0x205F ||
  c.val = 0x3000 || c.val = 0xFEFF

/-- The method `trim`. -/
def trim (cs : List Char) : List Char :=
  ((cs.dropWhile isTrimmed).reverse.dropWhile isTrimmed).reverse

/-- The pieces of `split(',')`, the piece `current` being read last. -/
def splitComma (current : List Char) : List Char → List (List Char)
  | [] => [current.reverse]
  | c :: rest =>
    if c = ',' then current.reverse :: splitComma [] rest
    else splitComma (c :: current) rest

/-- The method `includes` of a string: `needle` occurs within `text`. -/
def includes (text needle : List Char) : Bool :=
  match text with
  | [] => needle.isEmpty
  | c :: rest => needle.isPrefixOf (c :: rest) || includes rest needle

/-- The list `symptoms.toLowerCase().split(',').map(s => s.trim())`; a value
that is not a string has no method `toLowerCase`. -/
def symptomsListOf (rt : Runtime) (symptoms : JsVal) : Except JsError (List String) :=
  match symptoms with
  | .str s =>
    .ok ((splitComma [] (rt.toLowerCase s).data).map fun piece => String.mk (trim piece))
  | _ => .error (.typeError "symptoms.toLowerCase is not a function")

/-- The count `matches` of a pest: the given symptoms that occur in a symptom of
the pest or in which one occurs. -/
def pestMatches (pest : PestData) (symptomsList : List String) : Nat :=
  (symptomsList.filter fun symptom =>
    pest.symptoms.any fun ps => includes ps.data symptom.data || includes symptom.data ps.data).length

/-- The number `pestConfidence` of a pest: the quotient of the two counts and
its product with 100, each rounded to a double. -/
def pestConfidence (pest : PestData) (symptomsList : List String) : ℚ :=
  Double.nearest (Double.nearest ((pestMatches pest symptomsList : ℚ) /
    (Max.max symptomsList.length pest.symptoms.length : Nat)) * 100)

/-- The loop `for (const pest of cropPests)` from the state
`(identifiedPest, confidence)`: a pest replaces the identified one when its
confidence is strictly higher. -/
def matchPests (symptomsList : List String) :
    List PestData → Option PestData × ℚ → Option PestData × ℚ
  | [], state => state
  | pest :: rest, (identifiedPest, confidence) =>
    if pestConfidence pest symptomsList > confidence then
      matchPests symptomsList rest (some pest, pestConfidence pest symptomsList)
    else matchPests symptomsList rest (identifiedPest, confidence)

/-- An array of strings. -/
def strings (xs : List String) : JsVal := .arr (xs.map JsVal.str)

/-- The value `data` that `pestIdentifierHandler` returns, or the exception
thrown on the way. -/
def pestIdentifierData (rt : Runtime) (params : JsVal) : Except JsError JsVal := do
  let crop ← paramOf params "crop" "crop"
  let symptoms := params.prop "symptoms"
  let location := params.prop "location"
  let key ← lowerCased rt "crop" crop
  let cropPests := cropPestsOf (keyOf key)
  let (matched, matchedConfidence) ←
    if symptoms.truthy then do
      let symptomsList ← symptomsListOf rt symptoms
      match cropPests with
      | some pests => pure (matchPests symptomsList pests (none, 0))
      | none => throw (.typeError "cropPests is not iterable")
    else pure (none, 0)
  let pests ←
    match cropPests with
    | some pests => pure pests
    | none => throw (.typeError "cropPests.filter is not a function")
  let (identifiedPest, confidence) :=
    match matched, pests with
    | none, first :: _ => (some first, (30 : ℚ))
    | _, _ => (matched, matchedConfidence)
  pure (.obj [
    ("analysis", .obj [
      ("crop", crop.orElse (.str "Unknown")),
      ("location", location),
      ("identification",
        match identifiedPest with
        | some pest => .obj [
            ("pest_name", .str pest.name),
            ("confidence_score", (JsNumber.finite (roundHalfUp confidence)).toVal),
            ("severity", .str pest.severity),
            ("season", .str pest.season)]
        | none => .null),
      ("treatment_recommendations",
        match identifiedPest with
        | some pest => strings pest.treatment
        | none => strings [
            "Consult local agricultural extension officer",
            "Take clear photos of affected plants",
            "Monitor pest population regularly"]),
      ("prevention_measures", strings [
        "Regular field monitoring",
        "Crop rotation practices",
        "Maintain field hygiene",
        "Use resistant varieties when available",
        "Integrated Pest Management (IPM)"]),
      ("alternative_pests", .arr
        (((pests.filter fun p => some p != identifiedPest).take 2).map fun p =>
          .obj [
            ("name", .str p.name),
            ("symptoms", strings p.symptoms),
            ("severity", .str p.severity)]))]),
    ("timestamp", .str rt.timestamp),
    ("source", .str "Agricultural Pest Database simulation"),
    ("note", .str "For accurate identification, consult with local agricultural experts")])

/-- The handler `pestIdentifierHandler`. -/
def pestIdentifierHandler (rt : Runtime) (params : JsVal) : Except JsError JsVal :=
  catchAs "Pest identification error: " (do
    let data ← pestIdentifierData rt params
    pure (success data))

/-! ### `cropPriceHandler` and `searchHandler`

Both read their key from the environment before anything else and return a
`Failure` without it; what follows the test of the key is the request to the
upstream service, which is left to the runtime. -/

/-- The handler `cropPriceHandler`. -/
def cropPriceHandler (rt : Runtime) (params : JsVal) : Except JsError JsVal :=
  catchAs "Server error: " (
    match rt.env "DATAGOVIN_API_KEY" with
    | none =>
      pure (failure (.str "Configuration error: DATAGOVIN_API_KEY not set in environment."))
    | some API_KEY =>
      if API_KEY = "" then
        pure (failure (.str "Configuration error: DATAGOVIN_API_KEY not set in environment."))
      else rt.cropPriceUpstream API_KEY params)

/-- The handler `searchHandler`. -/
def searchHandler (rt : Runtime) (params : JsVal) : Except JsError JsVal :=
  catchAs "Server error: " (
    match rt.env "EXA_API_KEY" with
    | none => pure (failure (.str "Configuration error: EXA_API_KEY not set in environment."))
    | some API_KEY =>
      if API_KEY = "" then
        pure (failure (.str "Configuration error: EXA_API_KEY not set in environment."))
      else rt.searchUpstream API_KEY params)

/-! ### `schemeToolHandler` -/

/-- The array `schemeDatabase.crop_insurance`. -/
def cropInsuranceSchemes : List JsVal :=
  [.obj [
      ("name", .str "Pradhan Mantri Fasal Bima Yojana (PMFBY)"),
      ("type", .str "crop_insurance"),
      ("coverage", strings ["drought", "flood", "cyclone", "hailstorm", "pest_attack", "disease"]),
      ("eligibility", .str "All farmers (landowner/tenant/sharecropper)"),
      ("premium_subsidy", .str "Up to 90% government subsidy"),
      ("claim_process", strings [
        "Report crop loss within 72 hours to insurance company",
        "Submit required documents (land records, bank details, etc.)",
        "Crop cutting experiments conducted by government",
        "Claim settlement based on yield data"]),
      ("documents_required", strings [
        "Land ownership documents/tenancy agreement",
        "Bank account details",
        "Aadhaar card",
        "Crop sowing certificate",
        "Premium payment receipt"]),
      ("helpline", .str "1800-200-7710"),
      ("website", .str "https://pmfby.gov.in")],
    .obj [
      ("name", .str "Weather Based Crop Insurance Scheme (WBCIS)"),
      ("type", .str "weather_insurance"),
      ("coverage", strings ["rainfall", "temperature", "humidity", "wind_speed"]),
      ("eligibility", .str "Farmers in notified areas"),
      ("premium_subsidy", .str "Up to 90% government subsidy"),
      ("claim_process", strings [
        "Automatic trigger based on weather parameters",
        "No need for individual assessment",
        "Quick settlement within 45 days"]),
      ("documents_required", strings [
        "Land records",
        "Bank account details",
        "Insurance policy document"]),
      ("helpline", .str "1800-200-7710")]]

/-- The array `schemeDatabase.relief_schemes`. -/
def reliefSchemes : List JsVal :=
  [.obj [
      ("name", .str "State Disaster Response Fund (SDRF)"),
      ("type", .str "disaster_relief"),
      ("coverage", strings ["natural_calamities", "drought", "flood", "cyclone", "hailstorm"]),
      ("assistance", .str "Input subsidy, compensation for crop loss"),
      ("eligibility", .str "Farmers affected by notified disasters"),
      ("process", strings [
        "District administration conducts damage assessment",
        "Farmers submit applications through village officials",
        "Verification by revenue officials",
        "Direct benefit transfer to bank accounts"])],
    .obj [
      ("name", .str "National Disaster Response Fund (NDRF)"),
      ("type", .str "national_relief"),
      ("coverage", strings ["severe_natural_calamities"]),
      ("assistance", .str "Additional support for severe disasters"),
      ("eligibility", .str "Farmers in severely affected areas")],
    .obj [
      ("name", .str "Kisan Credit Card (KCC) - Crop Loan Waiver"),
      ("type", .str "loan_relief"),
      ("coverage", strings ["crop_failure", "natural_disasters"]),
      ("assistance", .str "Loan restructuring, interest waiver"),
      ("eligibility", .str "KCC holders with crop loans")]]

/-- The array `schemeDatabase.input_schemes`. -/
def inputSchemes : List JsVal :=
  [.obj [
      ("name", .str "Seed Subsidy Scheme"),
      ("type", .str "input_support"),
      ("assistance", .str "50-75% subsidy on certified seeds"),
      ("eligibility", .str "Small and marginal farmers"),
      ("coverage", strings ["crop_replanting", "season_change"])],
    .obj [
      ("name", .str "Fertilizer Subsidy"),
      ("type", .str "input_support"),
      ("assistance", .str "Subsidized fertilizers through DBT"),
      ("eligibility", .str "All farmers with soil health card")]]

/-- The name of a scheme of the database, a string in every entry. -/
def schemeName (scheme : JsVal) : String :=
  match scheme.prop "name" with
  | .str s => s
  | _ => ""

/-- The call `scheme.coverage.includes(v)` on a scheme of the database. -/
def coverageIncludes (scheme v : JsVal) : Bool :=
  match scheme.prop "coverage" with
  | .arr items => items.contains v
  | _ => false

/-- The entry of `recommendations` for the insurance status.  With insurance,
the scheme is the first whose lower-cased name includes the lower-cased
`insurance_type` (or `pmfby`), else the first of the database. -/
def insuranceAdvice (rt : Runtime) (has_insurance insurance_type : JsVal) :
    Except JsError JsVal :=
  if has_insurance.truthy then do
    let lowered ← lowerCased rt "insurance_type" insurance_type
    let needle :=
      match lowered.orElse (.str "pmfby") with
      | .str s => s
      | _ => "pmfby"
    let insuranceScheme :=
      ((cropInsuranceSchemes.find? fun scheme =>
        includes (rt.toLowerCase (schemeName scheme)).data needle.data).getD
          (cropInsuranceSchemes.headD .undefined))
    pure (.obj [
      ("category", .str "insurance_claim"),
      ("priority", .str "high"),
      ("action", .str "File Insurance Claim Immediately"),
      ("scheme", insuranceScheme),
      ("steps", insuranceScheme.prop "claim_process"),
      ("documents", insuranceScheme.prop "documents_required"),
      ("timeline", .str "Report within 72 hours of damage"),
      ("contact", insuranceScheme.prop "helpline")])
  else
    pure (.obj [
      ("category", .str "insurance_enrollment"),
      ("priority", .str "medium"),
      ("action", .str "Enroll in Crop Insurance for Future Protection"),
      ("message", .str
        "Consider enrolling in PMFBY for next season to protect against such losses"),
      ("schemes", .arr cropInsuranceSchemes)])

/-- The array `applicableReliefSchemes`. -/
def applicableReliefSchemes (damage_type : JsVal) : List JsVal :=
  reliefSchemes.filter fun scheme =>
    coverageIncludes scheme damage_type || coverageIncludes scheme (.str "natural_calamities")

/-- The entry of `recommendations` for a relief scheme. -/
def reliefAdvice (scheme : JsVal) : JsVal :=
  .obj [
    ("category", .str "relief_assistance"),
    ("priority", .str "high"),
    ("action", .str ("Apply for " ++ schemeName scheme)),
    ("scheme", scheme),
    ("steps", (scheme.prop "process").orElse (strings [
      "Contact village revenue official",
      "Submit damage assessment application",
      "Provide required documents",
      "Follow up with district collector office"]))]

/-- The entry of `recommendations` for an input scheme. -/
def inputAdvice (scheme : JsVal) : JsVal :=
  .obj [
    ("category", .str "input_support"),
    ("priority", .str "medium"),
    ("action", .str ("Apply for " ++ schemeName scheme)),
    ("scheme", scheme),
    ("benefit", scheme.prop "assistance")]

/-- The entry of `recentReliefNews` for one search result. -/
def reliefNewsItem (result : JsVal) : Except JsError JsVal := do
  let title ← result.getProp "title"
  pure (.obj [
    ("title", title),
    ("url", result.prop "url"),
    ("summary", result.prop "text"),
    ("relevance", .str "recent_announcement")])

/-- The inner `try` block of the search for announcements: the query, the call
of `searchHandler` and the reading of its result. -/
def searchReliefNews (rt : Runtime) (state damage_type : JsVal) :
    Except JsError (List JsVal) := do
  let stateText ← state.toStr
  let damageText ← damage_type.toStr
  let searchQuery :=
    "India government crop damage relief scheme " ++ stateText ++ " " ++ damageText ++ " " ++
      String.mk (intText rt.year)
  let searchResult ← searchHandler rt (.obj [
    ("query", .str searchQuery),
    ("num_results", .num 5),
    ("include_domains",
      strings ["pib.gov.in", "agricoop.gov.in", "farmer.gov.in", "pmfby.gov.in"]),
    ("start_crawl_date", .str rt.ninetyDaysAgo)])
  let succeeded ← searchResult.getProp "success"
  if succeeded.truthy then do
    let data := searchResult.prop "data"
    let results ← data.getProp "results"
    if results.truthy then
      match results with
      | .arr items => collect reliefNewsItem items
      | _ => throw (.typeError "searchResult.data.results.map is not a function")
    else pure []
  else pure []

/-- The array `recentReliefNews`: empty unless the search is asked for and its
block ends without an exception. -/
def recentReliefNews (rt : Runtime) (search_relief_schemes state damage_type : JsVal) :
    List JsVal :=
  if search_relief_schemes.truthy then
    match searchReliefNews rt state damage_type with
    | .ok news => news
    | .error _ => []
  else []

/-- The table `baseCompensation`. -/
def baseCompensation : List (String × ℚ) :=
  [("complete", 15000), ("severe", 10000), ("moderate", 6000), ("minor", 3000)]

/-- The number in `baseCompensation[key] || 6000`: the rate of the table, `NaN`
(in the product that follows) for an inherited property, else 6000. -/
def damageMultiplierOf (key : String) : JsNumber :=
  match baseCompensation.lookup key with
  | some rate => .finite rate
  | none => if objectPrototypeKeys.contains key then .nan else .finite 6000

/-- The number `estimatedCompensation`. -/
def estimatedCompensation (rt : Runtime) (land_size_acres damage_extent : JsVal) :
    Except JsError JsNumber :=
  if land_size_acres.truthy && damage_extent.truthy then do
    let key ← damage_extent.toStr
    let acres ← land_size_acres.toNumber rt
    pure (acres.mul (damageMultiplierOf key))
  else pure (.finite 0)

/-- The value `data` that `schemeToolHandler` returns, or the exception thrown
on the way. -/
def schemeToolData (rt : Runtime) (params : JsVal) : Except JsError JsVal := do
  let damage_type ← paramOf params "damage_type" "damage_type"
  let crop_type := params.prop "crop_type"
  let state := params.prop "state"
  let district := params.prop "district"
  let damage_extent := params.prop "damage_extent"
  let has_insurance := params.prop "has_insurance"
  let insurance_type := params.prop "insurance_type"
  let land_size_acres := params.prop "land_size_acres"
  let search_relief_schemes := (params.prop "search_relief_schemes").withDefault (.bool true)
  let insurance ← insuranceAdvice rt has_insurance insurance_type
  let eligibleSchemes := applicableReliefSchemes damage_type
  let recommendations :=
    [insurance] ++ eligibleSchemes.map reliefAdvice ++
      (if damage_extent = .str "complete" ∨ damage_extent = .str "severe" then
        inputSchemes.map inputAdvice else [])
  let news := recentReliefNews rt search_relief_schemes state damage_type
  let compensation ← estimatedCompensation rt land_size_acres damage_extent
  let districtText ← district.toStr
  pure (.obj [
    ("farmer_situation", .obj [
      ("damage_type", damage_type),
      ("crop_type", crop_type),
      ("location", .obj [("state", state), ("district", district)]),
      ("damage_extent", damage_extent),
      ("has_insurance", has_insurance),
      ("insurance_type", insurance_type),
      ("land_size_acres", land_size_acres),
      ("estimated_compensation", compensation.toVal)]),
    ("recommendations", .arr recommendations),
    ("eligible_schemes", .arr eligibleSchemes),
    ("action_plan", .obj [
      ("immediate_actions", strings [
        "Document crop damage with photographs",
        "Report to village revenue official within 72 hours",
        if has_insurance.truthy then "Contact insurance company immediately"
        else "Check if area is covered under any relief scheme",
        "Collect all required documents"]),
      ("short_term_actions", strings [
        "Submit applications for all eligible schemes",
        "Follow up with concerned officials",
        "Plan for replanting if season permits"]),
      ("long_term_actions", strings [
        "Enroll in crop insurance for next season",
        "Diversify crops to reduce risk",
        "Adopt climate-resilient farming practices"])]),
    ("recent_relief_announcements", .arr news),
    ("important_contacts", .obj [
      ("pmfby_helpline", .str "1800-200-7710"),
      ("kisan_call_center", .str "1800-180-1551"),
      ("district_collector", .str ("Contact " ++ districtText ++ " District Collector Office")),
      ("agriculture_officer",
        .str ("Contact " ++ districtText ++ " Agriculture Extension Officer"))]),
    ("documents_checklist", strings [
      "Land ownership documents/lease agreement",
      "Aadhaar card and bank account details",
      "Crop insurance policy (if any)",
      "Photographs of damaged crops",
      "Village revenue official\x27s damage assessment",
      "Soil health card",
      "Previous season\x27s crop details"]),
    ("next_steps", strings [
      "Visit village revenue official immediately",
      "File insurance claim if insured",
      "Apply for government relief schemes",
      "Plan for next cropping season"]),
    ("timestamp", .str rt.timestamp),
    ("source", .str "Agricultural Scheme Database + Government Relief Search")])

/-- The handler `schemeToolHandler`. -/
def schemeToolHandler (rt : Runtime) (params : JsVal) : Except JsError JsVal :=
  catchAs "Scheme tool error: " (do
    let data ← schemeToolData rt params
    pure (success data))

/-! ### The handlers of the server -/

/-- The seven handlers that the server stores in `toolHandlers`. -/
def serverHandlers (rt : Runtime) : Handlers :=
  { cropPriceHandler := cropPriceHandler rt
    searchHandler := searchHandler rt
    soilHealthHandler := soilHealthHandler rt
    weatherHandler := weatherHandler rt
    pestIdentifierHandler := pestIdentifierHandler rt
    mandiPriceHandler := mandiPriceHandler rt
    schemeToolHandler := schemeToolHandler rt }

/-! ## The HTTP listener -/

/-- An incoming request as the listener reads it: `req.method`, `req.url` and
the body accumulated from the `data` events. -/
structure HttpRequest where
  method : String
  url : String
  body : String

/-- The value `process.env.PORT || 10000`. -/
def PORT (rt : Runtime) : JsVal :=
  match rt.env "PORT" with
  | some p => if p = "" then .num 10000 else .str p
  | none => .num 10000

/-- The value `!!process.env[name]`. -/
def envIsSet (rt : Runtime) (name : String) : Bool :=
  match rt.env name with
  | some v => v != ""
  | none => false

/-- The `tools` array written in the health endpoint, on each side of the
merge. -/
def healthTools (side : MergeSide) : List String :=
  match side with
  | .head =>
    ["crop-price", "search", "soil-health", "weather", "pest-identifier", "mandi-price"]
  | .incoming =>
    ["crop-price", "search", "soil-health", "weather", "pest-identifier", "mandi-price",
      "scheme-tool"]

/-- The body of the health endpoint. -/
def healthBody (side : MergeSide) (rt : Runtime) : JsVal :=
  .obj [
    ("status", .str "healthy"),
    ("server", .str "agricultural-ai-mcp"),
    ("protocols", .arr [.str "http", .str "mcp"]),
    ("tools", .arr ((healthTools side).map JsVal.str)),
    ("timestamp", .str rt.timestamp),
    ("environment", .obj [
      ("datagovin_key_set", .bool (envIsSet rt "DATAGOVIN_API_KEY")),
      ("exa_key_set", .bool (envIsSet rt "EXA_API_KEY")),
      ("port", PORT rt)]),
    ("mcp", .obj [
      ("endpoint", .str "/mcp"),
      ("protocol_version", .str "2024-11-05"),
      ("capabilities", .arr [.str "tools"])])]

/-- The entry of `crop-price` in the `tools` array of the root endpoint. -/
def cropPriceEntry : JsVal :=
  .obj [
    ("name", .str "crop-price"),
    ("description", .str "Fetch crop price data from data.gov.in"),
    ("endpoint", .str "/tools/crop-price"),
    ("method", .str "POST"),
    ("parameters", .obj [
      ("state", .str "string (optional) - State filter (e.g., Punjab, Maharashtra)"),
      ("district", .str "string (optional) - District filter (e.g., Ludhiana, Mumbai)"),
      ("commodity", .str "string (optional) - Commodity filter (e.g., Wheat, Rice, Cotton)"),
      ("limit", .str "number (optional) - Max records to return (default: 50)"),
      ("offset", .str "number (optional) - Records to skip (default: 0)")])]

/-- The entry of `search` in the `tools` array of the root endpoint. -/
def searchEntry : JsVal :=
  .obj [
    ("name", .str "search"),
    ("description", .str "Search the web for agricultural information"),
    ("endpoint", .str "/tools/search"),
    ("method", .str "POST"),
    ("parameters", .obj [
      ("query", .str "string (required) - Search query"),
      ("num_results", .str "number (optional) - Number of results (default: 5)"),
      ("include_domains", .str "array (optional) - Domains to include"),
      ("exclude_domains", .str "array (optional) - Domains to exclude")])]

/-- The entry of `soil-health` in the `tools` array of the root endpoint. -/
def soilHealthEntry : JsVal :=
  .obj [
    ("name", .str "soil-health"),
    ("description", .str "Analyze soil health and provide crop recommendations"),
    ("endpoint", .str "/tools/soil-health"),
    ("method", .str "POST"),
    ("parameters", .obj [
      ("state", .str "string (optional) - State location"),
      ("district", .str "string (optional) - District location"),
      ("soil_type", .str "string (optional) - Type of soil"),
      ("npk_values", .str "object (optional) - NPK values from soil test"),
      ("ph_level", .str "number (optional) - Soil pH level"),
      ("organic_content", .str "number (optional) - Organic carbon percentage")])]

/-- The entry of `weather` in the `tools` array of the root endpoint. -/
def weatherEntry : JsVal :=
  .obj [
    ("name", .str "weather"),
    ("description", .str "Get farming-specific weather forecast with alerts"),
    ("endpoint", .str "/tools/weather"),
    ("method", .str "POST"),
    ("parameters", .obj [
      ("location", .str "string (required) - Location for forecast"),
      ("days", .str "number (optional) - Days to forecast (default: 7)"),
      ("include_farming_alerts", .str "boolean (optional) - Include farming alerts")])]

/-- The entry of `pest-identifier` in the `tools` array of the root endpoint. -/
def pestIdentifierEntry : JsVal :=
  .obj [
    ("name", .str "pest-identifier"),
    ("description", .str "Identify pests and diseases with treatment recommendations"),
    ("endpoint", .str "/tools/pest-identifier"),
    ("method", .str "POST"),
    ("parameters", .obj [
      ("crop", .str "string (required) - Type of crop affected"),
      ("symptoms", .str "string (required) - Observed symptoms"),
      ("image_description", .str "string (optional) - Description of images"),
      ("location", .str "string (optional) - Location of observation")])]

/-- The entry of `mandi-price` in the `tools` array of the root endpoint. -/
def mandiPriceEntry : JsVal :=
  .obj [
    ("name", .str "mandi-price"),
    ("description", .str "Track mandi prices with trends and predictions"),
    ("endpoint", .str "/tools/mandi-price"),
    ("method", .str "POST"),
    ("parameters", .obj [
      ("commodity", .str "string (required) - Commodity to track"),
      ("state", .str "string (optional) - State for tracking"),
      ("district", .str "string (optional) - District for local prices"),
      ("days_back", .str "number (optional) - Historical data days"),
      ("include_predictions", .str "boolean (optional) - Include predictions")])]

/-- The entry of `scheme-tool` in the `tools` array of the root endpoint. -/
def schemeToolEntry : JsVal :=
  .obj [
    ("name", .str "scheme-tool"),
    ("description", .str "Help farmers with crop damage schemes, insurance claims, and government relief programs"),
    ("endpoint", .str "/tools/scheme-tool"),
    ("method", .str "POST"),
    ("parameters", .obj [
      ("damage_type", .str "string (required) - Type of damage (drought, flood, cyclone, hailstorm, pest_attack, disease, fire, etc.)"),
      ("crop_type", .str "string (optional) - Type of crop affected"),
      ("state", .str "string (required) - State where damage occurred"),
      ("district", .str "string (required) - District where damage occurred"),
      ("damage_extent", .str "string (optional) - Extent of damage (minor, moderate, severe, complete)"),
      ("has_insurance", .str "boolean (optional) - Whether farmer has crop insurance"),
      ("insurance_type", .str "string (optional) - Type of insurance (pmfby, wbcis, private)"),
      ("farmer_category", .str "string (optional) - Category of farmer (small, marginal, medium, large)"),
      ("land_size_acres", .str "number (optional) - Size of affected land in acres"),
      ("damage_date", .str "string (optional) - Date when damage occurred"),
      ("search_relief_schemes", .str "boolean (optional) - Search for recent relief announcements")])]

/-- The example of `crop-price` in the body of the root endpoint. -/
def cropPriceExample : JsVal :=
  .obj [
    ("url", .str "/tools/crop-price"),
    ("method", .str "POST"),
    ("body", .obj [("state", .str "Punjab"), ("commodity", .str "Wheat"), ("limit", .num 10)])]

/-- The example of `search` in the body of the root endpoint. -/
def searchExample : JsVal :=
  .obj [
    ("url", .str "/tools/search"),
    ("method", .str "POST"),
    ("body", .obj [("query", .str "Indian agriculture news 2024"), ("num_results", .num 5)])]

/-- The example of `soil-health` in the body of the root endpoint. -/
def soilHealthExample : JsVal :=
  .obj [
    ("url", .str "/tools/soil-health"),
    ("method", .str "POST"),
    ("body", .obj [
      ("state", .str "Punjab"),
      ("ph_level", .nonInt (.finite 6.5)),
      ("npk_values", .obj [("nitrogen", .num 280), ("phosphorus", .num 23), ("potassium", .num 280)])])]

/-- The example of `weather` in the body of the root endpoint. -/
def weatherExample : JsVal :=
  .obj [
    ("url", .str "/tools/weather"),
    ("method", .str "POST"),
    ("body", .obj [
      ("location", .str "Ludhiana, Punjab"),
      ("days", .num 7),
      ("include_farming_alerts", .bool true)])]

/-- The example of `pest-identifier` in the body of the root endpoint. -/
def pestIdentifierExample : JsVal :=
  .obj [
    ("url", .str "/tools/pest-identifier"),
    ("method", .str "POST"),
    ("body", .obj [
      ("crop", .str "rice"),
      ("symptoms", .str "yellowing leaves, stunted growth"),
      ("location", .str "Punjab")])]

/-- The example of `mandi-price` in the body of the root endpoint. -/
def mandiPriceExample : JsVal :=
  .obj [
    ("url", .str "/tools/mandi-price"),
    ("method", .str "POST"),
    ("body", .obj [
      ("commodity", .str "wheat"),
      ("state", .str "Punjab"),
      ("district", .str "Ludhiana"),
      ("include_predictions", .bool true)])]

/-- The example of `scheme-tool` in the body of the root endpoint. -/
def schemeToolExample : JsVal :=
  .obj [
    ("url", .str "/tools/scheme-tool"),
    ("method", .str "POST"),
    ("body", .obj [
      ("damage_type", .str "flood"),
      ("crop_type", .str "rice"),
      ("state", .str "Punjab"),
      ("district", .str "Ludhiana"),
      ("damage_extent", .str "severe"),
      ("has_insurance", .bool true),
      ("insurance_type", .str "pmfby"),
      ("land_size_acres", .num 5),
      ("search_relief_schemes", .bool true)])]

/-- The `tools` array of the root endpoint, on each side of the merge. -/
def rootTools (side : MergeSide) : List JsVal :=
  [cropPriceEntry, searchEntry, soilHealthEntry, weatherEntry, pestIdentifierEntry,
    mandiPriceEntry] ++
  match side with
  | .head => []
  | .incoming => [schemeToolEntry]

/-- The `examples` object of the root endpoint, on each side of the merge. -/
def rootExamples (side : MergeSide) : List (String × JsVal) :=
  [("crop-price", cropPriceExample), ("search", searchExample),
    ("soil-health", soilHealthExample), ("weather", weatherExample),
    ("pest-identifier", pestIdentifierExample), ("mandi-price", mandiPriceExample)] ++
  match side with
  | .head => []
  | .incoming => [("scheme-tool", schemeToolExample)]

/-- The body of the root endpoint. -/
def rootBody (side : MergeSide) : JsVal :=
  .obj [
    ("name", .str "Agricultural AI MCP Server"),
    ("version", .str "1.0.0"),
    ("description",
      .str "Hybrid server: HTTP API + MCP Protocol for Docker MCP Gateway integration"),
    ("protocols", .obj [
      ("http", .str "Direct HTTP API access"),
      ("mcp", .str "Model Context Protocol via /mcp endpoint")]),
    ("tools", .arr (rootTools side)),
    ("usage", .obj [
      ("http",
        .str "POST to /tools/\x7btool-name\x7d with JSON body containing tool parameters"),
      ("mcp", .str "POST to /mcp with MCP protocol JSON-RPC requests")]),
    ("examples", .obj (rootExamples side))]

/-- The characters before the first occurrence of `sep`, or all of them. -/
def takeUntil (sep : List Char) : List Char → List Char
  | [] => []
  | c :: cs => if sep.isPrefixOf (c :: cs) then [] else c :: takeUntil sep cs

/-- The expression `req.url.split('/tools/')[1]` for a url that starts with
`/tools/`: what stands between that first separator and the next one. -/
def urlToolName (url : String) : String :=
  String.mk (takeUntil "/tools/".data (url.data.drop 7))

/-- The `end` callback of the `POST /tools/<name>` route: one `try` block
around the parse of `body || '{}'`, the lookup and the call of the handler,
whose `catch` answers 400. -/
def toolsRoute (side : MergeSide) (hs : Handlers) (rt : Runtime) (toolName body : String) :
    HttpResponse :=
  match (do
    let params ← rt.parse (if body = "" then "\x7b\x7d" else body)
    match (toolHandlers side hs).get (.str toolName) with
    | none =>
      pure { status := 404,
             body := .obj [
               ("error", .str ("Tool \x27" ++ toolName ++ "\x27 not found")),
               ("available_tools", toolNames side hs)] }
    | some handler =>
      let result ← handler params
      pure { status := 200, body := result } : Except JsError HttpResponse) with
  | .ok response => response
  | .error error =>
    { status := 400,
      body := .obj [("error", .str ("Invalid request: " ++ error.toString))] }

/-- The request listener of `httpServer`: the routes in the order of the
source.  The answer to `OPTIONS` has no body (`undefined`). -/
def httpServer (side : MergeSide) (hs : Handlers) (rt : Runtime) (req : HttpRequest) :
    HttpResponse :=
  if req.method = "OPTIONS" then { status := 200, body := .undefined }
  else if req.url = "/mcp" ∧ req.method = "POST" then mcpRoute side hs (rt.parse req.body)
  else if req.url = "/health" then { status := 200, body := healthBody side rt }
  else if req.url = "/" then { status := 200, body := rootBody side }
  else if "/tools/".data.isPrefixOf req.url.data ∧ req.method = "POST" then
    toolsRoute side hs rt (urlToolName req.url) req.body
  else { status := 404, body := .obj [("error", .str "Not found")] }

/-! ## Sample inputs -/

/-- A registry in which every name is bound to the same handler `h`. -/
def constHandlers (h : ToolHandler) : Handlers := ⟨h, h, h, h, h, h, h⟩

/-- A `tools/call` request object as `test-scheme-tool.js` builds it. -/
def callRequest (id name args : JsVal) : JsVal :=
  .obj [
    ("jsonrpc", .str "2.0"),
    ("id", id),
    ("method", .str "tools/call"),
    ("params", .obj [("name", name), ("arguments", args)])]

/-- A payload in the style of the handler data: a string with a quote and a
line break, integers of both signs, the fractions 6.5, 0.75 and -0.1 (the
double nearest it), numbers that print in exponent form (`1e+21`, `5e-324`
and the largest double), nested arrays, `null` and an empty object. -/
def samplePayload : JsVal :=
  .obj [
    ("commodity", .str "wheat \"sharbati\"\n"),
    ("price_history", .arr [.num 2100, .num (-5), .arr [], .null]),
    ("ph_level", .nonInt (.finite (13 / 2))),
    ("confidence", .nonInt (.finite (3 / 4))),
    ("trend", .nonInt (.finite (-(3602879701896397 / 36028797018963968)))),
    ("volume", .num (10 ^ 21)),
    ("limits", .arr [.nonInt (.finite (1 / 2 ^ 1074)), .num ((2 ^ 53 - 1) * 2 ^ 971)]),
    ("include_predictions", .bool true),
    ("market", .obj [])]

/-- A runtime for the examples: the `JSON.parse` above, an empty environment,
a fixed clock and random source, and upstream services that are down. -/
def sampleRuntime : Runtime :=
  { parse := JSON.parse
    env := fun _ => none
    timestamp := "2025-01-15T10:00:00.000Z"
    isoDay := fun _ => .ok "2025-01-15"
    month := fun _ => .finite 0
    year := 2025
    ninetyDaysAgo := "2024-10-17T10:00:00.000Z"
    random := fun _ _ => 1 / 2
    sinTurns := fun _ => .finite 0
    toLowerCase := fun s => s.map Char.toLower
    strToNumber := fun _ => .nan
    spreadLimit := 100000
    cropPriceUpstream := fun _ _ => .error (.thrown "FetchError: network is unreachable")
    searchUpstream := fun _ _ => .error (.thrown "FetchError: network is unreachable") }

/-! ## Vocabulary of the proofs -/

namespace JSON

/-- A character that starts a number: a minus sign or a digit. -/
def StartsNumber (c : Char) : Prop := c.toNat = 45 ∨ (48 ≤ c.toNat ∧ c.toNat ≤ 57)

end JSON

/-- The shape of every response literal in `handleMCPRequest`: the members
`jsonrpc` and `id`, then exactly one of `result` and `error`. -/
def IsEnvelope (request response : JsVal) : Prop :=
  ∃ key value, (key = "result" ∨ key = "error") ∧
    response = .obj [("jsonrpc", .str "2.0"), ("id", request.prop "id"), (key, value)]

/-- What a handler may resolve to: the object `success: true, data`, or the
object `error: E` with `E` a string that is not empty.  A handler that lets an
exception escape resolves to neither. -/
def IsToolResult (outcome : Except JsError JsVal) : Prop :=
  (∃ data, outcome = .ok (success data)) ∨
    (∃ E : String, E ≠ "" ∧ outcome = .ok (failure (.str E)))

/-- Whether the value is a number (`typeof v === "number"`). -/
def JsVal.isNumber : JsVal → Bool
  | .num _ => true
  | .nonInt _ => true
  | _ => false

/-- A numeric input of a handler: a number, or nothing at all. -/
def IsNumericInput (v : JsVal) : Prop := v = .undefined ∨ v.isNumber = true

/-- The reading `reported` is the reading `other`, or it is the number 0 where
`other` is absent. -/
def ZeroForAbsent (reported other : JsVal) : Prop :=
  reported = other ∨ (reported = .num 0 ∧ other = .undefined)

/-- The pest and confidence that `pestIdentifierHandler` reports after the
symptom loop ended in the state `matched`: without a match, the first pest of
the crop at confidence 30. -/
def reportedPest (matched : Option PestData × ℚ) (pests : List PestData) :
    Option PestData × ℚ :=
  match matched.1, pests with
  | none, first :: _ => (some first, 30)
  | _, _ => matched

/-- The `identification` of a report. -/
def identificationOf (identified : Option PestData) (confidence : ℚ) : JsVal :=
  match identified with
  | some pest => .obj [
      ("pest_name", .str pest.name),
      ("confidence_score", (JsNumber.finite (roundHalfUp confidence)).toVal),
      ("severity", .str pest.severity),
      ("season", .str pest.season)]
  | none => .null

/-- The expression `(matches / Math.max(...)) * 100` of `pestConfidence` in
exact arithmetic, before any rounding to a double: the matches over the larger
of the two symptom counts, times 100. -/
def exactConfidence (pest : PestData) (symptomsList : List String) : ℚ :=
  (pestMatches pest symptomsList : ℚ) /
    (Max.max symptomsList.length pest.symptoms.length : Nat) * 100

/-- The entry of `alternative_pests` for a pest. -/
def alternativeOf (p : PestData) : JsVal :=
  .obj [("name", .str p.name), ("symptoms", strings p.symptoms), ("severity", .str p.severity)]

/-- The JSON-RPC encoding of a tool result `R` under the request id `id`, in
the words of the specification: the error `-32603` with the message `R.error`
when `R.error` is truthy, else one text block that serialises `R.data`. -/
def encodeToolResult (id R : JsVal) : JsVal :=
  if (R.prop "error").truthy then
    .obj [
      ("jsonrpc", .str "2.0"),
      ("id", id),
      ("error", .obj [("code", .num (-32603)), ("message", R.prop "error")])]
  else
    .obj [
      ("jsonrpc", .str "2.0"),
      ("id", id),
      ("result", .obj [
        ("content", .arr [
          .obj [("type", .str "text"), ("text", JSON.stringify (R.prop "data"))]])])]

/-- The values that the schema of `scheme-tool` lists for `damage_type`. -/
def damageTypeEnum : List JsVal :=
  match (((schemeToolDescriptor.prop "inputSchema").prop "properties").prop
    "damage_type").prop "enum" with
  | .arr items => items
  | _ => []

/-- The first relief scheme of the database, the State Disaster Response
Fund. -/
def sdrfScheme : JsVal := reliefSchemes.headD .undefined

/-- The first scenario of `test-scheme-tool.js`, a flood on five acres of
insured rice, with the damage extent left open. -/
def floodScenario (damage_extent : JsVal) : JsVal :=
  .obj [
    ("damage_type", .str "flood"),
    ("crop_type", .str "rice"),
    ("state", .str "Punjab"),
    ("district", .str "Ludhiana"),
    ("damage_extent", damage_extent),
    ("has_insurance", .bool true),
    ("insurance_type", .str "pmfby"),
    ("land_size_acres", .num 5),
    ("farmer_category", .str "small"),
    ("search_relief_schemes", .bool true)]

/-! ## Properties of the dispatcher -/

theorem JsVal.getProp_eq (v : JsVal) (key : String) (h : v.isNullish = false) :
    v.getProp key = .ok (v.prop key) := by
  cases v <;> simp_all [JsVal.getProp, JsVal.isNullish]

theorem JsVal.destructure_eq (v : JsVal) (key source : String) (h : v.isNullish = false) :
    v.destructure key source = .ok (v.prop key) := by
  cases v <;> simp_all [JsVal.destructure, JsVal.isNullish]

theorem JsVal.not_nullish_of_prop_str {v : JsVal} {key s : String} (h : v.prop key = .str s) :
    v.isNullish = false := by
  cases v <;> simp_all [JsVal.prop, JsVal.isNullish]

theorem JsVal.getProp_obj (fields : List (String × JsVal)) (key : String) :
    (JsVal.obj fields).getProp key = .ok ((fields.lookup key).getD .undefined) := rfl


theorem toolsCall_envelope (side : MergeSide) (hs : Handlers) (request response : JsVal)
    (hreq : request.isNullish = false) (h : toolsCall side hs request = .ok response) :
    IsEnvelope request response := by
  simp only [toolsCall, JsVal.getProp_eq _ _ hreq, bind, Except.bind, pure, Except.pure] at h
  repeat' split at h
  all_goals first
    | contradiction
    | (cases h; exact ⟨_, _, Or.inl rfl, rfl⟩)
    | (cases h; exact ⟨_, _, Or.inr rfl, rfl⟩)

theorem dispatch_envelope (side : MergeSide) (hs : Handlers) (request response : JsVal)
    (hreq : request.isNullish = false) (h : dispatch side hs request = .ok response) :
    IsEnvelope request response := by
  simp only [dispatch, JsVal.getProp_eq _ _ hreq, bind, Except.bind, pure, Except.pure] at h
  repeat' split at h
  all_goals first
    | contradiction
    | exact toolsCall_envelope side hs request response hreq h
    | (cases h; exact ⟨_, _, Or.inl rfl, rfl⟩)
    | (cases h; exact ⟨_, _, Or.inr rfl, rfl⟩)

theorem handleMCPRequest_envelope (side : MergeSide) (hs : Handlers) (request : JsVal)
    (hreq : request.isNullish = false) :
    ∃ response, handleMCPRequest side hs request = .ok response ∧ IsEnvelope request response := by
  unfold handleMCPRequest
  cases hd : dispatch side hs request with
  | ok response => exact ⟨response, rfl, dispatch_envelope side hs request response hreq hd⟩
  | error e =>
    simp only [JsVal.getProp_eq _ _ hreq, bind, Except.bind, pure, Except.pure]
    exact ⟨_, rfl, _, _, Or.inr rfl, rfl⟩

theorem JsMap.get_eq_none {α : Type} (m : JsMap α) (name : JsVal)
    (h : ∀ key ∈ m.keys, name ≠ .str key) : m.get name = none := by
  cases name with
  | str k =>
    simp only [JsMap.get, List.lookup_eq_none_iff]
    intro p hp
    have hne : k ≠ p.1 := fun hk =>
      h p.1 (List.mem_map_of_mem Prod.fst hp) (by rw [hk])
    simpa using hne
  | _ => rfl

theorem toolHandlers_keys (side : MergeSide) (hs hs2 : Handlers) :
    (toolHandlers side hs).keys = (toolHandlers side hs2).keys := by
  cases side <;> rfl

/-- C1 (as amended): a `tools/call` on a registered name whose handler
resolves to `Failure` with a non-empty error string `E` is answered with the
error `-32603`, the message `E`, the request id, and no `result`. -/
theorem handleMCPRequest_failure (side : MergeSide) (hs : Handlers) (request : JsVal)
    (name E : String) (handler : ToolHandler)
    (hmethod : request.prop "method" = .str "tools/call")
    (hname : (request.prop "params").prop "name" = .str name)
    (hreg : (toolHandlers side hs).get (.str name) = some handler)
    (hres : handler ((request.prop "params").prop "arguments") = .ok (failure (.str E)))
    (hE : E ≠ "") :
    handleMCPRequest side hs request = .ok (.obj [
      ("jsonrpc", .str "2.0"),
      ("id", request.prop "id"),
      ("error", .obj [("code", .num (-32603)), ("message", .str E)])]) := by
  have hr := JsVal.not_nullish_of_prop_str hmethod
  have hp := JsVal.not_nullish_of_prop_str hname
  simp [handleMCPRequest, dispatch, toolsCall, JsVal.getProp_eq _ _ hr,
    JsVal.destructure_eq _ _ _ hp, hmethod, hname, hreg, hres, strictEqStr, bind, Except.bind,
    pure, Except.pure, failure, JsVal.getProp_obj, JsVal.truthy, hE]

/-- Witness of C1 (as amended): the `weather` handler fails with `boom`. -/
theorem handleMCPRequest_failure_witness :
    handleMCPRequest .head (constHandlers fun _ => .ok (failure (.str "boom")))
        (callRequest (.num 1) (.str "weather") (.obj [])) =
      .ok (.obj [
        ("jsonrpc", .str "2.0"),
        ("id", .num 1),
        ("error", .obj [("code", .num (-32603)), ("message", .str "boom")])]) :=
  handleMCPRequest_failure .head (constHandlers fun _ => .ok (failure (.str "boom")))
    (callRequest (.num 1) (.str "weather") (.obj [])) "weather" "boom"
    (fun _ => .ok (failure (.str "boom"))) rfl rfl rfl rfl (by decide)

/-- Counterexample to C1 as stated: when the `weather` handler resolves to
`Failure` with the empty error string, the test `if (result.error)` fails and
the response is a `result` whose text block has no text, not the error
`-32603`. -/
theorem handleMCPRequest_failure_empty_error :
    handleMCPRequest .head (constHandlers fun _ => .ok (failure (.str "")))
        (callRequest (.num 1) (.str "weather") (.obj [])) =
      .ok (.obj [
        ("jsonrpc", .str "2.0"),
        ("id", .num 1),
        ("result", .obj [
          ("content", .arr [.obj [("type", .str "text"), ("text", .undefined)]])])]) := by
  rfl

/-- C3: a `tools/call` whose `params.name` is not a registry key is answered
without calling a handler (the answer is the same whatever the registered
handlers would do).  When the name has a string form `shown`, as every string,
number, boolean, `null` and absent name has, the answer is the error `-32601`
with the message naming the tool and `data.availableTools` listing the registry
keys in order.  When the conversion of the name to a string throws, as for the
name `{toString: 1}`, the `catch` block answers `-32603` instead. -/
theorem handleMCPRequest_tool_not_found (side : MergeSide) (hs : Handlers) (request : JsVal)
    (hmethod : request.prop "method" = .str "tools/call")
    (hparams : (request.prop "params").isNullish = false)
    (hmiss : ∀ key ∈ (toolHandlers side hs).keys,
      (request.prop "params").prop "name" ≠ .str key) :
    ∀ hs2 : Handlers, handleMCPRequest side hs2 request = .ok (.obj [
      ("jsonrpc", .str "2.0"),
      ("id", request.prop "id"),
      ("error",
        match ((request.prop "params").prop "name").toStr with
        | .ok shown => .obj [
            ("code", .num (-32601)),
            ("message", .str ("Tool \x27" ++ shown ++ "\x27 not found")),
            ("data", .obj [
              ("availableTools", .arr ((toolHandlers side hs).keys.map JsVal.str))])]
        | .error thrown => .obj [
            ("code", .num (-32603)),
            ("message", .str ("Internal error: " ++ thrown.toString))])]) := by
  intro hs2
  have hr := JsVal.not_nullish_of_prop_str hmethod
  have hnone : (toolHandlers side hs2).get ((request.prop "params").prop "name") = none :=
    JsMap.get_eq_none _ _ (by rw [toolHandlers_keys side hs2 hs]; exact hmiss)
  cases hshown : ((request.prop "params").prop "name").toStr <;>
  simp [handleMCPRequest, dispatch, toolsCall, JsVal.getProp_eq _ _ hr,
    JsVal.destructure_eq _ _ _ hparams, hmethod, hnone, hshown, strictEqStr, bind, Except.bind,
    pure, Except.pure, toolNames, toolHandlers_keys side hs2 hs]

/-- Witness of C3: the name `scheme-tool` on the `HEAD` side of the merge. -/
theorem handleMCPRequest_tool_not_found_witness :
    handleMCPRequest .head (constHandlers fun _ => .error (.thrown "never called"))
        (callRequest (.num 7) (.str "scheme-tool") (.obj [])) =
      .ok (.obj [
        ("jsonrpc", .str "2.0"),
        ("id", .num 7),
        ("error", .obj [
          ("code", .num (-32601)),
          ("message", .str "Tool \x27scheme-tool\x27 not found"),
          ("data", .obj [
            ("availableTools", .arr [.str "crop-price", .str "search", .str "soil-health",
              .str "weather", .str "pest-identifier", .str "mandi-price"])])])]) :=
  handleMCPRequest_tool_not_found .head (constHandlers fun a => .ok a)
    (callRequest (.num 7) (.str "scheme-tool") (.obj [])) rfl rfl
    (by decide) (constHandlers fun _ => .error (.thrown "never called"))

/-- Counterexample to C3 as stated: the name `{toString: 1}` is not a registry
key, the template literal of the message throws on it, and the answer is the
error `-32603` of the `catch` block, not `-32601`. -/
theorem handleMCPRequest_tool_not_found_counterexample :
    (∀ key ∈ (toolHandlers .incoming (constHandlers fun a => .ok a)).keys,
      JsVal.obj [("toString", .num 1)] ≠ .str key) ∧
    handleMCPRequest .incoming (constHandlers fun a => .ok a)
        (callRequest (.num 7) (.obj [("toString", .num 1)]) (.obj [])) =
      .ok (.obj [
        ("jsonrpc", .str "2.0"),
        ("id", .num 7),
        ("error", .obj [
          ("code", .num (-32603)),
          ("message",
            .str "Internal error: TypeError: Cannot convert object to primitive value")])]) :=
  ⟨by decide, rfl⟩

/-- C4: a request whose `method` is none of `initialize`, `tools/list` and
`tools/call` (a missing method included) gets a response with `error` and no
`result`, whatever its `params`.  When the method value has a string form
`shown`, as every string, number and the absent method have, the error is
`-32601` with the message naming the method.  When the conversion of the
method value to a string throws, as for `{toString: 1}`, the `catch` block
answers `-32603` instead. -/
theorem handleMCPRequest_unknown_method (side : MergeSide) (hs : Handlers) (request : JsVal)
    (hreq : request.isNullish = false)
    (hinit : request.prop "method" ≠ .str "initialize")
    (hlist : request.prop "method" ≠ .str "tools/list")
    (hcall : request.prop "method" ≠ .str "tools/call") :
    handleMCPRequest side hs request = .ok (.obj [
      ("jsonrpc", .str "2.0"),
      ("id", request.prop "id"),
      ("error",
        match (request.prop "method").toStr with
        | .ok shown => .obj [
            ("code", .num (-32601)),
            ("message", .str ("Method \x27" ++ shown ++ "\x27 not found"))]
        | .error thrown => .obj [
            ("code", .num (-32603)),
            ("message", .str ("Internal error: " ++ thrown.toString))])]) := by
  have h1 : strictEqStr (request.prop "method") "initialize" = false := by
    cases hm : request.prop "method" <;> simp_all [strictEqStr]
  have h2 : strictEqStr (request.prop "method") "tools/list" = false := by
    cases hm : request.prop "method" <;> simp_all [strictEqStr]
  have h3 : strictEqStr (request.prop "method") "tools/call" = false := by
    cases hm : request.prop "method" <;> simp_all [strictEqStr]
  cases hshown : (request.prop "method").toStr <;>
  simp [handleMCPRequest, dispatch, JsVal.getProp_eq _ _ hreq, h1, h2,
    h3, hshown, bind, Except.bind, pure, Except.pure]

/-- Witness of C4: a request without `method`, with `params` set to `null`. -/
theorem handleMCPRequest_unknown_method_witness :
    handleMCPRequest .incoming (constHandlers fun a => .ok a)
        (.obj [("jsonrpc", .str "2.0"), ("id", .str "a"), ("params", .null)]) =
      .ok (.obj [
        ("jsonrpc", .str "2.0"),
        ("id", .str "a"),
        ("error", .obj [
          ("code", .num (-32601)),
          ("message", .str "Method \x27undefined\x27 not found")])]) :=
  handleMCPRequest_unknown_method .incoming (constHandlers fun a => .ok a)
    (.obj [("jsonrpc", .str "2.0"), ("id", .str "a"), ("params", .null)]) rfl
    (by decide) (by decide) (by decide)

/-- Counterexample to C4 as stated: the method value `{toString: 1}` is none of
the three method names, the template literal of the message throws on it, and
the answer is the error `-32603` of the `catch` block, not `-32601`. -/
theorem handleMCPRequest_unknown_method_counterexample :
    handleMCPRequest .incoming (constHandlers fun a => .ok a)
        (.obj [("jsonrpc", .str "2.0"), ("id", .num 7),
          ("method", .obj [("toString", .num 1)])]) =
      .ok (.obj [
        ("jsonrpc", .str "2.0"),
        ("id", .num 7),
        ("error", .obj [
          ("code", .num (-32603)),
          ("message",
            .str "Internal error: TypeError: Cannot convert object to primitive value")])]) :=
  rfl

/-- C5: the names of the descriptors in `mcpTools` are the registry keys, in
registration order and without repetition, on both sides of the merge (six
tools on `HEAD`, seven with `scheme-tool`); `tools/list` returns `mcpTools`. -/
theorem mcpTools_names_eq_registry_keys (side : MergeSide) (hs : Handlers) (id : JsVal) :
    (mcpTools side).map (fun descriptor => descriptor.prop "name") =
        (toolHandlers side hs).keys.map JsVal.str ∧
      (toolHandlers side hs).keys.Nodup ∧
      (toolHandlers .head hs).keys.length = 6 ∧
      (toolHandlers .incoming hs).keys.length = 7 ∧
      handleMCPRequest side hs
          (.obj [("jsonrpc", .str "2.0"), ("id", id), ("method", .str "tools/list")]) =
        .ok (.obj [
          ("jsonrpc", .str "2.0"),
          ("id", id),
          ("result", .obj [("tools", .arr (mcpTools side))])]) := by
  cases side
  · refine ⟨rfl, ?_, rfl, rfl, rfl⟩
    show ["crop-price", "search", "soil-health", "weather", "pest-identifier",
      "mandi-price"].Nodup
    decide
  · refine ⟨rfl, ?_, rfl, rfl, rfl⟩
    show ["crop-price", "search", "soil-health", "weather", "pest-identifier",
      "mandi-price", "scheme-tool"].Nodup
    decide

/-- C6: every request with method `initialize` succeeds with the same fixed
result and with the id of the request, whatever its id and params. -/
theorem handleMCPRequest_initialize (side : MergeSide) (hs : Handlers) (request : JsVal)
    (hmethod : request.prop "method" = .str "initialize") :
    handleMCPRequest side hs request = .ok (.obj [
      ("jsonrpc", .str "2.0"),
      ("id", request.prop "id"),
      ("result", .obj [
        ("protocolVersion", .str "2024-11-05"),
        ("capabilities", .obj [("tools", .obj [])]),
        ("serverInfo", .obj [
          ("name", .str "agricultural-ai-mcp"),
          ("version", .str "1.0.0")])])]) := by
  have hr := JsVal.not_nullish_of_prop_str hmethod
  simp [handleMCPRequest, dispatch, JsVal.getProp_eq _ _ hr, hmethod, strictEqStr, bind,
    Except.bind, pure, Except.pure, initializeResult]

/-- Witness of C6: an `initialize` request with a string id and array params. -/
theorem handleMCPRequest_initialize_witness :
    handleMCPRequest .head (constHandlers fun a => .ok a)
        (.obj [("id", .str "first"), ("method", .str "initialize"), ("params", .arr [.num 1])]) =
      .ok (.obj [
        ("jsonrpc", .str "2.0"),
        ("id", .str "first"),
        ("result", .obj [
          ("protocolVersion", .str "2024-11-05"),
          ("capabilities", .obj [("tools", .obj [])]),
          ("serverInfo", .obj [
            ("name", .str "agricultural-ai-mcp"),
            ("version", .str "1.0.0")])])]) :=
  handleMCPRequest_initialize .head (constHandlers fun a => .ok a)
    (.obj [("id", .str "first"), ("method", .str "initialize"), ("params", .arr [.num 1])]) rfl

theorem handleMCPRequest_nullish (side : MergeSide) (hs : Handlers) (request : JsVal)
    (hreq : request.isNullish = true) :
    ∃ e, handleMCPRequest side hs request = .error e := by
  cases request <;> first | exact ⟨_, rfl⟩ | simp [JsVal.isNullish] at hreq

/-- C7: every response that `handleMCPRequest` produces has exactly one of the
members `result` and `error`, and a response is produced for every request
that is not `null` or `undefined`, whatever the handlers do. -/
theorem handleMCPRequest_result_xor_error (side : MergeSide) (hs : Handlers) (request : JsVal) :
    (∀ response, handleMCPRequest side hs request = .ok response →
        (response.field? "result").isSome = !(response.field? "error").isSome) ∧
      (request.isNullish = false → ∃ response, handleMCPRequest side hs request = .ok response) := by
  constructor
  · intro response h
    cases hreq : request.isNullish with
    | true =>
      obtain ⟨e, he⟩ := handleMCPRequest_nullish side hs request hreq
      rw [he] at h
      cases h
    | false =>
      obtain ⟨r, hr, key, value, hkey, hshape⟩ := handleMCPRequest_envelope side hs request hreq
      rw [hr] at h
      cases h
      rcases hkey with hkey | hkey <;> subst hkey <;> subst hshape <;> rfl
  · intro hreq
    obtain ⟨r, hr, _⟩ := handleMCPRequest_envelope side hs request hreq
    exact ⟨r, hr⟩

/-- Witness of C7: a `tools/call` whose handler rejects. -/
theorem handleMCPRequest_result_xor_error_witness :
    (JsVal.field? (.obj [
        ("jsonrpc", .str "2.0"),
        ("id", .num 3),
        ("error", .obj [("code", .num (-32603)), ("message", .str "Internal error: down")])])
      "result").isSome = !(JsVal.field? (.obj [
        ("jsonrpc", .str "2.0"),
        ("id", .num 3),
        ("error", .obj [("code", .num (-32603)), ("message", .str "Internal error: down")])])
      "error").isSome ∧
    ∃ response, handleMCPRequest .incoming (constHandlers fun _ => .error (.thrown "down"))
      (callRequest (.num 3) (.str "search") (.obj [])) = .ok response :=
  ⟨(handleMCPRequest_result_xor_error .incoming (constHandlers fun _ => .error (.thrown "down"))
      (callRequest (.num 3) (.str "search") (.obj []))).1 _ rfl,
    (handleMCPRequest_result_xor_error .incoming (constHandlers fun _ => .error (.thrown "down"))
      (callRequest (.num 3) (.str "search") (.obj []))).2 rfl⟩

/-- C8: in every branch the response to a request object carries
`jsonrpc: "2.0"` and the id of the request. -/
theorem handleMCPRequest_echoes_id (side : MergeSide) (hs : Handlers) (request : JsVal)
    (hreq : request.isNullish = false) :
    ∃ response, handleMCPRequest side hs request = .ok response ∧
      response.field? "jsonrpc" = some (.str "2.0") ∧
      response.field? "id" = some (request.prop "id") := by
  obtain ⟨r, hr, key, value, _, hshape⟩ := handleMCPRequest_envelope side hs request hreq
  subst hshape
  exact ⟨_, hr, rfl, rfl⟩

/-- Witness of C8: an unknown method with an id. -/
theorem handleMCPRequest_echoes_id_witness :
    ∃ response, handleMCPRequest .head (constHandlers fun a => .ok a)
        (.obj [("id", .num 41), ("method", .str "ping")]) = .ok response ∧
      response.field? "jsonrpc" = some (.str "2.0") ∧
      response.field? "id" = some (.num 41) :=
  handleMCPRequest_echoes_id .head (constHandlers fun a => .ok a)
    (.obj [("id", .num 41), ("method", .str "ping")]) rfl

/-- Every parsed request body other than `null` is dispatched to a response,
which the `POST /mcp` route sends with HTTP 200. -/
theorem mcpRoute_ok (side : MergeSide) (hs : Handlers) (request : JsVal)
    (hreq : request.isNullish = false) :
    ∃ response, handleMCPRequest side hs request = .ok response ∧
      mcpRoute side hs (.ok request) = { status := 200, body := response } := by
  obtain ⟨response, hresponse, _⟩ := handleMCPRequest_envelope side hs request hreq
  refine ⟨response, hresponse, ?_⟩
  simp only [mcpRoute, bind, Except.bind, hresponse]

/-- C9, evaluated at the request body `null`: the `try` block throws on
`request.method`, the `catch` block throws again on `request.id`, so
`handleMCPRequest` rejects and the `POST /mcp` route answers a body that did
parse with HTTP 400 and the parse error `-32700`. -/
theorem mcpRoute_null_body (side : MergeSide) (hs : Handlers) :
    handleMCPRequest side hs .null =
        .error (.typeError "Cannot read properties of null (reading \x27id\x27)") ∧
      mcpRoute side hs (.ok .null) =
        { status := 400,
          body := .obj [
            ("jsonrpc", .str "2.0"),
            ("id", .num 0),
            ("error", .obj [
              ("code", .num (-32700)),
              ("message", .str
                "Parse error: TypeError: Cannot read properties of null (reading \x27id\x27)")])] } :=
  ⟨rfl, rfl⟩

/-- C10: an exception thrown while a `tools/call` request object is dispatched,
by the destructuring of absent or `null` params or by the handler of a
registered name, is answered with the error `-32603`, a message that carries
the string form of the exception, and the request id. -/
theorem handleMCPRequest_internal_error (side : MergeSide) (hs : Handlers) (request : JsVal)
    (e : JsError)
    (hmethod : request.prop "method" = .str "tools/call")
    (hthrow : (request.prop "params").destructure "name" "request.params" = .error e ∨
      ∃ handler, (request.prop "params").isNullish = false ∧
        (toolHandlers side hs).get ((request.prop "params").prop "name") = some handler ∧
        handler ((request.prop "params").prop "arguments") = .error e) :
    handleMCPRequest side hs request = .ok (.obj [
      ("jsonrpc", .str "2.0"),
      ("id", request.prop "id"),
      ("error", .obj [
        ("code", .num (-32603)),
        ("message", .str ("Internal error: " ++ e.toString))])]) := by
  have hr := JsVal.not_nullish_of_prop_str hmethod
  rcases hthrow with hd | ⟨handler, hp, hreg, hres⟩
  · simp [handleMCPRequest, dispatch, toolsCall, JsVal.getProp_eq _ _ hr, hmethod, hd, strictEqStr,
      bind, Except.bind, pure, Except.pure]
  · simp [handleMCPRequest, dispatch, toolsCall, JsVal.getProp_eq _ _ hr,
      JsVal.destructure_eq _ _ _ hp, hmethod, hreg, hres, strictEqStr, bind, Except.bind, pure,
      Except.pure]

/-- Witness of C10: a `tools/call` without params, and one whose handler throws. -/
theorem handleMCPRequest_internal_error_witness :
    handleMCPRequest .head (constHandlers fun a => .ok a)
        (.obj [("id", .num 2), ("method", .str "tools/call")]) =
      .ok (.obj [
        ("jsonrpc", .str "2.0"),
        ("id", .num 2),
        ("error", .obj [
          ("code", .num (-32603)),
          ("message", .str ("Internal error: TypeError: Cannot destructure property " ++
            "\x27name\x27 of \x27request.params\x27 as it is undefined."))])]) ∧
    handleMCPRequest .head (constHandlers fun _ => .error (.thrown "Error: upstream down"))
        (callRequest (.num 2) (.str "weather") (.obj [])) =
      .ok (.obj [
        ("jsonrpc", .str "2.0"),
        ("id", .num 2),
        ("error", .obj [
          ("code", .num (-32603)),
          ("message", .str "Internal error: Error: upstream down")])]) :=
  ⟨handleMCPRequest_internal_error .head (constHandlers fun a => .ok a)
      (.obj [("id", .num 2), ("method", .str "tools/call")])
      (.typeError
        "Cannot destructure property \x27name\x27 of \x27request.params\x27 as it is undefined.")
      rfl (Or.inl rfl),
    handleMCPRequest_internal_error .head
      (constHandlers fun _ => .error (.thrown "Error: upstream down"))
      (callRequest (.num 2) (.str "weather") (.obj [])) (.thrown "Error: upstream down")
      rfl (Or.inr ⟨fun _ => .error (.thrown "Error: upstream down"), rfl, rfl, rfl⟩)⟩

/-! ## Rounding to a double -/

namespace Double

theorem bitLengthAux_spec : ∀ (fuel n : Nat), n ≤ fuel → 0 < n →
    2 ^ (bitLengthAux fuel n - 1) ≤ n ∧ n < 2 ^ bitLengthAux fuel n := by
  intro fuel
  induction fuel with
  | zero => intro n h h0; omega
  | succ fuel ih =>
    intro n hn h0
    have hne : n ≠ 0 := by omega
    simp only [bitLengthAux, hne, if_false]
    by_cases h1 : n / 2 = 0
    · have : n = 1 := by omega
      subst this
      cases fuel <;> simp [bitLengthAux]
    · obtain ⟨ihl, ihr⟩ := ih (n / 2) (by omega) (by omega)
      have hpos : 0 < bitLengthAux fuel (n / 2) := by
        rcases Nat.eq_zero_or_pos (bitLengthAux fuel (n / 2)) with h | h
        · rw [h] at ihr; omega
        · exact h
      constructor
      · have : bitLengthAux fuel (n / 2) + 1 - 1 = (bitLengthAux fuel (n / 2) - 1) + 1 := by omega
        rw [this, pow_succ]
        omega
      · rw [pow_succ]
        omega

theorem bitLength_spec (n : Nat) (h : 0 < n) :
    2 ^ (bitLength n - 1) ≤ n ∧ n < 2 ^ bitLength n :=
  bitLengthAux_spec n n (le_refl n) h

theorem bitLength_pos (n : Nat) (h : 0 < n) : 0 < bitLength n := by
  rcases Nat.eq_zero_or_pos (bitLength n) with h0 | h0
  · have := (bitLength_spec n h).2
    rw [h0] at this
    omega
  · exact h0

end Double

namespace Double

theorem zpow_split (c : ℚ) (e : Int) :
    c ^ e = c ^ e.toNat / c ^ (-e).toNat := by
  rcases le_total 0 e with h | h
  · have h1 : (-e).toNat = 0 := Int.toNat_eq_zero.mpr (by omega)
    have h2 : (e.toNat : Int) = e := Int.toNat_of_nonneg h
    rw [h1, pow_zero, div_one, ← zpow_natCast, h2]
  · have h1 : e.toNat = 0 := Int.toNat_eq_zero.mpr h
    have h2 : ((-e).toNat : Int) = -e := Int.toNat_of_nonneg (by omega)
    rw [h1, pow_zero, one_div, ← zpow_natCast, h2, zpow_neg, inv_inv]

theorem binaryExponent_le (a b : Nat) (ha : 0 < a) (hb : 0 < b) :
    (2 : ℚ) ^ binaryExponent a b ≤ (a : ℚ) / b := by
  have hbq : (0 : ℚ) < b := by exact_mod_cast hb
  unfold binaryExponent
  simp only
  split
  · rename_i htest
    rw [zpow_split 2, div_le_div_iff₀ (by positivity) hbq]
    have : ((b * 2 ^ ((bitLength a : Int) - (bitLength b : Int)).toNat : Nat) : ℚ) ≤
        ((a * 2 ^ (-((bitLength a : Int) - (bitLength b : Int))).toNat : Nat) : ℚ) := by
      exact_mod_cast htest
    push_cast at this
    linarith
  · have h1 := (bitLength_spec a ha).1
    have h2 := (bitLength_spec b hb).2
    have hpa := bitLength_pos a ha
    have e1 : ((bitLength a : Int) - (bitLength b : Int) - 1) =
        ((bitLength a - 1 : Nat) : Int) - (bitLength b : Int) := by omega
    rw [e1, zpow_sub₀ (by norm_num), zpow_natCast, zpow_natCast,
      div_le_div_iff₀ (by positivity) hbq]
    have h1q : ((2 : ℚ) ^ (bitLength a - 1)) ≤ a := by exact_mod_cast h1
    have h2q : (b : ℚ) ≤ 2 ^ bitLength b := by exact_mod_cast le_of_lt h2
    calc (2 : ℚ) ^ (bitLength a - 1) * b ≤ a * b :=
          mul_le_mul_of_nonneg_right h1q (le_of_lt hbq)
      _ ≤ a * 2 ^ bitLength b := mul_le_mul_of_nonneg_left h2q (by positivity)

theorem roundHalfEven_err (n d : Nat) (hd : 0 < d) :
    |(roundHalfEven n d : ℚ) - (n : ℚ) / d| ≤ 1 / 2 := by
  have hdq : (0 : ℚ) < d := by exact_mod_cast hd
  have hdiv : ((n : ℚ) / d) = (n / d : Nat) + ((n % d : Nat) : ℚ) / d := by
    have := Nat.div_add_mod n d
    have hq : (n : ℚ) = d * (n / d : Nat) + (n % d : Nat) := by exact_mod_cast this.symm
    field_simp
    linarith
  have hr0 : (0 : ℚ) ≤ ((n % d : Nat) : ℚ) / d := by positivity
  have hr1 : ((n % d : Nat) : ℚ) / d < 1 := by
    rw [div_lt_one hdq]
    exact_mod_cast Nat.mod_lt n hd
  unfold roundHalfEven
  rw [abs_le]
  split
  · rename_i h
    have hq : (2 : ℚ) * (n % d : Nat) < d := by exact_mod_cast h
    have : ((n % d : Nat) : ℚ) / d < 1 / 2 := by
      rw [div_lt_iff₀ hdq]; linarith
    rw [hdiv]
    constructor <;> linarith
  · split
    · rename_i _ h
      have hq : (d : ℚ) < 2 * (n % d : Nat) := by exact_mod_cast h
      have : 1 / 2 < ((n % d : Nat) : ℚ) / d := by
        rw [lt_div_iff₀ hdq]; linarith
      rw [hdiv]
      push_cast
      constructor <;> linarith
    · rename_i h1 h2
      have heq : 2 * (n % d) = d := by omega
      have hq : (2 : ℚ) * (n % d : Nat) = d := by exact_mod_cast heq
      have : ((n % d : Nat) : ℚ) / d = 1 / 2 := by
        rw [div_eq_iff (ne_of_gt hdq)]; linarith
      rw [hdiv, this]
      split
      · constructor <;> linarith
      · push_cast
        constructor <;> linarith

theorem rat_eq_natAbs_div (q : ℚ) (h : 0 ≤ q) : q = (q.num.natAbs : ℚ) / q.den := by
  have hnum : 0 ≤ q.num := Rat.num_nonneg.mpr h
  have h1 : ((q.num.natAbs : Nat) : ℚ) = (q.num : ℚ) := by
    rw [Nat.cast_natAbs, abs_of_nonneg hnum]
  rw [h1]
  exact (Rat.num_div_den q).symm

theorem nearest_of_nonneg (q : ℚ) (h : 0 ≤ q) :
    nearest q = (significand q.num.natAbs q.den : ℚ) * 2 ^ quantum q.num.natAbs q.den := by
  have hnum : ¬ q.num < 0 := not_lt.mpr (Rat.num_nonneg.mpr h)
  simp only [nearest, hnum, if_false]

/-- The rounding error is at most half a unit of the last place. -/
theorem nearest_err_quantum (q : ℚ) (h : 0 ≤ q) :
    |nearest q - q| ≤ 2 ^ quantum q.num.natAbs q.den / 2 := by
  have hq := rat_eq_natAbs_div q h
  have hden : 0 < q.den := q.den_pos
  rw [nearest_of_nonneg q h]
  generalize hs : quantum q.num.natAbs q.den = s
  have hpos : (0 : ℚ) < 2 ^ s := by positivity
  have herr := roundHalfEven_err (q.num.natAbs * 2 ^ (-s).toNat) (q.den * 2 ^ s.toNat)
    (by positivity)
  have hsig : significand q.num.natAbs q.den =
      roundHalfEven (q.num.natAbs * 2 ^ (-s).toNat) (q.den * 2 ^ s.toNat) := by
    simp only [significand, hs]
  rw [hsig]
  have hscaled : ((q.num.natAbs * 2 ^ (-s).toNat : Nat) : ℚ) / ((q.den * 2 ^ s.toNat : Nat) : ℚ) =
      q / 2 ^ s := by
    rw [zpow_split 2 s]
    have hdq : (0 : ℚ) < q.den := by exact_mod_cast hden
    push_cast
    nth_rewrite 3 [hq]
    field_simp
  rw [hscaled] at herr
  generalize (roundHalfEven (q.num.natAbs * 2 ^ (-s).toNat) (q.den * 2 ^ s.toNat) : ℚ) = m at herr ⊢
  have : m * 2 ^ s - q = (m - q / 2 ^ s) * 2 ^ s := by field_simp
  rw [this, abs_mul, abs_of_pos hpos]
  calc |m - q / 2 ^ s| * 2 ^ s ≤ 1 / 2 * 2 ^ s := mul_le_mul_of_nonneg_right herr (le_of_lt hpos)
    _ = 2 ^ s / 2 := by ring

theorem quantum_le (q : ℚ) (h : 0 < q) :
    (2 : ℚ) ^ quantum q.num.natAbs q.den ≤ q * 2 ^ (-52 : Int) + 2 ^ (-1074 : Int) := by
  have hq := rat_eq_natAbs_div q (le_of_lt h)
  have hnum : 0 < q.num.natAbs := Int.natAbs_pos.mpr (ne_of_gt (Rat.num_pos.mpr h))
  have hle := binaryExponent_le q.num.natAbs q.den hnum q.den_pos
  rw [← hq] at hle
  unfold quantum
  rcases le_total (binaryExponent q.num.natAbs q.den - 52) (-1074) with hcase | hcase
  · rw [max_eq_right hcase]
    have : (0 : ℚ) ≤ q * 2 ^ (-52 : Int) := by positivity
    linarith
  · rw [max_eq_left hcase, zpow_sub₀ (by norm_num)]
    have h52 : (0 : ℚ) < 2 ^ (-1074 : Int) := by positivity
    have : (2 : ℚ) ^ binaryExponent q.num.natAbs q.den / 2 ^ (52 : Int) ≤ q * 2 ^ (-52 : Int) := by
      rw [zpow_neg, div_eq_mul_inv]
      exact mul_le_mul_of_nonneg_right hle (by positivity)
    linarith

/-- The rounding error of a positive number: a relative error of at most
`2 ^ -53`, or half the subnormal spacing. -/
theorem nearest_err (q : ℚ) (h : 0 < q) :
    |nearest q - q| ≤ q * 2 ^ (-53 : Int) + 2 ^ (-1075 : Int) := by
  have h1 := nearest_err_quantum q (le_of_lt h)
  have h2 := quantum_le q h
  have e1 : (2 : ℚ) ^ (-53 : Int) = 2 ^ (-52 : Int) / 2 := by
    rw [show (-53 : Int) = -52 - 1 by norm_num, zpow_sub₀ (by norm_num)]; simp
  have e2 : (2 : ℚ) ^ (-1075 : Int) = 2 ^ (-1074 : Int) / 2 := by
    rw [show (-1075 : Int) = -1074 - 1 by norm_num, zpow_sub₀ (by norm_num)]; simp
  rw [e1, e2]
  generalize (2 : ℚ) ^ (-52 : Int) = A at h2 ⊢
  generalize (2 : ℚ) ^ (-1074 : Int) = B at h2 ⊢
  calc |nearest q - q| ≤ 2 ^ quantum q.num.natAbs q.den / 2 := h1
    _ ≤ (q * A + B) / 2 := by linarith
    _ = q * (A / 2) + B / 2 := by ring

theorem nearest_zero : nearest 0 = 0 := by
  have h := nearest_err_quantum 0 (le_refl 0)
  have hn := nearest_of_nonneg 0 (le_refl 0)
  simp only [Rat.num_zero, Int.natAbs_zero, Rat.den_zero] at hn h
  have hsig : significand 0 1 = 0 := by
    simp [significand, roundHalfEven]
  rw [hn, hsig]
  simp

theorem nearest_nonneg (q : ℚ) (h : 0 ≤ q) : 0 ≤ nearest q := by
  rw [nearest_of_nonneg q h]
  positivity

end Double

theorem Double.nearest_neg (v : ℚ) : Double.nearest (-v) = -Double.nearest v := by
  unfold Double.nearest
  simp only [Rat.neg_num, Rat.neg_den, Int.natAbs_neg]
  rcases lt_trichotomy v.num 0 with h | h | h
  · have h2 : ¬ (-v.num < 0) := by omega
    simp only [h, h2, if_true, if_false, neg_neg]
  · have hsig : Double.significand 0 v.den = 0 := by
      simp [Double.significand, Double.roundHalfEven]
    simp [h, hsig]
  · have h2 : ¬ (v.num < 0) := by omega
    have h3 : -v.num < 0 := by omega
    simp only [h2, h3, if_true, if_false]


namespace Double

theorem binaryExponent_lt (a b : Nat) (ha : 0 < a) (hb : 0 < b) :
    (a : ℚ) / b < 2 ^ (binaryExponent a b + 1) := by
  have hbq : (0 : ℚ) < b := by exact_mod_cast hb
  unfold binaryExponent
  simp only
  split
  · have h1 := (bitLength_spec a ha).2
    have h2 := (bitLength_spec b hb).1
    have hpb := bitLength_pos b hb
    have e1 : ((bitLength a : Int) - (bitLength b : Int) + 1) =
        (bitLength a : Int) - ((bitLength b - 1 : Nat) : Int) := by omega
    rw [e1, zpow_sub₀ (by norm_num), zpow_natCast, zpow_natCast,
      div_lt_div_iff₀ hbq (by positivity)]
    have h1q : (a : ℚ) < 2 ^ bitLength a := by exact_mod_cast h1
    have h2q : ((2 : ℚ) ^ (bitLength b - 1)) ≤ b := by exact_mod_cast h2
    calc (a : ℚ) * 2 ^ (bitLength b - 1) ≤ a * b :=
          mul_le_mul_of_nonneg_left h2q (by positivity)
      _ < 2 ^ bitLength a * b := mul_lt_mul_of_pos_right h1q hbq
  · rename_i htest
    rw [sub_add_cancel, zpow_split 2, div_lt_div_iff₀ hbq (by positivity)]
    have : ((a * 2 ^ (-((bitLength a : Int) - (bitLength b : Int))).toNat : Nat) : ℚ) <
        ((b * 2 ^ ((bitLength a : Int) - (bitLength b : Int)).toNat : Nat) : ℚ) := by
      exact_mod_cast not_le.mp htest
    push_cast at this
    linarith

/-- The binary exponent is the one power of two at or below the fraction. -/
theorem binaryExponent_eq (a b : Nat) (ha : 0 < a) (hb : 0 < b) (e : Int)
    (h1 : (2 : ℚ) ^ e ≤ (a : ℚ) / b) (h2 : (a : ℚ) / b < 2 ^ (e + 1)) :
    binaryExponent a b = e := by
  have g1 := binaryExponent_le a b ha hb
  have g2 := binaryExponent_lt a b ha hb
  have k1 : (2 : ℚ) ^ e < 2 ^ (binaryExponent a b + 1) := lt_of_le_of_lt h1 g2
  have k2 : (2 : ℚ) ^ binaryExponent a b < 2 ^ (e + 1) := lt_of_le_of_lt g1 h2
  rw [zpow_lt_zpow_iff_right₀ (by norm_num)] at k1 k2
  omega

theorem roundHalfEven_exact (m d : Nat) (hd : 0 < d) : roundHalfEven (m * d) d = m := by
  unfold roundHalfEven
  rw [Nat.mul_mod_left, Nat.mul_div_cancel _ hd]
  simp [hd]

theorem natAbs_num_pos (x : ℚ) (hx : 0 < x) : 0 < x.num.natAbs :=
  Int.natAbs_pos.mpr (ne_of_gt (Rat.num_pos.mpr hx))

/-- A positive number `m × 2 ^ s` whose significand `m` fits in 53 bits, with
`s` the last place of its binade or of the subnormal numbers, is a double. -/
theorem nearest_of_scaled (x : ℚ) (m : Nat) (s : Int) (hx : x = (m : ℚ) * 2 ^ s)
    (hm0 : 0 < m) (hm : m < 2 ^ 53) (hs : 2 ^ 52 ≤ m ∧ -1074 ≤ s ∨ s = -1074) :
    nearest x = x := by
  have hmq : (0 : ℚ) < m := by exact_mod_cast hm0
  have hpos : 0 < x := by rw [hx]; positivity
  have ha := natAbs_num_pos x hpos
  have hfrac := rat_eq_natAbs_div x (le_of_lt hpos)
  have hk := bitLength_spec m hm0
  have hkpos := bitLength_pos m hm0
  have hk53 : bitLength m ≤ 53 := by
    by_contra hcon
    have : 2 ^ 53 ≤ 2 ^ (bitLength m - 1) := Nat.pow_le_pow_right (by norm_num) (by omega)
    omega
  have hexp : binaryExponent x.num.natAbs x.den = ((bitLength m - 1 : Nat) : Int) + s := by
    apply binaryExponent_eq _ _ ha x.den_pos
    · rw [← hfrac, hx, zpow_add₀ (by norm_num), zpow_natCast]
      exact mul_le_mul_of_nonneg_right (by exact_mod_cast hk.1) (by positivity)
    · rw [← hfrac, hx, show ((bitLength m - 1 : Nat) : Int) + s + 1 = (bitLength m : Int) + s by
        omega, zpow_add₀ (by norm_num), zpow_natCast]
      exact mul_lt_mul_of_pos_right (by exact_mod_cast hk.2) (by positivity)
  have hquantum : quantum x.num.natAbs x.den = s := by
    unfold quantum
    rw [hexp]
    rcases hs with ⟨h52, hs⟩ | hs
    · have : bitLength m = 53 := by
        by_contra hne
        have : 2 ^ bitLength m ≤ 2 ^ 52 := Nat.pow_le_pow_right (by norm_num) (by omega)
        omega
      rw [this]
      norm_num
      exact hs
    · rw [hs]
      apply max_eq_right
      omega
  have hsig : significand x.num.natAbs x.den = m := by
    unfold significand
    rw [hquantum]
    have hratio : ((x.num.natAbs * 2 ^ (-s).toNat : Nat) : ℚ) =
        ((m * (x.den * 2 ^ s.toNat) : Nat) : ℚ) := by
      have hden : (0 : ℚ) < x.den := by exact_mod_cast x.den_pos
      have h2 : (x.num.natAbs : ℚ) = (m : ℚ) * 2 ^ s * x.den := by
        rw [← hx]
        nth_rewrite 2 [hfrac]
        field_simp
      push_cast
      rw [h2, zpow_split 2 s]
      field_simp
      ring
    have hnat : x.num.natAbs * 2 ^ (-s).toNat = m * (x.den * 2 ^ s.toNat) := by
      exact_mod_cast hratio
    rw [hnat]
    exact roundHalfEven_exact m _ (by positivity)
  rw [nearest_of_nonneg x (le_of_lt hpos), hsig, hquantum, hx]

theorem roundHalfEven_bounds (n d lo hi : Nat) (hd : 0 < d) (h1 : lo * d ≤ n)
    (h2 : n < hi * d) : lo ≤ roundHalfEven n d ∧ roundHalfEven n d ≤ hi := by
  have hlo : lo ≤ n / d := (Nat.le_div_iff_mul_le hd).mpr h1
  have hhi : n / d < hi := (Nat.div_lt_iff_lt_mul hd).mpr h2
  unfold roundHalfEven
  split
  · omega
  · split
    · omega
    · split <;> omega

theorem scaled_lt (a d k : Nat) (s : Int) (hd : 0 < d)
    (h : (a : ℚ) / d < (k : ℚ) * 2 ^ s) :
    a * 2 ^ (-s).toNat < k * (d * 2 ^ s.toNat) := by
  have hdq : (0 : ℚ) < d := by exact_mod_cast hd
  have hn : (0 : ℚ) < 2 ^ (-s).toNat := by positivity
  rw [div_lt_iff₀ hdq, zpow_split 2 s] at h
  have h2 := mul_lt_mul_of_pos_right h hn
  have e : (k : ℚ) * (2 ^ s.toNat / 2 ^ (-s).toNat) * d * 2 ^ (-s).toNat =
      k * (d * 2 ^ s.toNat) := by
    field_simp
    ring
  rw [e] at h2
  exact_mod_cast h2

theorem scaled_le (a d k : Nat) (s : Int) (hd : 0 < d)
    (h : (k : ℚ) * 2 ^ s ≤ (a : ℚ) / d) :
    k * (d * 2 ^ s.toNat) ≤ a * 2 ^ (-s).toNat := by
  have hdq : (0 : ℚ) < d := by exact_mod_cast hd
  have hn : (0 : ℚ) < 2 ^ (-s).toNat := by positivity
  rw [le_div_iff₀ hdq, zpow_split 2 s] at h
  have h2 := mul_le_mul_of_nonneg_right h (le_of_lt hn)
  have e : (k : ℚ) * (2 ^ s.toNat / 2 ^ (-s).toNat) * d * 2 ^ (-s).toNat =
      k * (d * 2 ^ s.toNat) := by
    field_simp
    ring
  rw [e] at h2
  exact_mod_cast h2

theorem two_pow_cast (k : Nat) (s : Int) : ((2 ^ k : Nat) : ℚ) * 2 ^ s = 2 ^ ((k : Int) + s) := by
  rw [zpow_add₀ (by norm_num), zpow_natCast]
  push_cast
  rfl

/-- The rounding lands on a double: rounding again changes nothing. -/
theorem nearest_idem_pos (q : ℚ) (hq : 0 < q) : nearest (nearest q) = nearest q := by
  have ha := natAbs_num_pos q hq
  have hle := binaryExponent_le q.num.natAbs q.den ha q.den_pos
  have hlt := binaryExponent_lt q.num.natAbs q.den ha q.den_pos
  have hval := nearest_of_nonneg q (le_of_lt hq)
  generalize he : binaryExponent q.num.natAbs q.den = e at hle hlt
  have hqs : quantum q.num.natAbs q.den = max (e - 52) (-1074) := by
    unfold quantum
    rw [he]
  generalize hs : quantum q.num.natAbs q.den = s at hval hqs
  have hsig : significand q.num.natAbs q.den =
      roundHalfEven (q.num.natAbs * 2 ^ (-s).toNat) (q.den * 2 ^ s.toNat) := by
    unfold significand
    rw [hs]
  generalize hm : significand q.num.natAbs q.den = m at hval hsig
  have hdpos : 0 < q.den * 2 ^ s.toNat := by positivity
  have hes : e - 52 ≤ s := by rw [hqs]; exact le_max_left _ _
  have hnorm : -1074 ≤ s := by rw [hqs]; exact le_max_right _ _
  have hupper : q.num.natAbs * 2 ^ (-s).toNat < 2 ^ 53 * (q.den * 2 ^ s.toNat) := by
    apply scaled_lt _ _ _ _ q.den_pos
    rw [two_pow_cast]
    exact lt_of_lt_of_le hlt (zpow_le_zpow_right₀ (by norm_num) (by push_cast; omega))
  have hbound := roundHalfEven_bounds _ _ 0 (2 ^ 53) hdpos (by simp) hupper
  rw [← hsig] at hbound
  rw [hval]
  rcases Nat.eq_zero_or_pos m with hzero | hmpos
  · rw [hzero]
    simp only [Nat.cast_zero, zero_mul]
    exact nearest_zero
  rcases Nat.lt_or_ge m (2 ^ 53) with hsmall | hbig
  · apply nearest_of_scaled _ m s rfl hmpos hsmall
    rcases le_or_lt (e - 52) (-1074) with hsub | hnormal
    · right
      rw [hqs]
      exact max_eq_right hsub
    · left
      have hse : s = e - 52 := by rw [hqs]; exact max_eq_left (le_of_lt hnormal)
      refine ⟨?_, hnorm⟩
      have hlower : 2 ^ 52 * (q.den * 2 ^ s.toNat) ≤ q.num.natAbs * 2 ^ (-s).toNat := by
        apply scaled_le _ _ _ _ q.den_pos
        rw [two_pow_cast, hse]
        have : ((52 : Nat) : Int) + (e - 52) = e := by push_cast; omega
        rw [this]
        exact hle
      have := (roundHalfEven_bounds _ _ (2 ^ 52) (2 ^ 53) hdpos hlower hupper).1
      rw [← hsig] at this
      exact this
  · have hm53 : m = 2 ^ 53 := le_antisymm hbound.2 hbig
    apply nearest_of_scaled _ (2 ^ 52) (s + 1) ?_ (by norm_num) (by norm_num)
      (Or.inl ⟨le_refl _, by omega⟩)
    rw [hm53, zpow_add_one₀ (by norm_num)]
    push_cast
    ring

theorem nearest_idem (q : ℚ) : nearest (nearest q) = nearest q := by
  rcases lt_trichotomy q 0 with h | h | h
  · have hpos : 0 < -q := by linarith
    have := nearest_idem_pos (-q) hpos
    rw [nearest_neg, nearest_neg] at this
    exact neg_injective this
  · rw [h, nearest_zero, nearest_zero]
  · exact nearest_idem_pos q h

end Double

/-! ## `JSON.parse` reads back what `JSON.stringify` wrote -/

namespace JSON

theorem skipWs_replicate (k : Nat) (cs : List Char) :
    skipWs (List.replicate k ' ' ++ cs) = skipWs cs := by
  induction k with
  | zero => rfl
  | succ k ih => simpa [List.replicate_succ, skipWs, isWs] using ih

theorem skipWs_pad (depth : Nat) (cs : List Char) : skipWs (pad depth ++ cs) = skipWs cs :=
  skipWs_replicate _ _

theorem skipWs_newline (cs : List Char) : skipWs ('\n' :: cs) = skipWs cs := by
  simp [skipWs, isWs]

theorem skipWs_cons_of_not_ws (c : Char) (cs : List Char) (h : isWs c = false) :
    skipWs (c :: cs) = c :: cs := by
  simp [skipWs, h]

theorem digitChar_toNat (d : Nat) (h : d < 10) : (digitChar d).toNat = 48 + d := by
  interval_cases d <;> rfl

theorem natTextAux_spec : ∀ (fuel n : Nat), n < fuel →
    (∀ c ∈ natTextAux fuel n, 48 ≤ c.toNat ∧ c.toNat ≤ 57) ∧
    (∀ acc, digitsValue acc (natTextAux fuel n) =
      acc * 10 ^ (natTextAux fuel n).length + n) ∧
    (∃ c t, natTextAux fuel n = c :: t ∧ (0 < n → 49 ≤ c.toNat) ∧ (n = 0 → c = '0' ∧ t = [])) := by
  intro fuel
  induction fuel with
  | zero => intro n h; omega
  | succ fuel ih =>
    intro n hn
    unfold natTextAux
    by_cases h10 : n < 10
    · simp only [h10, if_true]
      refine ⟨?_, ?_, ?_⟩
      · intro c hc
        simp only [List.mem_singleton] at hc
        subst hc
        rw [digitChar_toNat n h10]; omega
      · intro acc
        simp [digitsValue, digitChar_toNat n h10]
      · refine ⟨digitChar n, [], rfl, ?_, ?_⟩
        · intro hpos; rw [digitChar_toNat n h10]; omega
        · intro h0; subst h0; exact ⟨rfl, rfl⟩
    · simp only [h10, if_false]
      have hlt : n / 10 < fuel := by omega
      have hmod : n % 10 < 10 := Nat.mod_lt _ (by norm_num)
      obtain ⟨ih1, ih2, c, t, ih3, ih4, _⟩ := ih (n / 10) hlt
      refine ⟨?_, ?_, ?_⟩
      · intro c hc
        rcases List.mem_append.mp hc with hc | hc
        · exact ih1 c hc
        · simp only [List.mem_singleton] at hc
          subst hc
          rw [digitChar_toNat _ hmod]; omega
      · intro acc
        have := ih2 acc
        simp only [digitsValue] at this
        simp only [digitsValue, List.foldl_append, List.foldl_cons, List.foldl_nil, this,
          digitChar_toNat _ hmod, List.length_append, List.length_singleton]
        rw [pow_succ]
        have hdm := Nat.div_add_mod n 10
        have : 48 + n % 10 - 48 = n % 10 := by omega
        rw [this]
        nlinarith [hdm]
      · refine ⟨c, t ++ [digitChar (n % 10)], by rw [ih3]; rfl, ?_, ?_⟩
        · intro _; exact ih4 (by omega)
        · intro h0; omega

theorem parseDigits_append (ds rest : List Char) (acc : Nat)
    (h : ∀ c ∈ ds, 48 ≤ c.toNat ∧ c.toNat ≤ 57) :
    parseDigits (ds ++ rest) acc = parseDigits rest (digitsValue acc ds) := by
  induction ds generalizing acc with
  | nil => rfl
  | cons d ds ih =>
    have hd := h d (List.mem_cons_self _ _)
    have step : parseDigits (d :: (ds ++ rest)) acc =
        parseDigits (ds ++ rest) (acc * 10 + (d.toNat - 48)) := by
      simp only [parseDigits, hd, and_self, if_true]
    rw [List.cons_append, step, ih _ (fun c hc => h c (List.mem_cons_of_mem _ hc))]
    rfl

theorem parseDigits_stop (rest : List Char) (acc : Nat) (h : continuesNumber rest = false) :
    parseDigits rest acc = (acc, rest) := by
  cases rest with
  | nil => rfl
  | cons c cs =>
    simp only [continuesNumber, Bool.or_eq_false_iff, decide_eq_false_iff_not] at h
    simp [parseDigits, h.1.1.1]

theorem parseNat_natText (n : Nat) (rest : List Char) (h : continuesNumber rest = false) :
    parseNat (natText n ++ rest) = some (n, rest) := by
  obtain ⟨h1, h2, c, t, h3, h4, h5⟩ := natTextAux_spec (n + 1) n (Nat.lt_succ_self n)
  by_cases h0 : n = 0
  · obtain ⟨hc, ht⟩ := h5 h0
    subst h0
    simp only [natText, h3, hc, ht]
    rfl
  · have hpos : 0 < n := Nat.pos_of_ne_zero h0
    have hc := h4 hpos
    have hc57 : c.toNat ≤ 57 := by
      have := h1 c (by rw [h3]; exact List.mem_cons_self _ _)
      exact this.2
    have hne : c ≠ '0' := by
      intro hz; subst hz
      have : ('0' : Char).toNat = 48 := rfl
      omega
    have hv := h2 0
    simp only [natText]
    rw [h3] at hv h1 ⊢
    simp only [List.cons_append, parseNat, hne, if_false, hc, hc57, and_self, if_true]
    rw [← List.cons_append, parseDigits_append _ _ _ h1, hv, parseDigits_stop _ _ h]
    simp

theorem natText_head (n : Nat) : ∃ c t, natText n = c :: t ∧ 48 ≤ c.toNat ∧ c.toNat ≤ 57 := by
  obtain ⟨h1, _, c, t, h3, _, _⟩ := natTextAux_spec (n + 1) n (Nat.lt_succ_self n)
  exact ⟨c, t, h3, h1 c (by rw [h3]; exact List.mem_cons_self _ _)⟩

/-! ### Reading back a number text -/

theorem digitsValue_acc (acc : Nat) (ds : List Char) :
    digitsValue acc ds = acc * 10 ^ ds.length + digitsValue 0 ds := by
  induction ds generalizing acc with
  | nil => simp [digitsValue]
  | cons d ds ih =>
    have h1 : digitsValue acc (d :: ds) = digitsValue (acc * 10 + (d.toNat - 48)) ds := rfl
    have h2 : digitsValue 0 (d :: ds) = digitsValue (0 * 10 + (d.toNat - 48)) ds := rfl
    rw [h1, h2, ih (acc * 10 + (d.toNat - 48)), ih (0 * 10 + (d.toNat - 48))]
    simp only [List.length_cons, pow_succ]
    ring

theorem digitsValue_append (a b : List Char) :
    digitsValue 0 (a ++ b) = digitsValue 0 a * 10 ^ b.length + digitsValue 0 b := by
  have h : digitsValue 0 (a ++ b) = digitsValue (digitsValue 0 a) b := by
    simp [digitsValue, List.foldl_append]
  rw [h, digitsValue_acc]

theorem digitsValue_zeros (k : Nat) : digitsValue 0 (List.replicate k '0') = 0 := by
  induction k with
  | zero => rfl
  | succ k ih =>
    have h : digitsValue 0 (List.replicate (k + 1) '0') =
        digitsValue (0 * 10 + (('0' : Char).toNat - 48)) (List.replicate k '0') := rfl
    rw [h]
    exact ih

theorem digitsValue_natText (m : Nat) : digitsValue 0 (natText m) = m := by
  obtain ⟨_, h2, _⟩ := natTextAux_spec (m + 1) m (Nat.lt_succ_self m)
  have := h2 0
  simpa [natText] using this

theorem natText_digits (m : Nat) : ∀ c ∈ natText m, 48 ≤ c.toNat ∧ c.toNat ≤ 57 :=
  (natTextAux_spec (m + 1) m (Nat.lt_succ_self m)).1

theorem natText_pos_head (m : Nat) (hm : 0 < m) :
    ∃ c t, natText m = c :: t ∧ 49 ≤ c.toNat ∧ c.toNat ≤ 57 := by
  obtain ⟨h1, _, c, t, h3, h4, _⟩ := natTextAux_spec (m + 1) m (Nat.lt_succ_self m)
  exact ⟨c, t, h3, h4 hm, (h1 c (by rw [h3]; exact List.mem_cons_self _ _)).2⟩

theorem zeros_digits (k : Nat) : ∀ c ∈ List.replicate k '0', 48 ≤ c.toNat ∧ c.toNat ≤ 57 := by
  intro c hc
  rw [List.mem_replicate] at hc
  rw [hc.2]
  decide

theorem spanDigits_stop (rest : List Char)
    (hstop : ∀ c t, rest = c :: t → ¬ (48 ≤ c.toNat ∧ c.toNat ≤ 57)) :
    spanDigits rest = ([], rest) := by
  cases rest with
  | nil => rfl
  | cons c t => simp only [spanDigits, hstop c t rfl, if_false]

theorem spanDigits_append (ds rest : List Char)
    (h : ∀ c ∈ ds, 48 ≤ c.toNat ∧ c.toNat ≤ 57)
    (hstop : ∀ c t, rest = c :: t → ¬ (48 ≤ c.toNat ∧ c.toNat ≤ 57)) :
    spanDigits (ds ++ rest) = (ds, rest) := by
  induction ds with
  | nil => exact spanDigits_stop rest hstop
  | cons d ds ih =>
    have hd := h d (List.mem_cons_self _ _)
    have ih2 := ih (fun c hc => h c (List.mem_cons_of_mem _ hc))
    have step : spanDigits (d :: (ds ++ rest)) =
        (d :: (spanDigits (ds ++ rest)).1, (spanDigits (ds ++ rest)).2) := by
      simp only [spanDigits, hd, and_self, if_true]
    rw [List.cons_append, step, ih2]

theorem parseDigits_halt (rest : List Char) (acc : Nat)
    (hstop : ∀ c t, rest = c :: t → ¬ (48 ≤ c.toNat ∧ c.toNat ≤ 57)) :
    parseDigits rest acc = (acc, rest) := by
  cases rest with
  | nil => rfl
  | cons c t => simp only [parseDigits, hstop c t rfl, if_false]

theorem parseNat_digits (c : Char) (t tail : List Char) (hc : 49 ≤ c.toNat ∧ c.toNat ≤ 57)
    (h : ∀ d ∈ t, 48 ≤ d.toNat ∧ d.toNat ≤ 57)
    (hstop : ∀ d r, tail = d :: r → ¬ (48 ≤ d.toNat ∧ d.toNat ≤ 57)) :
    parseNat (c :: t ++ tail) = some (digitsValue 0 (c :: t), tail) := by
  have hne : c ≠ '0' := by
    intro hz
    subst hz
    have : ('0' : Char).toNat = 48 := rfl
    omega
  have hall : ∀ d ∈ c :: t, 48 ≤ d.toNat ∧ d.toNat ≤ 57 := by
    intro d hd
    rcases List.mem_cons.mp hd with hd | hd
    · subst hd
      omega
    · exact h d hd
  simp only [List.cons_append, parseNat, hne, if_false, hc, and_self, if_true]
  rw [← List.cons_append, parseDigits_append _ _ _ hall, parseDigits_halt _ _ hstop]

theorem parseFraction_none (tail : List Char) (h : ∀ c t, tail = c :: t → c ≠ '.') :
    parseFraction tail = some ([], tail) := by
  cases tail with
  | nil => rfl
  | cons c t => simp only [parseFraction, h c t rfl, if_false]

theorem parseFraction_some (d : Char) (ds tail : List Char)
    (h : ∀ c ∈ d :: ds, 48 ≤ c.toNat ∧ c.toNat ≤ 57)
    (hstop : ∀ c t, tail = c :: t → ¬ (48 ≤ c.toNat ∧ c.toNat ≤ 57)) :
    parseFraction ('.' :: (d :: ds ++ tail)) = some (d :: ds, tail) := by
  simp only [parseFraction, if_true, spanDigits_append _ _ h hstop]

theorem parseExponent_none (tail : List Char)
    (h : ∀ c t, tail = c :: t → ¬ (c = 'e' ∨ c = 'E')) :
    parseExponent tail = some (0, tail) := by
  cases tail with
  | nil => rfl
  | cons c t => simp only [parseExponent, h c t rfl, if_false]

theorem parseExponentDigits_natText (negative : Bool) (k : Nat) (tail : List Char)
    (hstop : ∀ c t, tail = c :: t → ¬ (48 ≤ c.toNat ∧ c.toNat ≤ 57)) :
    parseExponentDigits negative (natText k ++ tail) =
      some (if negative then -(k : Int) else (k : Int), tail) := by
  obtain ⟨c, t, hct, _⟩ := natText_head k
  have hv := digitsValue_natText k
  have hd := natText_digits k
  rw [hct] at hv hd
  simp only [parseExponentDigits, hct, spanDigits_append _ _ hd hstop, hv]

theorem parseExponent_some (e : Int) (tail : List Char)
    (hstop : ∀ c t, tail = c :: t → ¬ (48 ≤ c.toNat ∧ c.toNat ≤ 57)) :
    parseExponent ('e' :: (if 0 ≤ e then '+' else '-') :: (natText e.natAbs ++ tail)) =
      some (e, tail) := by
  by_cases he : 0 ≤ e
  · have h1 : ('+' : Char) ≠ '-' := by decide
    simp only [parseExponent, he, if_true, true_or, h1, if_false,
      parseExponentDigits_natText _ _ _ hstop, Bool.false_eq_true]
    rw [Int.natAbs_of_nonneg he]
  · simp only [parseExponent, he, if_false, if_true, true_or,
      parseExponentDigits_natText _ _ _ hstop]
    have : -(e.natAbs : Int) = e := by omega
    rw [this]

theorem parseFraction_digits (fs tail : List Char) (hne : fs ≠ [])
    (h : ∀ c ∈ fs, 48 ≤ c.toNat ∧ c.toNat ≤ 57)
    (hstop : ∀ c t, tail = c :: t → ¬ (48 ≤ c.toNat ∧ c.toNat ≤ 57)) :
    parseFraction ('.' :: (fs ++ tail)) = some (fs, tail) := by
  cases fs with
  | nil => exact absurd rfl hne
  | cons d ds => exact parseFraction_some d ds tail h hstop

theorem continuesNumber_stop (rest : List Char) (h : continuesNumber rest = false) :
    (∀ c t, rest = c :: t → ¬ (48 ≤ c.toNat ∧ c.toNat ≤ 57)) ∧
    (∀ c t, rest = c :: t → c ≠ '.') ∧
    (∀ c t, rest = c :: t → ¬ (c = 'e' ∨ c = 'E')) := by
  cases rest with
  | nil => simp
  | cons d r =>
    simp only [continuesNumber, Bool.or_eq_false_iff, decide_eq_false_iff_not] at h
    refine ⟨?_, ?_, ?_⟩
    · intro c t hct
      cases hct
      exact h.1.1.1
    · intro c t hct
      cases hct
      exact h.1.1.2
    · intro c t hct
      cases hct
      intro hor
      rcases hor with hor | hor
      · exact h.1.2 hor
      · exact h.2 hor

theorem stop_point (tail : List Char) :
    ∀ c t, ('.' :: tail) = c :: t → ¬ (48 ≤ c.toNat ∧ c.toNat ≤ 57) := by
  intro c t h
  cases h
  decide

theorem stop_exponent (tail : List Char) :
    (∀ c t, ('e' :: tail) = c :: t → ¬ (48 ≤ c.toNat ∧ c.toNat ≤ 57)) ∧
    (∀ c t, ('e' :: tail) = c :: t → c ≠ '.') := by
  constructor
  · intro c t h
    cases h
    decide
  · intro c t h
    cases h
    decide

/-- The plain layout: the digits and `j` zeros. -/
theorem parseUnsigned_plain (negative : Bool) (c : Char) (t rest : List Char) (j : Nat)
    (hc : 49 ≤ c.toNat ∧ c.toNat ≤ 57) (ht : ∀ d ∈ t, 48 ≤ d.toNat ∧ d.toNat ≤ 57)
    (hrest : continuesNumber rest = false) :
    parseUnsigned negative ((c :: t ++ List.replicate j '0') ++ rest) =
      some ((JsNumber.ofRat ((if negative then -1 else 1) *
        ((digitsValue 0 (c :: t) : ℚ) * 10 ^ (j : Int)))).toVal, rest) := by
  obtain ⟨hs1, hs2, hs3⟩ := continuesNumber_stop rest hrest
  have hall : ∀ d ∈ t ++ List.replicate j '0', 48 ≤ d.toNat ∧ d.toNat ≤ 57 := by
    intro d hd
    rcases List.mem_append.mp hd with hd | hd
    · exact ht d hd
    · exact zeros_digits j d hd
  have hnat := parseNat_digits c (t ++ List.replicate j '0') rest hc hall hs1
  have hshape : (c :: t ++ List.replicate j '0') ++ rest =
      c :: (t ++ List.replicate j '0') ++ rest := by simp
  have hval : digitsValue 0 (c :: (t ++ List.replicate j '0')) =
      digitsValue 0 (c :: t) * 10 ^ j := by
    rw [← List.cons_append, digitsValue_append, digitsValue_zeros, List.length_replicate,
      Nat.add_zero]
  rw [hshape]
  simp only [parseUnsigned, hnat, parseFraction_none rest hs2, parseExponent_none rest hs3,
    numberValue, hval]
  congr 4
  simp [digitsValue]

/-- The layout with a decimal point after the first `j` digits. -/
theorem parseUnsigned_point (negative : Bool) (c : Char) (t rest : List Char) (j : Nat)
    (hc : 49 ≤ c.toNat ∧ c.toNat ≤ 57) (ht : ∀ d ∈ t, 48 ≤ d.toNat ∧ d.toNat ≤ 57)
    (hj : j < t.length) (hrest : continuesNumber rest = false) :
    parseUnsigned negative ((c :: t.take j ++ '.' :: t.drop j) ++ rest) =
      some ((JsNumber.ofRat ((if negative then -1 else 1) *
        ((digitsValue 0 (c :: t) : ℚ) * 10 ^ (-((t.length - j : Nat) : Int))))).toVal,
        rest) := by
  obtain ⟨hs1, hs2, hs3⟩ := continuesNumber_stop rest hrest
  have htake : ∀ d ∈ t.take j, 48 ≤ d.toNat ∧ d.toNat ≤ 57 :=
    fun d hd => ht d (List.mem_of_mem_take hd)
  have hdrop : ∀ d ∈ t.drop j, 48 ≤ d.toNat ∧ d.toNat ≤ 57 :=
    fun d hd => ht d (List.mem_of_mem_drop hd)
  have hne : t.drop j ≠ [] := by
    intro h
    have := congrArg List.length h
    simp only [List.length_drop, List.length_nil] at this
    omega
  have hnat := parseNat_digits c (t.take j) ('.' :: (t.drop j ++ rest)) hc htake (stop_point _)
  have hfrac := parseFraction_digits (t.drop j) rest hne hdrop hs1
  have hshape : (c :: t.take j ++ '.' :: t.drop j) ++ rest =
      c :: t.take j ++ '.' :: (t.drop j ++ rest) := by simp
  have hval : digitsValue 0 (c :: t.take j) * 10 ^ (t.drop j).length +
      digitsValue 0 (t.drop j) = digitsValue 0 (c :: t) := by
    rw [← digitsValue_append, List.cons_append, List.take_append_drop]
  rw [hshape]
  simp only [parseUnsigned, hnat, hfrac, parseExponent_none rest hs3, numberValue, hval]
  congr 4
  simp [List.length_drop]

/-- The layout of a number below one: `0.`, `j` zeros and the digits. -/
theorem parseUnsigned_small (negative : Bool) (c : Char) (t rest : List Char) (j : Nat)
    (hc : 49 ≤ c.toNat ∧ c.toNat ≤ 57) (ht : ∀ d ∈ t, 48 ≤ d.toNat ∧ d.toNat ≤ 57)
    (hrest : continuesNumber rest = false) :
    parseUnsigned negative (('0' :: '.' :: (List.replicate j '0' ++ c :: t)) ++ rest) =
      some ((JsNumber.ofRat ((if negative then -1 else 1) *
        ((digitsValue 0 (c :: t) : ℚ) * 10 ^ (-((j + (c :: t).length : Nat) : Int))))).toVal,
        rest) := by
  obtain ⟨hs1, hs2, hs3⟩ := continuesNumber_stop rest hrest
  have hall : ∀ d ∈ List.replicate j '0' ++ c :: t, 48 ≤ d.toNat ∧ d.toNat ≤ 57 := by
    intro d hd
    rcases List.mem_append.mp hd with hd | hd
    · exact zeros_digits j d hd
    · rcases List.mem_cons.mp hd with hd | hd
      · subst hd
        omega
      · exact ht d hd
  have hfrac := parseFraction_digits (List.replicate j '0' ++ c :: t) rest (by simp) hall hs1
  have hnat : parseNat ('0' :: '.' :: ((List.replicate j '0' ++ c :: t) ++ rest)) =
      some (0, '.' :: ((List.replicate j '0' ++ c :: t) ++ rest)) := rfl
  have hshape : ('0' :: '.' :: (List.replicate j '0' ++ c :: t)) ++ rest =
      '0' :: '.' :: ((List.replicate j '0' ++ c :: t) ++ rest) := by simp
  have hval : digitsValue 0 (List.replicate j '0' ++ c :: t) = digitsValue 0 (c :: t) := by
    rw [digitsValue_append, digitsValue_zeros, Nat.zero_mul, Nat.zero_add]
  rw [hshape]
  simp only [parseUnsigned, hnat, hfrac, parseExponent_none rest hs3, numberValue, hval]
  congr 4
  simp

/-- The exponent layout: one digit, the other digits after a point, and the
exponent. -/
theorem parseUnsigned_exponent (negative : Bool) (c : Char) (t rest : List Char) (e : Int)
    (hc : 49 ≤ c.toNat ∧ c.toNat ≤ 57) (ht : ∀ d ∈ t, 48 ≤ d.toNat ∧ d.toNat ≤ 57)
    (hrest : continuesNumber rest = false) :
    parseUnsigned negative (((if t = [] then [c] else c :: '.' :: t) ++
        ('e' :: (if 0 ≤ e then '+' else '-') :: natText e.natAbs)) ++ rest) =
      some ((JsNumber.ofRat ((if negative then -1 else 1) *
        ((digitsValue 0 (c :: t) : ℚ) * 10 ^ (e - (t.length : Int))))).toVal, rest) := by
  obtain ⟨hs1, hs2, hs3⟩ := continuesNumber_stop rest hrest
  have hexp := parseExponent_some e rest hs1
  by_cases hnil : t = []
  · subst hnil
    have hnat := parseNat_digits c []
      ('e' :: (if 0 ≤ e then '+' else '-') :: (natText e.natAbs ++ rest)) hc (by simp)
      (stop_exponent _).1
    have hfrac := parseFraction_none
      ('e' :: (if 0 ≤ e then '+' else '-') :: (natText e.natAbs ++ rest)) (stop_exponent _).2
    have hshape : (((if ([] : List Char) = [] then [c] else c :: '.' :: []) ++
        ('e' :: (if 0 ≤ e then '+' else '-') :: natText e.natAbs)) ++ rest) =
        c :: [] ++ 'e' :: (if 0 ≤ e then '+' else '-') :: (natText e.natAbs ++ rest) := by
      simp
    rw [hshape]
    simp only [parseUnsigned, hnat, hfrac, hexp, numberValue]
    congr 4
    simp [digitsValue]
  · have hnat := parseNat_digits c []
      ('.' :: (t ++ 'e' :: (if 0 ≤ e then '+' else '-') :: (natText e.natAbs ++ rest))) hc
      (by simp) (stop_point _)
    have hfrac := parseFraction_digits t
      ('e' :: (if 0 ≤ e then '+' else '-') :: (natText e.natAbs ++ rest)) hnil ht
      (stop_exponent _).1
    have hshape : (((if t = [] then [c] else c :: '.' :: t) ++
        ('e' :: (if 0 ≤ e then '+' else '-') :: natText e.natAbs)) ++ rest) =
        c :: [] ++ '.' :: (t ++ 'e' :: (if 0 ≤ e then '+' else '-') ::
          (natText e.natAbs ++ rest)) := by
      simp [hnil]
    have hval : digitsValue 0 [c] * 10 ^ t.length + digitsValue 0 t = digitsValue 0 (c :: t) := by
      rw [← digitsValue_append]
      rfl
    rw [hshape]
    simp only [parseUnsigned, hnat, hfrac, hexp, numberValue, hval]

/-- Reading back the layout of `Number::toString`. -/
theorem parseUnsigned_layout (negative : Bool) (c : Char) (t rest : List Char) (n : Int)
    (hc : 49 ≤ c.toNat ∧ c.toNat ≤ 57) (ht : ∀ d ∈ t, 48 ≤ d.toNat ∧ d.toNat ≤ 57)
    (hrest : continuesNumber rest = false) :
    parseUnsigned negative (layout (c :: t) n ++ rest) =
      some ((JsNumber.ofRat ((if negative then -1 else 1) *
        ((digitsValue 0 (c :: t) : ℚ) * 10 ^ (n - ((c :: t).length : Int))))).toVal, rest) := by
  unfold layout
  by_cases h1 : ((c :: t).length : Int) ≤ n ∧ n ≤ 21
  · rw [if_pos h1, parseUnsigned_plain negative c t rest _ hc ht hrest]
    have : (((n - ((c :: t).length : Int)).toNat : Nat) : Int) = n - ((c :: t).length : Int) :=
      Int.toNat_of_nonneg (by omega)
    rw [this]
  · rw [if_neg h1]
    by_cases h2 : 0 < n ∧ n ≤ 21
    · rw [if_pos h2]
      have hlen : n < ((c :: t).length : Int) := by
        by_contra hcon
        exact h1 ⟨by omega, h2.2⟩
      obtain ⟨j, hj⟩ : ∃ j : Nat, n.toNat = j + 1 := ⟨n.toNat - 1, by omega⟩
      have hjlt : j < t.length := by
        simp only [List.length_cons] at hlen
        omega
      rw [hj]
      have hshape : List.take (j + 1) (c :: t) ++ '.' :: List.drop (j + 1) (c :: t) =
          c :: t.take j ++ '.' :: t.drop j := rfl
      rw [hshape, parseUnsigned_point negative c t rest j hc ht hjlt hrest]
      have : -((t.length - j : Nat) : Int) = n - ((c :: t).length : Int) := by
        simp only [List.length_cons]
        omega
      rw [this]
    · rw [if_neg h2]
      by_cases h3 : -6 < n ∧ n ≤ 0
      · rw [if_pos h3, parseUnsigned_small negative c t rest _ hc ht hrest]
        have : -(((-n).toNat + (c :: t).length : Nat) : Int) = n - ((c :: t).length : Int) := by
          push_cast
          omega
        rw [this]
      · rw [if_neg h3]
        simp only
        rw [parseUnsigned_exponent negative c t rest (n - 1) hc ht hrest]
        have : n - 1 - (t.length : Int) = n - ((c :: t).length : Int) := by
          simp only [List.length_cons]
          omega
        rw [this]

end JSON

/-! ### The digits of a double -/

theorem Decimal.stripAux_spec : ∀ (fuel : Nat) (d : Decimal),
    (Decimal.stripAux fuel d).value = d.value ∧
      (d.digits ≠ 0 → (Decimal.stripAux fuel d).digits ≠ 0) := by
  intro fuel
  induction fuel with
  | zero => intro d; exact ⟨rfl, id⟩
  | succ fuel ih =>
    intro d
    unfold Decimal.stripAux
    split
    · rename_i h
      obtain ⟨ih1, ih2⟩ := ih { digits := d.digits / 10, exponent := d.exponent + 1 }
      constructor
      · rw [ih1]
        have hd : d.digits = d.digits / 10 * 10 := (Nat.div_mul_cancel
          (Nat.dvd_of_mod_eq_zero h.1)).symm
        simp only [Decimal.value]
        rw [zpow_add_one₀ (by norm_num)]
        nth_rewrite 2 [hd]
        push_cast
        ring
      · intro _
        apply ih2
        show d.digits / 10 ≠ 0
        omega
    · exact ⟨rfl, id⟩

theorem Decimal.strip_value (d : Decimal) : d.strip.value = d.value :=
  (Decimal.stripAux_spec _ d).1

theorem Decimal.strip_digits (d : Decimal) (h : d.digits ≠ 0) : d.strip.digits ≠ 0 :=
  (Decimal.stripAux_spec _ d).2 h

theorem Double.exact_value (x : ℚ) (h : 0 ≤ x) : (Double.exact x).value = Double.nearest x := by
  rw [Double.nearest_of_nonneg x h]
  unfold Double.exact
  split
  · rename_i hs
    simp only [Decimal.value, zpow_zero, mul_one]
    push_cast
    rw [← zpow_natCast, Int.toNat_of_nonneg hs]
  · rename_i hs
    have hneg : ((-Double.quantum x.num.natAbs x.den).toNat : Int) =
        -Double.quantum x.num.natAbs x.den := Int.toNat_of_nonneg (by omega)
    simp only [Decimal.value]
    generalize Double.quantum x.num.natAbs x.den = s at hs hneg ⊢
    push_cast
    rw [← zpow_natCast (5 : ℚ), hneg, show (10 : ℚ) = 5 * 2 by norm_num, mul_zpow, zpow_neg]
    field_simp
    ring

/-- The digits printed for a positive double read back as the double. -/
theorem Double.shortest_spec (x : ℚ) (hx : 0 < x) (hfix : Double.nearest x = x) :
    (Double.shortest x).digits ≠ 0 ∧ Double.nearest (Double.shortest x).value = x := by
  unfold Double.shortest
  split
  · rename_i d hfind
    have hreads := List.find?_some hfind
    simp only [Double.readsAs, Bool.decide_and, Bool.and_eq_true, decide_eq_true_eq] at hreads
    exact ⟨Decimal.strip_digits d hreads.1, by rw [Decimal.strip_value]; exact hreads.2⟩
  · have hvalue := Double.exact_value x (le_of_lt hx)
    rw [hfix] at hvalue
    refine ⟨Decimal.strip_digits _ ?_, by rw [Decimal.strip_value, hvalue, hfix]⟩
    intro hzero
    simp only [Decimal.value, hzero, Nat.cast_zero, zero_mul] at hvalue
    exact absurd hvalue.symm (ne_of_gt hx)

theorem JsNumber.ofRat_fixed (q : ℚ) (h : JsNumber.ofRat q = .finite q) :
    Double.nearest q = q ∧ ¬ ((2 : ℚ) ^ 1024 ≤ |Double.nearest q|) := by
  unfold JsNumber.ofRat at h
  split at h
  · cases h
  · rename_i hsmall
    exact ⟨by injection h, hsmall⟩

theorem JsNumber.ofRat_of_nearest (v q : ℚ) (hv : Double.nearest v = q)
    (hq : JsNumber.ofRat q = .finite q) : JsNumber.ofRat v = .finite q := by
  obtain ⟨hfix, hsmall⟩ := JsNumber.ofRat_fixed q hq
  unfold JsNumber.ofRat
  rw [hv]
  rw [hfix] at hsmall
  rw [if_neg hsmall]

theorem JsNumber.ofRat_idem (q x : ℚ) (h : JsNumber.ofRat q = .finite x) :
    JsNumber.ofRat x = .finite x := by
  unfold JsNumber.ofRat at h
  split at h
  · cases h
  · rename_i hsmall
    have hx : Double.nearest q = x := by injection h
    have hfix : Double.nearest x = x := by rw [← hx, Double.nearest_idem]
    unfold JsNumber.ofRat
    rw [hfix, if_neg (by rw [← hx]; exact hsmall)]

/-- Every finite number that a number text or a rounding gives is a JSON
value. -/
theorem JsNumber.isJson_toVal (q x : ℚ) (h : JsNumber.ofRat q = .finite x) :
    (JsNumber.finite x).toVal.isJson = true := by
  have hx := JsNumber.ofRat_idem q x h
  by_cases hden : x.den = 1
  · have hint : ((x.num : Int) : ℚ) = x := by
      rw [← Rat.den_eq_one_iff]
      exact hden
    simp [JsNumber.toVal, hden, JsVal.isJson, hint, hx]
  · simp [JsNumber.toVal, hden, JsVal.isJson, hx]

/-- Every integer of magnitude up to `2 ^ 53` is a JSON value. -/
theorem JsVal.isJson_safe_integer (n : Int) (h : n.natAbs ≤ 2 ^ 53) :
    (JsVal.num n).isJson = true := by
  have key : ∀ k : Nat, k ≤ 2 ^ 53 → Double.nearest (k : ℚ) = k := by
    intro k hk
    rcases Nat.eq_zero_or_pos k with h0 | hpos
    · rw [h0]
      exact Double.nearest_zero
    rcases Nat.lt_or_ge k (2 ^ 53) with hlt | hge
    · have hspec := Double.bitLength_spec k hpos
      have hlen : Double.bitLength k ≤ 53 := by
        by_contra hcon
        have : 2 ^ 53 ≤ 2 ^ (Double.bitLength k - 1) :=
          Nat.pow_le_pow_right (by norm_num) (by omega)
        omega
      have hlenpos := Double.bitLength_pos k hpos
      apply Double.nearest_of_scaled _ (k * 2 ^ (53 - Double.bitLength k))
        (-((53 - Double.bitLength k : Nat) : Int))
      · push_cast
        rw [zpow_neg, zpow_natCast]
        field_simp
      · positivity
      · calc k * 2 ^ (53 - Double.bitLength k)
            < 2 ^ Double.bitLength k * 2 ^ (53 - Double.bitLength k) :=
              Nat.mul_lt_mul_of_pos_right hspec.2 (by positivity)
          _ = 2 ^ 53 := by rw [← pow_add]; congr 1; omega
      · left
        constructor
        · calc 2 ^ 52 = 2 ^ (Double.bitLength k - 1) * 2 ^ (53 - Double.bitLength k) := by
                rw [← pow_add]; congr 1; omega
            _ ≤ k * 2 ^ (53 - Double.bitLength k) := Nat.mul_le_mul_right _ hspec.1
        · omega
    · have hk53 : k = 2 ^ 53 := le_antisymm hk hge
      apply Double.nearest_of_scaled _ (2 ^ 52) 1 ?_ (by norm_num) (by norm_num)
        (Or.inl ⟨le_refl _, by norm_num⟩)
      rw [hk53]
      norm_num
  have hnear : Double.nearest (n : ℚ) = n := by
    rcases le_total 0 n with hn | hn
    · have := key n.natAbs h
      have hcast : ((n.natAbs : Nat) : ℚ) = (n : ℚ) := by
        rw [Nat.cast_natAbs, abs_of_nonneg hn]
      rw [hcast] at this
      exact this
    · have := key n.natAbs h
      have hcast : ((n.natAbs : Nat) : ℚ) = -(n : ℚ) := by
        rw [Nat.cast_natAbs, abs_of_nonpos hn]
        push_cast
        rfl
      rw [hcast, Double.nearest_neg] at this
      exact neg_injective this
  have hsmall : ¬ ((2 : ℚ) ^ 1024 ≤ |(n : ℚ)|) := by
    have h1 : |(n : ℚ)| = ((n.natAbs : Nat) : ℚ) := by
      rw [Nat.cast_natAbs]
      push_cast
      rfl
    have h2 : ((n.natAbs : Nat) : ℚ) ≤ ((2 ^ 53 : Nat) : ℚ) := by exact_mod_cast h
    have h3 : ((2 ^ 53 : Nat) : ℚ) < 2 ^ 1024 := by
      norm_num
    rw [h1]
    exact not_le.mpr (lt_of_le_of_lt h2 h3)
  simp [JsVal.isJson, JsNumber.ofRat, hnear, hsmall]

namespace JSON

theorem layout_head (c : Char) (t : List Char) (n : Int)
    (hc : 49 ≤ c.toNat ∧ c.toNat ≤ 57) :
    ∃ d r, layout (c :: t) n = d :: r ∧ 48 ≤ d.toNat ∧ d.toNat ≤ 57 := by
  unfold layout
  split
  · exact ⟨c, _, rfl, by omega, hc.2⟩
  · split
    · rename_i h
      obtain ⟨j, hj⟩ : ∃ j : Nat, n.toNat = j + 1 := ⟨n.toNat - 1, by omega⟩
      rw [hj]
      exact ⟨c, _, rfl, by omega, hc.2⟩
    · split
      · exact ⟨'0', _, rfl, by decide⟩
      · simp only
        split <;> exact ⟨c, _, rfl, by omega, hc.2⟩

/-- The text of a double: the digits that `Double.shortest` finds, laid out. -/
theorem numberText_of_fixed (q : ℚ) (hne : q ≠ 0) (hfix : Double.nearest q = q) :
    ∃ (c : Char) (t : List Char) (n : Int), 49 ≤ c.toNat ∧ c.toNat ≤ 57 ∧
      (∀ d ∈ t, 48 ≤ d.toNat ∧ d.toNat ≤ 57) ∧
      numberText q = (if q < 0 then ['-'] else []) ++ layout (c :: t) n ∧
      Double.nearest ((digitsValue 0 (c :: t) : ℚ) * 10 ^ (n - ((c :: t).length : Int))) = |q| := by
  have habs : 0 < |q| := abs_pos.mpr hne
  have hfixabs : Double.nearest |q| = |q| := by
    rcases le_total 0 q with h | h
    · rw [abs_of_nonneg h, hfix]
    · rw [abs_of_nonpos h, Double.nearest_neg, hfix]
  obtain ⟨hdigits, hreads⟩ := Double.shortest_spec |q| habs hfixabs
  obtain ⟨c, t, hct, hc1, hc2⟩ := natText_pos_head _ (Nat.pos_of_ne_zero hdigits)
  have hall := natText_digits (Double.shortest |q|).digits
  have hval := digitsValue_natText (Double.shortest |q|).digits
  rw [hct] at hall hval
  refine ⟨c, t, (Double.shortest |q|).exponent + ((c :: t).length : Int), hc1, hc2,
    fun d hd => hall d (List.mem_cons_of_mem _ hd), ?_, ?_⟩
  · unfold numberText
    rw [hfix, if_neg hne, hct]
  · rw [hval, add_sub_cancel_right]
    exact hreads

/-- Reading back the text of a double. -/
theorem parseNumber_numberText (q : ℚ) (rest : List Char)
    (hrest : continuesNumber rest = false) (hq : JsNumber.ofRat q = .finite q) :
    parseNumber (numberText q ++ rest) = some ((JsNumber.finite q).toVal, rest) := by
  obtain ⟨hfix, _⟩ := JsNumber.ofRat_fixed q hq
  by_cases hzero : q = 0
  · subst hzero
    obtain ⟨hs1, hs2, hs3⟩ := continuesNumber_stop rest hrest
    have htext : numberText 0 = ['0'] := by
      unfold numberText
      rw [hfix, if_pos rfl]
    have hnat : parseNat ('0' :: rest) = some (0, rest) := rfl
    have h0 : ('0' : Char) ≠ '-' := by decide
    rw [htext]
    simp only [List.cons_append, List.nil_append, parseNumber, h0, if_false, parseUnsigned, hnat,
      parseFraction_none rest hs2, parseExponent_none rest hs3, numberValue]
    have : ((if false = true then -1 else 1 : ℚ) *
        (((0 * 10 ^ ([] : List Char).length + digitsValue 0 [] : Nat) : ℚ) *
          10 ^ ((0 : Int) - (([] : List Char).length : Int)))) = 0 := by
      simp [digitsValue]
    rw [this, hq]
  · obtain ⟨c, t, n, hc1, hc2, ht, htext, hreads⟩ := numberText_of_fixed q hzero hfix
    rw [htext]
    by_cases hneg : q < 0
    · rw [if_pos hneg]
      have hstep : parseNumber ((['-'] ++ layout (c :: t) n) ++ rest) =
          parseUnsigned true (layout (c :: t) n ++ rest) := by
        simp only [List.cons_append, List.nil_append, parseNumber, if_true]
      rw [hstep, parseUnsigned_layout true c t rest n ⟨hc1, hc2⟩ ht hrest]
      have hv : Double.nearest ((if true = true then -1 else 1 : ℚ) *
          ((digitsValue 0 (c :: t) : ℚ) * 10 ^ (n - ((c :: t).length : Int)))) = q := by
        rw [if_pos rfl, neg_one_mul, Double.nearest_neg, hreads, abs_of_neg hneg, neg_neg]
      rw [JsNumber.ofRat_of_nearest _ q hv hq]
    · rw [if_neg hneg]
      obtain ⟨d, r, hdr, hd1, hd2⟩ := layout_head c t n ⟨hc1, hc2⟩
      have hminus : d ≠ '-' := by
        intro h
        subst h
        have : ('-' : Char).toNat = 45 := rfl
        omega
      have hstep : parseNumber (([] ++ layout (c :: t) n) ++ rest) =
          parseUnsigned false (layout (c :: t) n ++ rest) := by
        rw [List.nil_append, hdr]
        simp only [List.cons_append, parseNumber, hminus, if_false]
      rw [hstep, parseUnsigned_layout false c t rest n ⟨hc1, hc2⟩ ht hrest]
      have hv : Double.nearest ((if false = true then -1 else 1 : ℚ) *
          ((digitsValue 0 (c :: t) : ℚ) * 10 ^ (n - ((c :: t).length : Int)))) = q := by
        rw [if_neg (by simp), one_mul, hreads, abs_of_nonneg (not_lt.mp hneg)]
      rw [JsNumber.ofRat_of_nearest _ q hv hq]

/-- The text of a number starts with a minus sign or a digit. -/
theorem numberText_head (q : ℚ) (hq : JsNumber.ofRat q = .finite q) :
    ∃ c t, numberText q = c :: t ∧ StartsNumber c := by
  obtain ⟨hfix, _⟩ := JsNumber.ofRat_fixed q hq
  by_cases hzero : q = 0
  · subst hzero
    refine ⟨'0', [], ?_, Or.inr (by decide)⟩
    unfold numberText
    rw [hfix, if_pos rfl]
  · obtain ⟨c, t, n, hc1, hc2, _, htext, _⟩ := numberText_of_fixed q hzero hfix
    rw [htext]
    by_cases hneg : q < 0
    · rw [if_pos hneg]
      exact ⟨'-', _, rfl, Or.inl rfl⟩
    · rw [if_neg hneg]
      obtain ⟨d, r, hdr, hd1, hd2⟩ := layout_head c t n ⟨hc1, hc2⟩
      exact ⟨d, r, by rw [List.nil_append, hdr], Or.inr ⟨hd1, hd2⟩⟩

end JSON

namespace JSON

theorem parseString_control (k : Nat) (hk : k < 32) (tail : List Char)
    (h8 : k ≠ 8) (h9 : k ≠ 9) (h10 : k ≠ 10) (h12 : k ≠ 12) (h13 : k ≠ 13) :
    parseString (['\\', 'u', '0', '0', hexDigit (k / 16), hexDigit (k % 16)] ++ tail) =
      consChar (Char.ofNat k) (parseString tail) := by
  interval_cases k <;> rfl

theorem parseString_quoteChar (c : Char) (tail : List Char) :
    parseString (quoteChar c ++ tail) = consChar c (parseString tail) := by
  unfold quoteChar
  split_ifs with h8 h9 h10 h12 h13 hq hb hlt
  · subst h8; rfl
  · subst h9; rfl
  · subst h10; rfl
  · subst h12; rfl
  · subst h13; rfl
  · subst hq; rfl
  · subst hb; rfl
  · have hc : c = Char.ofNat c.toNat := (Char.ofNat_toNat c).symm
    have key := parseString_control c.toNat hlt tail
      (fun e => h8 (by rw [hc, e])) (fun e => h9 (by rw [hc, e]))
      (fun e => h10 (by rw [hc, e])) (fun e => h12 (by rw [hc, e]))
      (fun e => h13 (by rw [hc, e]))
    rw [← hc] at key
    exact key
  · show parseStringFrom .plain (c :: tail) = _
    simp only [parseStringFrom, hq, hb, hlt, if_false]
    rfl

theorem parseString_quoteChars (s tail : List Char) :
    parseString (quoteChars s ++ ('"' :: tail)) = some (s, tail) := by
  induction s with
  | nil => rfl
  | cons c cs ih =>
    simp only [quoteChars, List.append_assoc]
    rw [parseString_quoteChar, ih]
    rfl

theorem skipWs_append_ws (lead cs : List Char) (h : ∀ c ∈ lead, isWs c = true) :
    skipWs (lead ++ cs) = skipWs cs := by
  induction lead with
  | nil => rfl
  | cons c lead ih =>
    have hc := h c (List.mem_cons_self _ _)
    simp only [List.cons_append, skipWs, hc, if_true]
    exact ih (fun d hd => h d (List.mem_cons_of_mem _ hd))

theorem parseValue_ws (fuel : Nat) (lead cs : List Char) (h : ∀ c ∈ lead, isWs c = true) :
    parseValue fuel (lead ++ cs) = parseValue fuel cs := by
  cases fuel with
  | zero => simp [parseValue]
  | succ fuel => simp only [parseValue, skipWs_append_ws lead cs h]

theorem parseItems_ws (fuel : Nat) (lead cs : List Char) (h : ∀ c ∈ lead, isWs c = true) :
    parseItems fuel (lead ++ cs) = parseItems fuel cs := by
  cases fuel with
  | zero => simp [parseItems]
  | succ fuel => simp only [parseItems, parseValue_ws fuel lead cs h]

theorem parseMembers_ws (fuel : Nat) (lead cs : List Char) (h : ∀ c ∈ lead, isWs c = true) :
    parseMembers fuel (lead ++ cs) = parseMembers fuel cs := by
  cases fuel with
  | zero => simp [parseMembers]
  | succ fuel => simp only [parseMembers, skipWs_append_ws lead cs h]

theorem isWs_newline_pad (depth : Nat) : ∀ c ∈ '\n' :: pad depth, isWs c = true := by
  intro c hc
  rcases List.mem_cons.mp hc with hc | hc
  · subst hc; rfl
  · rw [pad, List.mem_replicate] at hc
    rw [hc.2]; rfl

theorem serialize_some (depth : Nat) (v : JsVal) (h : v.isJson = true) :
    ∃ text, serialize depth v = some text := by
  cases v with
  | undefined => simp [JsVal.isJson] at h
  | null => exact ⟨_, rfl⟩
  | bool b => cases b <;> exact ⟨_, rfl⟩
  | num n => exact ⟨_, rfl⟩
  | str s => exact ⟨_, rfl⟩
  | arr items =>
    rw [serialize]
    split <;> exact ⟨_, rfl⟩
  | obj fields =>
    rw [serialize]
    split <;> exact ⟨_, rfl⟩
  | nonInt x =>
    cases x with
    | nan => simp [JsVal.isJson] at h
    | infinity negative => simp [JsVal.isJson] at h
    | finite q => exact ⟨_, rfl⟩

theorem isJson_num (n : Int) (h : (JsVal.num n).isJson = true) :
    JsNumber.ofRat n = .finite n := by
  simpa [JsVal.isJson] using h

theorem isJson_finite (q : ℚ) (h : (JsVal.nonInt (.finite q)).isJson = true) :
    q.den ≠ 1 ∧ JsNumber.ofRat q = .finite q := by
  simpa [JsVal.isJson] using h

theorem toVal_int (n : Int) : (JsNumber.finite (n : ℚ)).toVal = .num n := by
  simp [JsNumber.toVal]

theorem toVal_fraction (q : ℚ) (h : q.den ≠ 1) :
    (JsNumber.finite q).toVal = .nonInt (.finite q) := by
  simp [JsNumber.toVal, h]

theorem ne_of_toNat_ne {c d : Char} (h : c.toNat ≠ d.toNat) : c ≠ d :=
  fun e => h (by rw [e])

theorem StartsNumber.not_ws {c : Char} (h : StartsNumber c) : isWs c = false := by
  have h1 : c ≠ ' ' := ne_of_toNat_ne (by show c.toNat ≠ 32; rcases h with h | h <;> omega)
  have h2 : c ≠ Char.ofNat 9 :=
    ne_of_toNat_ne (by show c.toNat ≠ 9; rcases h with h | h <;> omega)
  have h3 : c ≠ Char.ofNat 10 :=
    ne_of_toNat_ne (by show c.toNat ≠ 10; rcases h with h | h <;> omega)
  have h4 : c ≠ Char.ofNat 13 :=
    ne_of_toNat_ne (by show c.toNat ≠ 13; rcases h with h | h <;> omega)
  simp [isWs, h1, h2, h3, h4]

theorem StartsNumber.ne {c d : Char} (h : StartsNumber c)
    (hd : d.toNat ≠ 45 ∧ (d.toNat < 48 ∨ 57 < d.toNat)) : c ≠ d :=
  ne_of_toNat_ne (by rcases h with h | h <;> omega)

theorem parseValue_number (fuel : Nat) (c : Char) (t : List Char) (h : StartsNumber c) :
    parseValue (fuel + 1) (c :: t) = parseNumber (c :: t) := by
  have hn : c ≠ 'n' := h.ne (by decide)
  have ht : c ≠ 't' := h.ne (by decide)
  have hf : c ≠ 'f' := h.ne (by decide)
  have hq : c ≠ '"' := h.ne (by decide)
  have hb : c ≠ '[' := h.ne (by decide)
  have ho : c ≠ '\x7b' := h.ne (by decide)
  rw [parseValue, skipWs_cons_of_not_ws _ _ h.not_ws]
  dsimp only
  rw [if_neg hn, if_neg ht, if_neg hf, if_neg hq, if_neg hb, if_neg ho]

/-- The first character of a serialised value starts a JSON value. -/
theorem serialize_head (depth : Nat) (v : JsVal) (text : List Char)
    (hj : v.isJson = true) (h : serialize depth v = some text) :
    ∃ c t, text = c :: t ∧ isWs c = false ∧ c ≠ ']' ∧ c ≠ '\x7d' := by
  cases v with
  | undefined => simp [serialize] at h
  | null => simp only [serialize, Option.some.injEq] at h; subst h; exact ⟨_, _, rfl, by decide⟩
  | bool b =>
    cases b <;> simp only [serialize, Option.some.injEq] at h <;> subst h <;>
      exact ⟨_, _, rfl, by decide⟩
  | num n =>
    simp only [serialize, Option.some.injEq] at h; subst h
    obtain ⟨c, t, hct, hc⟩ := numberText_head n (isJson_num n hj)
    exact ⟨c, t, hct, hc.not_ws, hc.ne (by decide), hc.ne (by decide)⟩
  | str s => simp only [serialize, Option.some.injEq] at h; subst h; exact ⟨_, _, rfl, by decide⟩
  | arr items =>
    rw [serialize] at h
    split at h <;> simp only [Option.some.injEq] at h <;> subst h <;>
      exact ⟨_, _, rfl, by decide⟩
  | obj fields =>
    rw [serialize] at h
    split at h <;> simp only [Option.some.injEq] at h <;> subst h <;>
      exact ⟨_, _, rfl, by decide⟩
  | nonInt x =>
    cases x with
    | nan => simp [JsVal.isJson] at hj
    | infinity negative => simp [JsVal.isJson] at hj
    | finite q =>
      simp only [serialize, Option.some.injEq] at h; subst h
      obtain ⟨c, t, hct, hc⟩ := numberText_head q (isJson_finite q hj).2
      exact ⟨c, t, hct, hc.not_ws, hc.ne (by decide), hc.ne (by decide)⟩

theorem set_of_not_mem {α : Type} (m : JsMap α) (k : String) (v : α) (h : k ∉ m.keys) :
    m.set k v = m ++ [(k, v)] := by
  induction m with
  | nil => rfl
  | cons p rest ih =>
    obtain ⟨k2, v2⟩ := p
    have hne : k2 ≠ k := fun e => h (by simp [JsMap.keys, e])
    have hrest : k ∉ JsMap.keys rest := fun hm => h (by
      simp only [JsMap.keys, List.map_cons, List.mem_cons]
      exact Or.inr hm)
    simp only [JsMap.set, hne, if_false, List.cons_append]
    rw [ih hrest]

theorem foldl_set (fields acc : List (String × JsVal))
    (hnd : (fields.map Prod.fst).Nodup)
    (hdis : ∀ k ∈ fields.map Prod.fst, k ∉ acc.map Prod.fst) :
    fields.foldl (fun a m => JsMap.set a m.1 m.2) acc = acc ++ fields := by
  induction fields generalizing acc with
  | nil => simp
  | cons p rest ih =>
    obtain ⟨k, v⟩ := p
    simp only [List.map_cons, List.nodup_cons] at hnd
    have hk : k ∉ JsMap.keys acc := hdis k (by simp)
    simp only [List.foldl_cons]
    rw [set_of_not_mem acc k v hk, ih _ hnd.2]
    · simp
    · intro k2 hk2 hmem
      simp only [List.map_append, List.map_cons, List.map_nil, List.mem_append,
        List.mem_singleton] at hmem
      rcases hmem with hmem | hmem
      · exact hdis k2 (by simp only [List.map_cons, List.mem_cons]; exact Or.inr hk2) hmem
      · subst hmem; exact hnd.1 hk2

theorem isJsonFields_nodup (fields : List (String × JsVal))
    (h : JsVal.isJsonFields fields = true) : (fields.map Prod.fst).Nodup := by
  induction fields with
  | nil => simp
  | cons p rest ih =>
    obtain ⟨k, v⟩ := p
    simp only [JsVal.isJsonFields, Bool.and_eq_true, Bool.not_eq_true', List.any_eq_false,
      beq_iff_eq] at h
    simp only [List.map_cons, List.nodup_cons, List.mem_map, not_exists, not_and]
    exact ⟨fun q hq hqk => h.1.1 q hq hqk, ih h.2⟩

theorem buildObject_eq (fields : List (String × JsVal))
    (h : JsVal.isJsonFields fields = true) : buildObject fields = .obj fields := by
  simp only [buildObject]
  rw [foldl_set fields [] (isJsonFields_nodup fields h) (by simp)]
  simp

theorem skipWs_closing (k : Nat) (c : Char) (rest : List Char) (h : isWs c = false) :
    skipWs ('\n' :: (pad k ++ c :: rest)) = c :: rest := by
  rw [skipWs_newline, skipWs_pad, skipWs_cons_of_not_ws _ _ h]

theorem parseValue_array (fuel : Nat) (lead body : List Char) (c : Char) (t : List Char)
    (hlead : ∀ x ∈ lead, isWs x = true) (hbody : body = c :: t) (hws : isWs c = false)
    (hc : c ≠ ']') :
    parseValue (fuel + 1) ('[' :: (lead ++ body)) =
      match parseItems fuel body with
      | some (items, last) => some (.arr items, last)
      | none => none := by
  have h1 : skipWs (lead ++ body) = c :: t := by
    rw [skipWs_append_ws _ _ hlead, hbody, skipWs_cons_of_not_ws _ _ hws]
  rw [parseValue, skipWs_cons_of_not_ws _ _ (by rfl)]
  dsimp only
  rw [if_neg (by decide), if_neg (by decide), if_neg (by decide), if_neg (by decide),
    if_pos rfl, h1]
  dsimp only
  rw [if_neg hc, hbody]

theorem parseValue_object (fuel : Nat) (lead body : List Char) (c : Char) (t : List Char)
    (hlead : ∀ x ∈ lead, isWs x = true) (hbody : body = c :: t) (hws : isWs c = false)
    (hc : c ≠ '\x7d') :
    parseValue (fuel + 1) ('\x7b' :: (lead ++ body)) =
      match parseMembers fuel body with
      | some (members, last) => some (buildObject members, last)
      | none => none := by
  have h1 : skipWs (lead ++ body) = c :: t := by
    rw [skipWs_append_ws _ _ hlead, hbody, skipWs_cons_of_not_ws _ _ hws]
  rw [parseValue, skipWs_cons_of_not_ws _ _ (by rfl)]
  dsimp only
  rw [if_neg (by decide), if_neg (by decide), if_neg (by decide), if_neg (by decide),
    if_neg (by decide), if_pos rfl, h1]
  dsimp only
  rw [if_neg hc, hbody]

theorem parseValue_string (fuel : Nat) (s rest : List Char) :
    parseValue (fuel + 1) ('"' :: (quoteChars s ++ ['"']) ++ rest) =
      some (.str (String.mk s), rest) := by
  have h : '"' :: (quoteChars s ++ ['"']) ++ rest = '"' :: (quoteChars s ++ ('"' :: rest)) := by
    simp
  rw [h, parseValue, skipWs_cons_of_not_ws _ _ (by rfl)]
  dsimp only
  rw [if_neg (by decide), if_neg (by decide), if_neg (by decide), if_pos rfl,
    parseString_quoteChars]

theorem parseItems_last (fuel k : Nat) (cs rest : List Char) (v : JsVal)
    (h : parseValue fuel cs = some (v, '\n' :: (pad k ++ ']' :: rest))) :
    parseItems (fuel + 1) cs = some ([v], rest) := by
  rw [parseItems, h]
  dsimp only
  rw [skipWs_closing k ']' rest (by rfl)]
  dsimp only
  rw [if_neg (by decide), if_pos rfl]

theorem parseItems_more (fuel : Nat) (cs lead body rest : List Char) (v : JsVal)
    (items : List JsVal) (hlead : ∀ x ∈ lead, isWs x = true)
    (h : parseValue fuel cs = some (v, ',' :: (lead ++ body)))
    (hrest : parseItems fuel body = some (items, rest)) :
    parseItems (fuel + 1) cs = some (v :: items, rest) := by
  rw [parseItems, h]
  dsimp only
  rw [skipWs_cons_of_not_ws _ _ (by rfl)]
  dsimp only
  rw [if_pos rfl, parseItems_ws _ _ _ hlead, hrest]

theorem parseMembers_last (fuel k : Nat) (key : String) (cs rest : List Char) (v : JsVal)
    (h : parseValue fuel cs = some (v, '\n' :: (pad k ++ '\x7d' :: rest))) :
    parseMembers (fuel + 1) (quote key ++ (':' :: ' ' :: cs)) = some ([(key, v)], rest) := by
  have hq : quote key ++ (':' :: ' ' :: cs) =
      '"' :: (quoteChars key.data ++ ('"' :: (':' :: ' ' :: cs))) := by
    simp [quote]
  rw [hq, parseMembers, skipWs_cons_of_not_ws _ _ (by rfl)]
  dsimp only
  rw [if_pos rfl, parseString_quoteChars]
  dsimp only
  rw [skipWs_cons_of_not_ws _ _ (by rfl)]
  dsimp only
  rw [if_pos rfl, show ' ' :: cs = [' '] ++ cs from rfl, parseValue_ws fuel [' '] cs (by decide), h]
  dsimp only
  rw [skipWs_closing k '\x7d' rest (by rfl)]
  dsimp only
  rw [if_neg (by decide), if_pos rfl]

theorem parseMembers_more (fuel : Nat) (key : String) (cs lead body rest : List Char)
    (v : JsVal) (members : List (String × JsVal)) (hlead : ∀ x ∈ lead, isWs x = true)
    (h : parseValue fuel cs = some (v, ',' :: (lead ++ body)))
    (hrest : parseMembers fuel body = some (members, rest)) :
    parseMembers (fuel + 1) (quote key ++ (':' :: ' ' :: cs)) =
      some ((key, v) :: members, rest) := by
  have hq : quote key ++ (':' :: ' ' :: cs) =
      '"' :: (quoteChars key.data ++ ('"' :: (':' :: ' ' :: cs))) := by
    simp [quote]
  rw [hq, parseMembers, skipWs_cons_of_not_ws _ _ (by rfl)]
  dsimp only
  rw [if_pos rfl, parseString_quoteChars]
  dsimp only
  rw [skipWs_cons_of_not_ws _ _ (by rfl)]
  dsimp only
  rw [if_pos rfl, show ' ' :: cs = [' '] ++ cs from rfl, parseValue_ws fuel [' '] cs (by decide), h]
  dsimp only
  rw [skipWs_cons_of_not_ws _ _ (by rfl)]
  dsimp only
  rw [if_pos rfl, parseMembers_ws _ _ _ hlead, hrest]

theorem serializeItems_cons (depth : Nat) (x : JsVal) (xs : List JsVal) (text : List Char)
    (h : serialize depth x = some text) :
    serializeItems depth (x :: xs) = text :: serializeItems depth xs := by
  simp only [serializeItems, h]

theorem serializeFields_cons (depth : Nat) (key : String) (v : JsVal)
    (fs : List (String × JsVal)) (text : List Char) (h : serialize depth v = some text) :
    serializeFields depth ((key, v) :: fs) =
      (quote key ++ (':' :: ' ' :: text)) :: serializeFields depth fs := by
  simp only [serializeFields, h]

theorem continuesNumber_newline (cs : List Char) : continuesNumber ('\n' :: cs) = false := rfl

theorem continuesNumber_comma (cs : List Char) : continuesNumber (',' :: cs) = false := rfl

/-- Reading back what `serialize` wrote: values, array elements and object
members, by induction on the bound of the reader. -/
theorem parse_serialize : ∀ fuel : Nat,
    (∀ (v : JsVal) (depth : Nat) (text rest : List Char),
      v.isJson = true → serialize depth v = some text → text.length < fuel →
      continuesNumber rest = false → parseValue fuel (text ++ rest) = some (v, rest)) ∧
    (∀ (items : List JsVal) (depth k : Nat) (rest : List Char),
      items ≠ [] → JsVal.isJsonItems items = true →
      (joinWith (',' :: '\n' :: pad depth) (serializeItems depth items)).length + 1 < fuel →
      parseItems fuel (joinWith (',' :: '\n' :: pad depth) (serializeItems depth items) ++
        ('\n' :: (pad k ++ ']' :: rest))) = some (items, rest)) ∧
    (∀ (fields : List (String × JsVal)) (depth k : Nat) (rest : List Char),
      fields ≠ [] → JsVal.isJsonFields fields = true →
      (joinWith (',' :: '\n' :: pad depth) (serializeFields depth fields)).length + 1 < fuel →
      parseMembers fuel (joinWith (',' :: '\n' :: pad depth) (serializeFields depth fields) ++
        ('\n' :: (pad k ++ '\x7d' :: rest))) = some (fields, rest)) := by
  intro fuel
  induction fuel with
  | zero =>
    exact ⟨fun _ _ _ _ _ _ h => absurd h (Nat.not_lt_zero _),
      fun _ _ _ _ _ _ h => absurd h (Nat.not_lt_zero _),
      fun _ _ _ _ _ _ h => absurd h (Nat.not_lt_zero _)⟩
  | succ fuel ih =>
    obtain ⟨ihV, ihI, ihM⟩ := ih
    refine ⟨?_, ?_, ?_⟩
    · intro v depth text rest hj hs hlen hrest
      cases v with
      | undefined => simp [JsVal.isJson] at hj
      | null =>
        simp only [serialize, Option.some.injEq] at hs
        subst hs
        rfl
      | bool b =>
        cases b <;> simp only [serialize, Option.some.injEq] at hs <;> subst hs <;> rfl
      | num n =>
        simp only [serialize, Option.some.injEq] at hs
        subst hs
        have hq := isJson_num n hj
        obtain ⟨c, t, hct, hc⟩ := numberText_head n hq
        have hp := parseNumber_numberText n rest hrest hq
        rw [toVal_int] at hp
        rw [hct] at hp ⊢
        rw [List.cons_append, parseValue_number fuel c _ hc]
        exact hp
      | str s =>
        simp only [serialize, Option.some.injEq] at hs
        subst hs
        exact parseValue_string fuel s.data rest
      | arr items =>
        rw [serialize] at hs
        cases items with
        | nil =>
          simp only [serializeItems, Option.some.injEq] at hs
          subst hs
          rfl
        | cons x xs =>
          simp only [JsVal.isJson, JsVal.isJsonItems, Bool.and_eq_true] at hj
          obtain ⟨px, hpx⟩ := serialize_some (depth + 1) x hj.1
          obtain ⟨c, t, hct, hws, hc, _⟩ := serialize_head _ _ _ hj.1 hpx
          rw [serializeItems_cons _ _ _ _ hpx] at hs
          simp only [Option.some.injEq] at hs
          subst hs
          have hjoin : ∃ t2, joinWith (',' :: '\n' :: pad (depth + 1))
              (px :: serializeItems (depth + 1) xs) = c :: t2 := by
            cases serializeItems (depth + 1) xs with
            | nil => exact ⟨t, by simp [joinWith, hct]⟩
            | cons q qs => exact ⟨_, by simp [joinWith, hct]; rfl⟩
          obtain ⟨t2, ht2⟩ := hjoin
          have hitems := ihI (x :: xs) (depth + 1) depth rest (by simp)
            (by simp [JsVal.isJsonItems, hj.1, hj.2])
            (by
              rw [serializeItems_cons _ _ _ _ hpx]
              simp only [wrap, List.length_cons, List.length_append] at hlen
              omega)
          rw [serializeItems_cons _ _ _ _ hpx] at hitems
          have hshape : wrap '[' ']' depth (px :: serializeItems (depth + 1) xs) ++ rest =
              '[' :: (('\n' :: pad (depth + 1)) ++
                (joinWith (',' :: '\n' :: pad (depth + 1)) (px :: serializeItems (depth + 1) xs) ++
                  ('\n' :: (pad depth ++ ']' :: rest)))) := by
            simp [wrap]
          rw [hshape, parseValue_array fuel _ _ c
            (t2 ++ ('\n' :: (pad depth ++ ']' :: rest))) (isWs_newline_pad _)
            (by rw [ht2]; rfl) hws hc, hitems]
      | obj fields =>
        rw [serialize] at hs
        cases fields with
        | nil =>
          simp only [serializeFields, Option.some.injEq] at hs
          subst hs
          rfl
        | cons p fs =>
          obtain ⟨key, x⟩ := p
          have hj2 := hj
          simp only [JsVal.isJson, JsVal.isJsonFields, Bool.and_eq_true] at hj
          obtain ⟨px, hpx⟩ := serialize_some (depth + 1) x hj.1.2
          rw [serializeFields_cons _ _ _ _ _ hpx] at hs
          simp only [Option.some.injEq] at hs
          subst hs
          have hjoin : ∃ t2, joinWith (',' :: '\n' :: pad (depth + 1))
              ((quote key ++ (':' :: ' ' :: px)) :: serializeFields (depth + 1) fs) =
                '"' :: t2 := by
            cases serializeFields (depth + 1) fs with
            | nil => exact ⟨_, by simp [joinWith, quote]; rfl⟩
            | cons q qs => exact ⟨_, by simp [joinWith, quote]; rfl⟩
          obtain ⟨t2, ht2⟩ := hjoin
          have hmembers := ihM ((key, x) :: fs) (depth + 1) depth rest (by simp)
            (by simpa [JsVal.isJson] using hj2)
            (by
              rw [serializeFields_cons _ _ _ _ _ hpx]
              simp only [wrap, List.length_cons, List.length_append] at hlen
              omega)
          rw [serializeFields_cons _ _ _ _ _ hpx] at hmembers
          have hshape : wrap '\x7b' '\x7d' depth
              ((quote key ++ (':' :: ' ' :: px)) :: serializeFields (depth + 1) fs) ++ rest =
              '\x7b' :: (('\n' :: pad (depth + 1)) ++
                (joinWith (',' :: '\n' :: pad (depth + 1))
                    ((quote key ++ (':' :: ' ' :: px)) :: serializeFields (depth + 1) fs) ++
                  ('\n' :: (pad depth ++ '\x7d' :: rest)))) := by
            simp [wrap]
          rw [hshape, parseValue_object fuel _ _ '"'
            (t2 ++ ('\n' :: (pad depth ++ '\x7d' :: rest))) (isWs_newline_pad _)
            (by rw [ht2]; rfl) (by rfl) (by decide), hmembers]
          dsimp only
          rw [buildObject_eq _ (by simpa [JsVal.isJson] using hj2)]
      | nonInt x =>
        cases x with
        | nan => simp [JsVal.isJson] at hj
        | infinity negative => simp [JsVal.isJson] at hj
        | finite q =>
          simp only [serialize, Option.some.injEq] at hs
          subst hs
          obtain ⟨hden, hq⟩ := isJson_finite q hj
          obtain ⟨c, t, hct, hc⟩ := numberText_head q hq
          have hp := parseNumber_numberText q rest hrest hq
          rw [toVal_fraction q hden] at hp
          rw [hct] at hp ⊢
          rw [List.cons_append, parseValue_number fuel c _ hc]
          exact hp
    · intro items depth k rest hne hj hlen
      cases items with
      | nil => exact absurd rfl hne
      | cons x xs =>
        simp only [JsVal.isJsonItems, Bool.and_eq_true] at hj
        obtain ⟨px, hpx⟩ := serialize_some depth x hj.1
        rw [serializeItems_cons _ _ _ _ hpx] at hlen ⊢
        cases xs with
        | nil =>
          simp only [serializeItems, joinWith] at hlen ⊢
          exact parseItems_last fuel k _ rest x
            (ihV x depth px _ hj.1 hpx (by omega) (continuesNumber_newline _))
        | cons y ys =>
          have hj2 := hj.2
          simp only [JsVal.isJsonItems, Bool.and_eq_true] at hj2
          obtain ⟨py, hpy⟩ := serialize_some depth y hj2.1
          have htail := ihI (y :: ys) depth k rest (by simp) hj.2
          rw [serializeItems_cons _ _ _ _ hpy] at hlen htail ⊢
          simp only [joinWith, List.length_append, List.length_cons] at hlen
          have hshape : joinWith (',' :: '\n' :: pad depth)
                (px :: py :: serializeItems depth ys) ++ ('\n' :: (pad k ++ ']' :: rest)) =
              px ++ (',' :: (('\n' :: pad depth) ++
                (joinWith (',' :: '\n' :: pad depth) (py :: serializeItems depth ys) ++
                  ('\n' :: (pad k ++ ']' :: rest))))) := by
            simp [joinWith]
          rw [hshape]
          exact parseItems_more fuel _ _ _ rest x (y :: ys) (isWs_newline_pad _)
            (ihV x depth px _ hj.1 hpx (by omega) (continuesNumber_comma _))
            (htail (by omega))
    · intro fields depth k rest hne hj hlen
      cases fields with
      | nil => exact absurd rfl hne
      | cons p fs =>
        obtain ⟨key, x⟩ := p
        simp only [JsVal.isJsonFields, Bool.and_eq_true] at hj
        obtain ⟨px, hpx⟩ := serialize_some depth x hj.1.2
        rw [serializeFields_cons _ _ _ _ _ hpx] at hlen ⊢
        cases fs with
        | nil =>
          simp only [serializeFields, joinWith, List.length_append, List.length_cons] at hlen ⊢
          rw [List.append_assoc]
          exact parseMembers_last fuel k key _ rest x
            (ihV x depth px _ hj.1.2 hpx (by omega) (continuesNumber_newline _))
        | cons q qs =>
          obtain ⟨key2, y⟩ := q
          have hj2 := hj.2
          simp only [JsVal.isJsonFields, Bool.and_eq_true] at hj2
          obtain ⟨py, hpy⟩ := serialize_some depth y hj2.1.2
          have htail := ihM ((key2, y) :: qs) depth k rest (by simp) hj.2
          rw [serializeFields_cons _ _ _ _ _ hpy] at hlen htail ⊢
          simp only [joinWith, List.length_append, List.length_cons] at hlen
          have hshape : joinWith (',' :: '\n' :: pad depth)
                ((quote key ++ (':' :: ' ' :: px)) :: (quote key2 ++ (':' :: ' ' :: py)) ::
                  serializeFields depth qs) ++ ('\n' :: (pad k ++ '\x7d' :: rest)) =
              quote key ++ (':' :: ' ' :: (px ++ (',' :: (('\n' :: pad depth) ++
                (joinWith (',' :: '\n' :: pad depth)
                    ((quote key2 ++ (':' :: ' ' :: py)) :: serializeFields depth qs) ++
                  ('\n' :: (pad k ++ '\x7d' :: rest))))))) := by
            simp [joinWith]
          rw [hshape]
          exact parseMembers_more fuel key _ _ _ rest x ((key2, y) :: qs) (isWs_newline_pad _)
            (ihV x depth px _ hj.1.2 hpx (by omega) (continuesNumber_comma _))
            (htail (by omega))

/-- The round trip of the two builtins on the values of `JsVal.isJson`. -/
theorem parse_stringify (D : JsVal) (hD : D.isJson = true) :
    ∃ text, stringify D = .str text ∧ parse text = .ok D := by
  obtain ⟨text, hs⟩ := serialize_some 0 D hD
  refine ⟨String.mk text, by simp only [stringify, hs], ?_⟩
  have h := (parse_serialize (text.length + 1)).1 D 0 text [] hD hs (Nat.lt_succ_self _) rfl
  rw [List.append_nil] at h
  simp only [parse, String.length, h, skipWs]

end JSON

theorem success_getProp_error (D : JsVal) : (success D).getProp "error" = .ok .undefined := rfl

theorem success_getProp_data (D : JsVal) : (success D).getProp "data" = .ok D := rfl

/-- C2: when the handler of a registered name resolves to `Success` with a
JSON value `D`, the `tools/call` response carries as `result.content` exactly
one block of type `text`, and `JSON.parse` of its text gives `D` back.  The
JSON values are `null`, the booleans, the strings, every finite double (the
integers, the fractions such as 6.5 and 0.75, the numbers printed in exponent
form), and the arrays and objects of such values. -/
theorem handleMCPRequest_success_round_trip (side : MergeSide) (hs : Handlers)
    (request : JsVal) (name : String) (handler : ToolHandler) (D : JsVal)
    (hmethod : request.prop "method" = .str "tools/call")
    (hname : (request.prop "params").prop "name" = .str name)
    (hreg : (toolHandlers side hs).get (.str name) = some handler)
    (hres : handler ((request.prop "params").prop "arguments") = .ok (success D))
    (hD : D.isJson = true) :
    ∃ text, handleMCPRequest side hs request = .ok (.obj [
        ("jsonrpc", .str "2.0"),
        ("id", request.prop "id"),
        ("result", .obj [
          ("content", .arr [.obj [("type", .str "text"), ("text", .str text)]])])]) ∧
      JSON.parse text = .ok D := by
  obtain ⟨text, htext, hparse⟩ := JSON.parse_stringify D hD
  refine ⟨text, ?_, hparse⟩
  have hr := JsVal.not_nullish_of_prop_str hmethod
  have hp := JsVal.not_nullish_of_prop_str hname
  simp [handleMCPRequest, dispatch, toolsCall, JsVal.getProp_eq _ _ hr,
    JsVal.destructure_eq _ _ _ hp, hmethod, hname, hreg, hres, strictEqStr, bind, Except.bind,
    pure, Except.pure, success_getProp_error, success_getProp_data, JsVal.truthy, htext]

/-- Witness of C2: a payload with a string that needs escaping, integers,
fractions, numbers in exponent form, nested arrays and an empty object. -/
theorem handleMCPRequest_success_round_trip_witness :
    ∃ text, handleMCPRequest .head (constHandlers fun _ => .ok (success samplePayload))
        (callRequest (.num 1) (.str "mandi-price") (.obj [("commodity", .str "wheat")])) =
      .ok (.obj [
        ("jsonrpc", .str "2.0"),
        ("id", .num 1),
        ("result", .obj [
          ("content", .arr [.obj [("type", .str "text"), ("text", .str text)]])])]) ∧
      JSON.parse text = .ok samplePayload :=
  handleMCPRequest_success_round_trip .head (constHandlers fun _ => .ok (success samplePayload))
    (callRequest (.num 1) (.str "mandi-price") (.obj [("commodity", .str "wheat")]))
    "mandi-price" (fun _ => .ok (success samplePayload)) samplePayload rfl rfl rfl rfl
    (by decide!)

/-- The texts of `Number::toString` on some doubles: plain digits up to 21
integer places, the shortest digits that read back (`2 ^ 60` and `2 ^ 70` are
not printed in full), and the exponent form beyond. -/
theorem numberText_samples :
    [numberText 2100, numberText (-5), numberText (13 / 2), numberText (3 / 4),
      numberText (1 / 10), numberText (1 / 3), numberText (2 ^ 60), numberText (10 ^ 21),
      numberText (2 ^ 70), numberText (1 / 1000000), numberText (1 / 10000000),
      numberText (1 / 2 ^ 1074)].map String.mk =
    ["2100", "-5", "6.5", "0.75", "0.1", "0.3333333333333333", "1152921504606847000",
      "1e+21", "1.1805916207174113e+21", "0.000001", "1e-7", "5e-324"] := by
  decide!

/-- The values `JSON.parse` reads from some number texts: a fraction, an
exponent, a text of more digits than a double holds, a number beyond the
largest double, and `1.` with no digit after the point, which is no JSON
text. -/
theorem parse_samples :
    ["6.5", "-0.75e1", "1E3", "9007199254740993", "1e400", "1."].map
        (fun text => (JSON.parse text).toOption) =
      [some (.nonInt (.finite (13 / 2))), some (.nonInt (.finite (-15 / 2))), some (.num 1000),
        some (.num 9007199254740992), some (.nonInt (.infinity false)), none] := by
  decide!

/-! ## Properties of the HTTP listener -/

theorem tools_url_ne (url : String) (h : "/tools/".data.isPrefixOf url.data = true) :
    url ≠ "/mcp" ∧ url ≠ "/health" ∧ url ≠ "/" := by
  refine ⟨?_, ?_, ?_⟩ <;> intro e <;> rw [e] at h <;> exact absurd h (by decide)

/-- A `POST` to a url under `/tools/` reaches the tools route. -/
theorem httpServer_tools (side : MergeSide) (hs : Handlers) (rt : Runtime) (req : HttpRequest)
    (hmethod : req.method = "POST") (hurl : "/tools/".data.isPrefixOf req.url.data = true) :
    httpServer side hs rt req = toolsRoute side hs rt (urlToolName req.url) req.body := by
  obtain ⟨h1, h2, h3⟩ := tools_url_ne req.url hurl
  have hopt : req.method ≠ "OPTIONS" := by rw [hmethod]; decide
  simp [httpServer, hopt, h1, h2, h3, hurl, hmethod]

/-- C11: a `POST /mcp` whose body `JSON.parse` rejects (the empty body is one)
is answered with HTTP 400 and the JSON-RPC error `-32700` under the id `0`; the
answer is the same for every table of handlers, so the dispatcher and the
handlers are not reached. -/
theorem httpServer_mcp_parse_error (side : MergeSide) (rt : Runtime)
    (req : HttpRequest) (e : JsError)
    (hurl : req.url = "/mcp") (hmethod : req.method = "POST")
    (hparse : rt.parse req.body = .error e) :
    ∀ hs2 : Handlers, httpServer side hs2 rt req =
      { status := 400,
        body := .obj [
          ("jsonrpc", .str "2.0"),
          ("id", .num 0),
          ("error", .obj [
            ("code", .num (-32700)),
            ("message", .str ("Parse error: " ++ e.toString))])] } := by
  intro hs2
  have hopt : req.method ≠ "OPTIONS" := by rw [hmethod]; decide
  simp [httpServer, hopt, hurl, hmethod, mcpRoute, hparse, bind, Except.bind]

/-- Witness of C11: the empty body. -/
theorem httpServer_mcp_parse_error_witness :
    httpServer .head (constHandlers fun _ => .error (.thrown "never called")) sampleRuntime
        { method := "POST", url := "/mcp", body := "" } =
      { status := 400,
        body := .obj [
          ("jsonrpc", .str "2.0"),
          ("id", .num 0),
          ("error", .obj [
            ("code", .num (-32700)),
            ("message", .str "Parse error: SyntaxError: Unexpected token in JSON")])] } :=
  httpServer_mcp_parse_error .head sampleRuntime
    { method := "POST", url := "/mcp", body := "" }
    (.thrown "SyntaxError: Unexpected token in JSON") rfl rfl rfl
    (constHandlers fun _ => .error (.thrown "never called"))

/-- C12 (as amended): for a name that is not a registry key and a body that is
empty or parses as JSON, `POST /tools/<name>` is answered with HTTP 404, an
`error` that names the tool and `available_tools` listing the registry keys in
order; the answer is the same for every table of handlers, so none is called.
The name is the part of the url that `split` takes after `/tools/`. -/
theorem httpServer_tool_not_found (side : MergeSide) (hs : Handlers) (rt : Runtime)
    (req : HttpRequest) (params : JsVal)
    (hmethod : req.method = "POST") (hurl : "/tools/".data.isPrefixOf req.url.data = true)
    (hmiss : urlToolName req.url ∉ (toolHandlers side hs).keys)
    (hparse : rt.parse (if req.body = "" then "\x7b\x7d" else req.body) = .ok params) :
    ∀ hs2 : Handlers, httpServer side hs2 rt req =
      { status := 404,
        body := .obj [
          ("error", .str ("Tool \x27" ++ urlToolName req.url ++ "\x27 not found")),
          ("available_tools", .arr ((toolHandlers side hs).keys.map JsVal.str))] } := by
  intro hs2
  have hnone : (toolHandlers side hs2).get (.str (urlToolName req.url)) = none :=
    JsMap.get_eq_none _ _ (by
      rw [toolHandlers_keys side hs2 hs]
      intro key hkey e
      exact hmiss (by rw [JsVal.str.inj e]; exact hkey))
  rw [httpServer_tools side hs2 rt req hmethod hurl]
  simp [toolsRoute, hparse, hnone, bind, Except.bind, pure, Except.pure, toolNames,
    toolHandlers_keys side hs2 hs]

/-- Witness of C12 (as amended): `scheme-tool` on the `HEAD` side, empty body. -/
theorem httpServer_tool_not_found_witness :
    httpServer .head (constHandlers fun _ => .error (.thrown "never called")) sampleRuntime
        { method := "POST", url := "/tools/scheme-tool", body := "" } =
      { status := 404,
        body := .obj [
          ("error", .str "Tool \x27scheme-tool\x27 not found"),
          ("available_tools", .arr [.str "crop-price", .str "search", .str "soil-health",
            .str "weather", .str "pest-identifier", .str "mandi-price"])] } :=
  httpServer_tool_not_found .head (constHandlers fun a => .ok a) sampleRuntime
    { method := "POST", url := "/tools/scheme-tool", body := "" } (.obj []) rfl rfl
    (by decide) rfl (constHandlers fun _ => .error (.thrown "never called"))

/-- Counterexample to C12 as stated: for the unregistered name `nope` and a
body that does not parse, the parse comes first and the answer is HTTP 400
without `available_tools`, not 404. -/
theorem httpServer_tool_not_found_bad_body :
    (httpServer .head (constHandlers fun a => .ok a) sampleRuntime
        { method := "POST", url := "/tools/nope", body := "\x7b" }).status = 400 ∧
      (httpServer .head (constHandlers fun a => .ok a) sampleRuntime
        { method := "POST", url := "/tools/nope", body := "\x7b" }).body.field?
          "available_tools" = none := by
  constructor <;> rfl

/-- C13: for a registered name and a body that is empty or parses as JSON,
`POST /tools/<name>` answers HTTP 200 with the very value the handler resolved
to, be it a `Success` or a `Failure`; nothing is wrapped around it. -/
theorem httpServer_tool_result (side : MergeSide) (hs : Handlers) (rt : Runtime)
    (req : HttpRequest) (handler : ToolHandler) (params result : JsVal)
    (hmethod : req.method = "POST") (hurl : "/tools/".data.isPrefixOf req.url.data = true)
    (hreg : (toolHandlers side hs).get (.str (urlToolName req.url)) = some handler)
    (hparse : rt.parse (if req.body = "" then "\x7b\x7d" else req.body) = .ok params)
    (hres : handler params = .ok result) :
    httpServer side hs rt req = { status := 200, body := result } := by
  rw [httpServer_tools side hs rt req hmethod hurl]
  simp [toolsRoute, hparse, hreg, hres, bind, Except.bind, pure, Except.pure]

/-- Witness of C13: the `weather` handler resolves to a `Failure`. -/
theorem httpServer_tool_result_witness :
    httpServer .head (constHandlers fun _ => .ok (failure (.str "boom"))) sampleRuntime
        { method := "POST", url := "/tools/weather", body := "\x7b\"location\": \"Pune\"\x7d" } =
      { status := 200, body := failure (.str "boom") } :=
  httpServer_tool_result .head (constHandlers fun _ => .ok (failure (.str "boom")))
    sampleRuntime
    { method := "POST", url := "/tools/weather", body := "\x7b\"location\": \"Pune\"\x7d" }
    (fun _ => .ok (failure (.str "boom"))) (.obj [("location", .str "Pune")])
    (failure (.str "boom")) rfl rfl rfl rfl rfl

/-- C14, evaluated where the handler of a registered name rejects with `e`:
the `catch` of the tools route answers HTTP 400 with the error
`Invalid request: ...`, while a handler that resolves to a `Failure` is
answered with HTTP 200. -/
theorem httpServer_tool_fault (side : MergeSide) (rt : Runtime) (e : JsError)
    (error : String) :
    httpServer side (constHandlers fun _ => .error e)
        { rt with parse := fun _ => .ok (.obj []) }
        { method := "POST", url := "/tools/weather", body := "" } =
      { status := 400,
        body := .obj [("error", .str ("Invalid request: " ++ e.toString))] } ∧
    httpServer side (constHandlers fun _ => .ok (failure (.str error)))
        { rt with parse := fun _ => .ok (.obj []) }
        { method := "POST", url := "/tools/weather", body := "" } =
      { status := 200, body := failure (.str error) } := by
  cases side <;> exact ⟨rfl, rfl⟩

/-- C15: the `tools` of the health endpoint are the registry keys in
registration order, and the `tools` of the root endpoint are one entry for
each registry key, in the same order, whose `endpoint` is `/tools/` followed by
the name; on both sides of the merge. -/
theorem diagnostics_list_registry (side : MergeSide) (hs : Handlers) (rt : Runtime)
    (body : String) :
    (httpServer side hs rt { method := "GET", url := "/health", body := body }).status = 200 ∧
      (httpServer side hs rt { method := "GET", url := "/health", body := body }).body.prop
          "tools" = .arr ((toolHandlers side hs).keys.map JsVal.str) ∧
      (httpServer side hs rt { method := "GET", url := "/", body := body }).status = 200 ∧
      (httpServer side hs rt { method := "GET", url := "/", body := body }).body.prop
          "tools" = .arr (rootTools side) ∧
      (rootTools side).map (fun entry => entry.prop "name") =
        (toolHandlers side hs).keys.map JsVal.str ∧
      (rootTools side).map (fun entry => entry.prop "endpoint") =
        (toolHandlers side hs).keys.map (fun key => JsVal.str ("/tools/" ++ key)) := by
  cases side <;> exact ⟨rfl, rfl, rfl, rfl, rfl, rfl⟩

/-- Away from the health and root urls, every request that is not `OPTIONS`,
`POST /mcp` or a `POST` under `/tools/` is answered with the generic 404. -/
theorem httpServer_not_found (side : MergeSide) (hs : Handlers) (rt : Runtime)
    (req : HttpRequest) (hopt : req.method ≠ "OPTIONS")
    (hmcp : ¬(req.url = "/mcp" ∧ req.method = "POST"))
    (hhealth : req.url ≠ "/health") (hroot : req.url ≠ "/")
    (htools : ¬("/tools/".data.isPrefixOf req.url.data = true ∧ req.method = "POST")) :
    httpServer side hs rt req =
      { status := 404, body := .obj [("error", .str "Not found")] } := by
  unfold httpServer
  rw [if_neg hopt, if_neg hmcp, if_neg hhealth, if_neg hroot, if_neg htools]

/-- C16, evaluated at `POST /health` and `POST /`: the two diagnostic routes
test the url only, so they answer HTTP 200 with their bodies instead of the
generic 404; `GET /mcp` and `GET /tools/weather` do get the 404. -/
theorem httpServer_post_diagnostics (side : MergeSide) (hs : Handlers) (rt : Runtime) :
    httpServer side hs rt { method := "POST", url := "/health", body := "" } =
        { status := 200, body := healthBody side rt } ∧
      httpServer side hs rt { method := "POST", url := "/", body := "" } =
        { status := 200, body := rootBody side } ∧
      httpServer side hs rt { method := "GET", url := "/mcp", body := "" } =
        { status := 404, body := .obj [("error", .str "Not found")] } ∧
      httpServer side hs rt { method := "GET", url := "/tools/weather", body := "" } =
        { status := 404, body := .obj [("error", .str "Not found")] } :=
  ⟨rfl, rfl, rfl, rfl⟩

/-! ## Properties of the handlers -/

theorem append_ne_empty (label text : String) (h : label ≠ "") : label ++ text ≠ "" := by
  intro e
  apply h
  have hlen : (label ++ text).length = 0 := by rw [e]; rfl
  rw [String.length_append] at hlen
  exact String.ext (List.eq_nil_of_length_eq_zero (by
    have : label.length = 0 := by omega
    exact this))

/-- A `try` block that returns a `Success` on its normal path, under a `catch`
that returns a labelled `Failure`, always yields a tool result. -/
theorem catchAs_isToolResult (label : String) (body : Except JsError JsVal)
    (hlabel : label ≠ "") :
    IsToolResult (catchAs label (do
      let data ← body
      pure (success data))) := by
  cases body with
  | ok data => exact Or.inl ⟨data, rfl⟩
  | error err => exact Or.inr ⟨label ++ err.toString, append_ne_empty _ _ hlabel, rfl⟩

/-- C18: without `DATAGOVIN_API_KEY` in the environment `cropPriceHandler`
resolves to the `Failure` that names the key, for every argument value
(`undefined` included) and whatever the upstream service would do, so the
handler does not throw and the request is never sent; likewise `searchHandler`
without `EXA_API_KEY`. -/
theorem handler_without_key (rt : Runtime) (params : JsVal)
    (up : String → JsVal → Except JsError JsVal) :
    (rt.env "DATAGOVIN_API_KEY" = none →
      cropPriceHandler { rt with cropPriceUpstream := up } params =
        .ok (failure (.str "Configuration error: DATAGOVIN_API_KEY not set in environment."))) ∧
    (rt.env "EXA_API_KEY" = none →
      searchHandler { rt with searchUpstream := up } params =
        .ok (failure (.str "Configuration error: EXA_API_KEY not set in environment."))) := by
  constructor
  · intro h
    simp [cropPriceHandler, h, catchAs, pure, Except.pure]
  · intro h
    simp [searchHandler, h, catchAs, pure, Except.pure]

/-- Witness of C18: no argument object and an upstream service that would
throw. -/
theorem handler_without_key_witness :
    cropPriceHandler sampleRuntime .undefined =
        .ok (failure (.str "Configuration error: DATAGOVIN_API_KEY not set in environment.")) ∧
      searchHandler sampleRuntime .undefined =
        .ok (failure (.str "Configuration error: EXA_API_KEY not set in environment.")) :=
  ⟨(handler_without_key sampleRuntime .undefined sampleRuntime.cropPriceUpstream).1 rfl,
    (handler_without_key sampleRuntime .undefined sampleRuntime.searchUpstream).2 rfl⟩

/-- C20: each simulated handler resolves to a tool result for every runtime
(clock, random source, engine builtins) and every argument value, `undefined`,
`null` and fields of any type included: its whole body is a `try` block whose
normal path returns a `Success` and whose `catch` returns a `Failure` with a
labelled, hence non-empty, error string.  For `schemeToolHandler` this holds
whatever `search_relief_schemes` is, in particular when it is `false`. -/
theorem simulated_handlers_resolve (rt : Runtime) (params : JsVal) :
    IsToolResult (soilHealthHandler rt params) ∧
      IsToolResult (weatherHandler rt params) ∧
      IsToolResult (pestIdentifierHandler rt params) ∧
      IsToolResult (mandiPriceHandler rt params) ∧
      IsToolResult (schemeToolHandler rt params) :=
  ⟨catchAs_isToolResult _ _ (by decide), catchAs_isToolResult _ _ (by decide),
    catchAs_isToolResult _ _ (by decide), catchAs_isToolResult _ _ (by decide),
    catchAs_isToolResult _ _ (by decide)⟩

/-- With no parameter supplied every soil parameter takes its default and the
health score is 100. -/
theorem soilHealthHandler_empty (rt : Runtime) :
    ∃ data, soilHealthHandler rt (.obj []) = .ok (success data) ∧
      (data.prop "analysis").prop "health_score" = .num 100 := by
  refine ⟨_, rfl, ?_⟩
  simp [JsVal.prop, List.lookup, JsVal.orElse, JsVal.truthy, JsVal.optProp, JsVal.isNullish]
  norm_num [healthScore, phScore, bandScore, JsNumber.ge, JsNumber.le, JsNumber.lt]

/-- C19: on a `POST` under `/tools/` the empty body is replaced by the text of
the empty object before it is parsed, so the answer is that of the same request
with the two-character body of the empty object; where the engine parses that
text to the empty object, the handler of a registered name is called with the
empty object and its outcome decides the answer.  For `soil-health` with the
handlers of the server the answer is HTTP 200 with a `Success` whose
`health_score` is 100. -/
theorem httpServer_empty_body (side : MergeSide) (hs : Handlers) (rt : Runtime)
    (url : String) (handler : ToolHandler)
    (hurl : "/tools/".data.isPrefixOf url.data = true)
    (hreg : (toolHandlers side hs).get (.str (urlToolName url)) = some handler)
    (hparse : rt.parse "\x7b\x7d" = .ok (.obj [])) :
    httpServer side hs rt { method := "POST", url := url, body := "" } =
        httpServer side hs rt { method := "POST", url := url, body := "\x7b\x7d" } ∧
      httpServer side hs rt { method := "POST", url := url, body := "" } =
        (match handler (.obj []) with
          | .ok result => { status := 200, body := result }
          | .error e =>
            { status := 400,
              body := .obj [("error", .str ("Invalid request: " ++ e.toString))] }) ∧
      ∃ data,
        httpServer side (serverHandlers rt) rt
            { method := "POST", url := "/tools/soil-health", body := "" } =
          { status := 200, body := success data } ∧
        (data.prop "analysis").prop "health_score" = .num 100 := by
  refine ⟨?_, ?_, ?_⟩
  · rw [httpServer_tools side hs rt _ rfl hurl, httpServer_tools side hs rt _ rfl hurl]
    simp [toolsRoute]
  · rw [httpServer_tools side hs rt _ rfl hurl]
    simp only [toolsRoute, if_true, hparse, hreg, bind, Except.bind, pure, Except.pure]
    cases handler (.obj []) <;> rfl
  · obtain ⟨data, hdata, hscore⟩ := soilHealthHandler_empty rt
    refine ⟨data, ?_, hscore⟩
    have hreg2 : (toolHandlers side (serverHandlers rt)).get
        (.str (urlToolName "/tools/soil-health")) = some (soilHealthHandler rt) := by
      cases side <;> rfl
    rw [httpServer_tools side (serverHandlers rt) rt
      { method := "POST", url := "/tools/soil-health", body := "" } rfl rfl]
    simp [toolsRoute, hparse, hreg2, hdata, bind, Except.bind, pure, Except.pure]

/-- Witness of C19: `soil-health` among the handlers of the server. -/
theorem httpServer_empty_body_witness :
    httpServer .incoming (serverHandlers sampleRuntime) sampleRuntime
        { method := "POST", url := "/tools/soil-health", body := "" } =
      httpServer .incoming (serverHandlers sampleRuntime) sampleRuntime
        { method := "POST", url := "/tools/soil-health", body := "\x7b\x7d" } :=
  (httpServer_empty_body .incoming (serverHandlers sampleRuntime) sampleRuntime
    "/tools/soil-health" (soilHealthHandler sampleRuntime) rfl rfl rfl).1

/-! ### The price history of `mandiPriceHandler` -/

theorem collect_ok {α β : Type} (f : α → Except JsError β) (xs : List α)
    (h : ∀ a ∈ xs, ∃ b, f a = .ok b) :
    ∃ bs, collect f xs = .ok bs ∧ bs.length = xs.length := by
  induction xs with
  | nil => exact ⟨[], rfl, rfl⟩
  | cons a rest ih =>
    obtain ⟨b, hb⟩ := h a (List.mem_cons_self _ _)
    obtain ⟨bs, hbs, hlen⟩ := ih (fun x hx => h x (List.mem_cons_of_mem _ hx))
    exact ⟨b :: bs, by simp [collect, hb, hbs], by simp [hlen]⟩

theorem paramOf_of_str (params : JsVal) (first key : String) (s : String)
    (h : params.prop first = .str s) : paramOf params first key = .ok (params.prop key) := by
  cases params <;> simp_all [paramOf, JsVal.destructure, JsVal.prop]

theorem pricePointAt_ok (rt : Runtime) (commodityPrice : JsNumber) (n : Nat) (district : JsVal)
    (k : Nat) (hk : k ≤ n)
    (hdates : ∀ j : Int, -(n : Int) ≤ j → j ≤ 7 → ∃ day, isoDayAt rt (.finite j) = .ok day)
    (hdistrict : ∃ s, (district.orElse (.str "Local")).toStr = .ok s) :
    ∃ p, pricePointAt rt commodityPrice (.finite n) district k = .ok p := by
  obtain ⟨day, hday⟩ := hdates ((k : Int) - n) (by omega) (by omega)
  obtain ⟨place, hplace⟩ := hdistrict
  have hoff : ((JsNumber.finite (n : ℚ)).sub (.finite (k : ℚ))).neg =
      .finite (((k : Int) - (n : Int) : Int) : ℚ) := by
    simp only [JsNumber.sub, JsNumber.neg, JsNumber.add]
    congr 1
    push_cast
    ring
  simp only [pricePointAt, hoff, hday, hplace, bind, Except.bind, pure, Except.pure]
  exact ⟨_, rfl⟩

theorem predictions_ok (rt : Runtime) (lastPrice : JsNumber) (trendFactor : ℚ) (n : Nat)
    (hdates : ∀ j : Int, -(n : Int) ≤ j → j ≤ 7 → ∃ day, isoDayAt rt (.finite j) = .ok day) :
    ∃ ps, collect (predictionAt rt lastPrice trendFactor) [1, 2, 3, 4, 5, 6, 7] = .ok ps := by
  obtain ⟨ps, hps, _⟩ := collect_ok (predictionAt rt lastPrice trendFactor) [1, 2, 3, 4, 5, 6, 7]
    (by
      intro i hi
      obtain ⟨day, hday⟩ := hdates (i : Int) (by omega) (by
        simp at hi
        omega)
      have hcast : ((i : Int) : ℚ) = (i : ℚ) := by simp
      rw [hcast] at hday
      simp [predictionAt, hday, bind, Except.bind, pure, Except.pure])
  exact ⟨ps, hps⟩


theorem collect_error_head {α β : Type} (f : α → Except JsError β) (a : α) (rest : List α)
    (e : JsError) (h : f a = .error e) : collect f (a :: rest) = .error e := by
  simp [collect, h]

theorem lastItems_length {α : Type} (n : Nat) (xs : List α) :
    (lastItems n xs).length = min xs.length n := by
  simp [lastItems]
  omega

theorem lastPriceOf_ok (history : List PricePoint) (h : 0 < history.length) :
    ∃ p, lastPriceOf history = .ok p := by
  cases hl : history.getLast? with
  | none =>
    rw [List.getLast?_eq_none_iff] at hl
    rw [hl] at h
    exact absurd h (by simp)
  | some p => exact ⟨p.price, by simp [lastPriceOf, hl]⟩

theorem pricePredictions_ok (rt : Runtime) (include_predictions : JsVal)
    (history : List PricePoint) (trend : String) (n : Nat) (h : 0 < history.length)
    (hdates : ∀ j : Int, -(n : Int) ≤ j → j ≤ 7 → ∃ day, isoDayAt rt (.finite j) = .ok day) :
    ∃ ps, pricePredictions rt include_predictions history trend = .ok ps := by
  obtain ⟨last, hlast⟩ := lastPriceOf_ok history h
  unfold pricePredictions
  split
  · simp only [hlast, bind, Except.bind]
    exact predictions_ok rt last _ n hdates
  · exact ⟨[], rfl⟩

/-- C17 (as amended): for a non-empty commodity string `c` and `days_back`
omitted (30) or an integer `n` from 0 upwards, such that every date of the
history and of the predictions is a valid date, the district and state print
in a template literal, and the `n + 1` prices fit in one spread call:
`mandiPriceHandler` resolves to a `Success` whose `commodity` is `c` unchanged
and whose `price_history` has 14 entries from `n = 13` upwards and `n + 1`
entries below, for every outcome of the random source. -/
theorem mandiPriceHandler_history (rt : Runtime) (params : JsVal) (c : String) (n : Nat)
    (hc : params.prop "commodity" = .str c) (hne : c ≠ "")
    (hdays : (params.prop "days_back" = .undefined ∧ n = 30) ∨
      params.prop "days_back" = .num n)
    (hdates : ∀ j : Int, -(n : Int) ≤ j → j ≤ 7 → ∃ day, isoDayAt rt (.finite j) = .ok day)
    (hdistrict : ∃ s, ((params.prop "district").orElse (.str "Local")).toStr = .ok s)
    (hstate : ∃ s, ((params.prop "state").orElse (.str "State")).toStr = .ok s)
    (hspread : n + 1 ≤ rt.spreadLimit) :
    ∃ data history, mandiPriceHandler rt params = .ok (success data) ∧
      data.prop "commodity" = .str c ∧
      data.prop "price_history" = .arr history ∧
      history.length = if 13 ≤ n then 14 else n + 1 := by
  have hparam := paramOf_of_str params "commodity" "commodity" c hc
  rw [hc] at hparam
  have hdb : (params.prop "days_back").withDefault (.num 30) = .num n := by
    rcases hdays with ⟨h, hn⟩ | h
    · rw [h, hn]; rfl
    · rw [h]; rfl
  obtain ⟨history, hhist, hlen⟩ := collect_ok
    (pricePointAt rt (commodityPriceOf (keyOf (.str (rt.toLowerCase c)))) (.finite n)
      (params.prop "district")) (List.range (n + 1))
    (fun k hk => pricePointAt_ok rt _ n _ k (by
      rw [List.mem_range] at hk
      omega) hdates hdistrict)
  rw [List.length_range] at hlen
  obtain ⟨last, hlast⟩ := lastPriceOf_ok history (by omega)
  obtain ⟨ps, hps⟩ := pricePredictions_ok rt
    ((params.prop "include_predictions").withDefault (.bool true)) history
    (priceTrend (history.map PricePoint.price)) n (by omega) hdates
  obtain ⟨place, hplace⟩ := hdistrict
  obtain ⟨stateName, hstateName⟩ := hstate
  have hcount : countDown (.finite (n : ℚ)) = n + 1 := by
    simp [countDown]
  have hnum : (JsVal.num (n : Int)).toNumber rt = .ok (.finite (n : ℚ)) := by
    simp [JsVal.toNumber]
  have hsp : ¬ rt.spreadLimit < (history.map PricePoint.price).length := by
    rw [List.length_map, hlen]
    omega
  have htruthy : (JsVal.str c).truthy = true := by
    simp [JsVal.truthy, hne]
  simp only [mandiPriceHandler, mandiPriceData, hparam, lowerCased, hdb, hnum, hcount, hhist,
    hlast, hps, hplace, hstateName, spreadFold, hsp, if_false,
    bind, Except.bind, pure, Except.pure, catchAs]
  refine ⟨_, (lastItems 14 history).map PricePoint.toVal, rfl, ?_, ?_, ?_⟩
  · simp [JsVal.prop, List.lookup, JsVal.orElse, htruthy]
  · simp [JsVal.prop, List.lookup]
  · rw [List.length_map, lastItems_length, hlen]
    split <;> omega


/-- Witness of C17 (as amended): `wheat` with `days_back` omitted. -/
theorem mandiPriceHandler_history_witness :
    ∃ data history,
      mandiPriceHandler sampleRuntime (.obj [("commodity", .str "wheat")]) =
        .ok (success data) ∧
      data.prop "commodity" = .str "wheat" ∧
      data.prop "price_history" = .arr history ∧
      history.length = 14 := by
  obtain ⟨data, history, h1, h2, h3, h4⟩ :=
    mandiPriceHandler_history sampleRuntime (.obj [("commodity", .str "wheat")]) "wheat" 30
      rfl (by decide) (Or.inl ⟨rfl, rfl⟩)
      (by
        intro j h1 h2
        refine ⟨"2025-01-15", ?_⟩
        have hj : |(j : ℚ)| ≤ 30 := by
          rw [abs_le]
          exact ⟨by exact_mod_cast h1, by exact_mod_cast (show j ≤ 30 by omega)⟩
        have hnot : ¬ ((dateHorizon : ℚ) < |(j : ℚ)|) := by
          simp only [dateHorizon]
          push_cast
          linarith
        simp only [isoDayAt, if_neg hnot]
        rfl)
      ⟨"Local", rfl⟩ ⟨"State", rfl⟩ (by decide)
  exact ⟨data, history, h1, h2, h3, by simpa using h4⟩

/-- Beyond the calendar: when `days_back` exceeds the date horizon, the first
pass of the history loop asks for the text of an invalid date, and the handler
resolves to a `Failure`. -/
theorem mandiPriceHandler_beyond_calendar (rt : Runtime) (params : JsVal) (c : String)
    (n : Nat) (hc : params.prop "commodity" = .str c)
    (hd : params.prop "days_back" = .num n) (h : dateHorizon < n) :
    mandiPriceHandler rt params =
      .ok (failure (.str "Mandi price tracking error: RangeError: Invalid time value")) := by
  have hparam := paramOf_of_str params "commodity" "commodity" c hc
  rw [hc] at hparam
  have hcount : countDown (.finite (n : ℚ)) = n + 1 := by
    simp [countDown]
  have hnum : (JsVal.num (n : Int)).toNumber rt = .ok (.finite (n : ℚ)) := by
    simp [JsVal.toNumber]
  have hfirst : ∀ commodityPrice district,
      pricePointAt rt commodityPrice (.finite (n : ℚ)) district 0 =
        .error (.thrown "RangeError: Invalid time value") := by
    intro commodityPrice district
    have hoff : ((JsNumber.finite (n : ℚ)).sub (.finite ((0 : Nat) : ℚ))).neg =
        .finite (-(n : ℚ)) := by
      simp [JsNumber.sub, JsNumber.neg, JsNumber.add]
    have hfar : (dateHorizon : ℚ) < |(-(n : ℚ))| := by
      rw [abs_neg, abs_of_nonneg (by positivity)]
      exact_mod_cast h
    simp only [pricePointAt, hoff, isoDayAt, if_pos hfar, bind, Except.bind]
  have hloop : ∀ commodityPrice district,
      collect (pricePointAt rt commodityPrice (.finite (n : ℚ)) district) (List.range (n + 1)) =
        .error (.thrown "RangeError: Invalid time value") := by
    intro commodityPrice district
    rw [List.range_succ_eq_map]
    exact collect_error_head _ _ _ _ (hfirst commodityPrice district)
  simp only [mandiPriceHandler, mandiPriceData, hparam, lowerCased, hd, JsVal.withDefault, hnum,
    hcount, hloop, bind, Except.bind, catchAs]
  rfl

/-- Counterexample to C17 as stated: `days_back` one thousand million is an
integer above 13 and the commodity is not empty, yet the handler resolves to a
`Failure`, since no date lies that many days before the current one. -/
theorem mandiPriceHandler_far_days_back :
    mandiPriceHandler sampleRuntime
        (.obj [("commodity", .str "wheat"), ("days_back", .num 1000000000)]) =
      .ok (failure (.str "Mandi price tracking error: RangeError: Invalid time value")) :=
  mandiPriceHandler_beyond_calendar sampleRuntime _ "wheat" 1000000000 rfl rfl (by decide)

/-! ### The forecast of `weatherHandler` -/

theorem paramOf_of_not_nullish (params : JsVal) (first key : String)
    (h : params.isNullish = false) : paramOf params first key = .ok (params.prop key) := by
  cases params <;> simp_all [paramOf, JsVal.destructure, JsVal.isNullish]

/-- The forecast has one entry for each day below `days`, as long as the dates
are valid: the loop has no other bound. -/
theorem weatherHandler_forecast (rt : Runtime) (params : JsVal) (n : Nat)
    (hparams : params.isNullish = false)
    (hdays : (params.prop "days").withDefault (.num 7) = .num n)
    (hdates : ∀ i : Nat, i < n → ∃ day, isoDayAt rt (.finite i) = .ok day) :
    ∃ data forecast, weatherHandler rt params = .ok (success data) ∧
      data.prop "forecast" = .arr forecast ∧ forecast.length = n := by
  obtain ⟨forecast, hforecast, hlen⟩ := collect_ok (weatherDayAt rt) (List.range n)
    (fun i hi => by
      obtain ⟨day, hday⟩ := hdates i (List.mem_range.mp hi)
      simp only [weatherDayAt, hday, bind, Except.bind, pure, Except.pure]
      exact ⟨_, rfl⟩)
  rw [List.length_range] at hlen
  have hcount : countBelow (.finite (n : ℚ)) = n := by
    simp [countBelow]
  have hnum : (JsVal.num (n : Int)).toNumber rt = .ok (.finite (n : ℚ)) := by
    simp [JsVal.toNumber]
  simp only [weatherHandler, weatherData, paramOf_of_not_nullish _ _ _ hparams, hdays, hnum,
    hcount, hforecast, bind, Except.bind, pure, Except.pure, catchAs]
  refine ⟨_, forecast.map WeatherDay.toVal, rfl, ?_, ?_⟩
  · simp [JsVal.prop, List.lookup]
  · rw [List.length_map, hlen]

/-- C21, evaluated at `days` 15 on any day of the calendar: the loop runs to
`days` whatever the schema says of a maximum, so the forecast has 15 entries,
more than 14; with `days` omitted it has 7. -/
theorem weatherHandler_forecast_unbounded (rt : Runtime) (day : String) (location : JsVal) :
    (∃ data forecast,
      weatherHandler { rt with isoDay := fun _ => .ok day }
          (.obj [("location", location), ("days", .num 15)]) = .ok (success data) ∧
        data.prop "forecast" = .arr forecast ∧ forecast.length = 15) ∧
    (∃ data forecast,
      weatherHandler { rt with isoDay := fun _ => .ok day }
          (.obj [("location", location)]) = .ok (success data) ∧
        data.prop "forecast" = .arr forecast ∧ forecast.length = 7) := by
  have hdates : ∀ n : Nat, n ≤ 15 → ∀ i : Nat, i < n →
      ∃ d, isoDayAt { rt with isoDay := fun _ => .ok day } (.finite i) = .ok d := by
    intro n hn i hi
    refine ⟨day, ?_⟩
    have hnot : ¬ ((dateHorizon : ℚ) < |(i : ℚ)|) := by
      rw [abs_of_nonneg (by positivity)]
      simp only [dateHorizon]
      push_cast
      have : (i : ℚ) < 15 := by exact_mod_cast (by omega : i < 15)
      linarith
    simp only [isoDayAt, if_neg hnot]
  constructor
  · exact weatherHandler_forecast _ _ 15 rfl (by
      simp [JsVal.prop, List.lookup, JsVal.withDefault]) (hdates 15 (by omega))
  · exact weatherHandler_forecast _ _ 7 rfl (by
      simp [JsVal.prop, List.lookup, JsVal.withDefault]) (hdates 7 (by omega))

/-! ### The predictions of `mandiPriceHandler` -/

theorem catchAs_success_inv (label : String) (body : Except JsError JsVal) (data : JsVal)
    (h : catchAs label (do
      let d ← body
      pure (success d)) = .ok (success data)) : body = .ok data := by
  cases body with
  | ok d =>
    simp only [catchAs, bind, Except.bind, pure, Except.pure, Except.ok.injEq, success,
      JsVal.obj.injEq, List.cons.injEq, Prod.mk.injEq, true_and, and_true] at h
    rw [h]
  | error e =>
    simp [catchAs, bind, Except.bind, failure, success] at h

theorem collect_map {α β γ : Type} (f : α → Except JsError β) (g : β → γ) (k : α → γ)
    (hf : ∀ a b, f a = .ok b → g b = k a) (xs : List α) (bs : List β)
    (h : collect f xs = .ok bs) : bs.map g = xs.map k := by
  induction xs generalizing bs with
  | nil =>
    simp only [collect, Except.ok.injEq] at h
    rw [← h]; rfl
  | cons a rest ih =>
    simp only [collect] at h
    split at h
    · contradiction
    · rename_i b hb
      split at h
      · contradiction
      · rename_i bs2 hbs2
        simp only [Except.ok.injEq] at h
        rw [← h, List.map_cons, List.map_cons, hf a b hb, ih bs2 hbs2]

theorem mandiPriceData_predictions (rt : Runtime) (params data : JsVal)
    (h : mandiPriceData rt params = .ok data) :
    ∃ history preds,
      pricePredictions rt ((params.prop "include_predictions").withDefault (.bool true))
        history (priceTrend (history.map PricePoint.price)) = .ok preds ∧
      data.prop "predictions" = .arr preds := by
  simp only [mandiPriceData, bind, Except.bind, pure, Except.pure] at h
  repeat' split at h
  all_goals first
    | contradiction
    | (cases h; exact ⟨_, _, ‹_›, rfl⟩)

theorem predictionAt_confidence (rt : Runtime) (lastPrice : JsNumber) (trendFactor : ℚ)
    (i : Nat) (entry : JsVal) (h : predictionAt rt lastPrice trendFactor i = .ok entry) :
    entry.prop "confidence" = .num (Max.max (60 - (i : Int) * 5) 30) := by
  simp only [predictionAt, bind, Except.bind, pure, Except.pure] at h
  split at h
  · contradiction
  · cases h
    rfl

theorem pricePredictions_confidence (rt : Runtime) (include_predictions : JsVal)
    (history : List PricePoint) (trend : String) (preds : List JsVal)
    (h : pricePredictions rt include_predictions history trend = .ok preds) :
    (include_predictions.truthy = true →
      preds.map (fun entry => entry.prop "confidence") =
        [1, 2, 3, 4, 5, 6, 7].map fun i : Nat => JsVal.num (Max.max (60 - (i : Int) * 5) 30)) ∧
    (include_predictions.truthy = false → preds = []) := by
  unfold pricePredictions at h
  constructor
  · intro ht
    simp only [ht, if_true, bind, Except.bind] at h
    split at h
    · contradiction
    · exact collect_map _ _ _ (predictionAt_confidence rt _ _) _ _ h
  · intro hf
    simp only [hf, Bool.false_eq_true, if_false, pure, Except.pure, Except.ok.injEq] at h
    exact h.symm

/-- The handler succeeds wherever the dates of the loop are valid, the names
print and the prices fit in one spread call. -/
theorem mandiPriceHandler_ok (rt : Runtime) (params : JsVal) (c : String) (n : Nat)
    (hc : params.prop "commodity" = .str c)
    (hdays : (params.prop "days_back").withDefault (.num 30) = .num n)
    (hdates : ∀ j : Int, -(n : Int) ≤ j → j ≤ 7 → ∃ day, isoDayAt rt (.finite j) = .ok day)
    (hdistrict : ∃ s, ((params.prop "district").orElse (.str "Local")).toStr = .ok s)
    (hstate : ∃ s, ((params.prop "state").orElse (.str "State")).toStr = .ok s)
    (hspread : n + 1 ≤ rt.spreadLimit) :
    ∃ data, mandiPriceHandler rt params = .ok (success data) := by
  have hparam := paramOf_of_str params "commodity" "commodity" c hc
  rw [hc] at hparam
  obtain ⟨history, hhist, hlen⟩ := collect_ok
    (pricePointAt rt (commodityPriceOf (keyOf (.str (rt.toLowerCase c)))) (.finite n)
      (params.prop "district")) (List.range (n + 1))
    (fun k hk => pricePointAt_ok rt _ n _ k (by
      rw [List.mem_range] at hk
      omega) hdates hdistrict)
  rw [List.length_range] at hlen
  obtain ⟨last, hlast⟩ := lastPriceOf_ok history (by omega)
  obtain ⟨ps, hps⟩ := pricePredictions_ok rt
    ((params.prop "include_predictions").withDefault (.bool true)) history
    (priceTrend (history.map PricePoint.price)) n (by omega) hdates
  obtain ⟨place, hplace⟩ := hdistrict
  obtain ⟨stateName, hstateName⟩ := hstate
  have hcount : countDown (.finite (n : ℚ)) = n + 1 := by
    simp [countDown]
  have hnum : (JsVal.num (n : Int)).toNumber rt = .ok (.finite (n : ℚ)) := by
    simp [JsVal.toNumber]
  have hsp : ¬ rt.spreadLimit < (history.map PricePoint.price).length := by
    rw [List.length_map, hlen]
    omega
  simp only [mandiPriceHandler, mandiPriceData, hparam, lowerCased, hdays, hnum, hcount, hhist,
    hlast, hps, hplace, hstateName, spreadFold, hsp, if_false,
    bind, Except.bind, pure, Except.pure, catchAs]
  exact ⟨_, rfl⟩

/-- The sample runtime gives a date to every offset within the horizon. -/
theorem sampleRuntime_dates (n : Nat) (hn : n ≤ 1000) (j : Int) (h1 : -(n : Int) ≤ j)
    (h2 : j ≤ 7) : ∃ day, isoDayAt sampleRuntime (.finite j) = .ok day := by
  refine ⟨"2025-01-15", ?_⟩
  have hj : |(j : ℚ)| ≤ 1000 := by
    rw [abs_le]
    exact ⟨by exact_mod_cast (show -1000 ≤ j by omega),
      by exact_mod_cast (show j ≤ 1000 by omega)⟩
  have hnot : ¬ ((dateHorizon : ℚ) < |(j : ℚ)|) := by
    simp only [dateHorizon]
    push_cast
    linarith
  simp only [isoDayAt, if_neg hnot]
  rfl

/-- C22: in every `Success` of `mandiPriceHandler`, when `include_predictions`
is truthy after its default (`true` or omitted in particular) `predictions`
has seven entries, the entry of day `i` with confidence `max(60 - 5 i, 30)`;
when it is falsy (`false` in particular) `predictions` is empty.  The seven
confidences never increase and lie within 30 to 55. -/
theorem mandiPriceHandler_predictions (rt : Runtime) (params data : JsVal)
    (h : mandiPriceHandler rt params = .ok (success data)) :
    (((params.prop "include_predictions").withDefault (.bool true)).truthy = true →
      ∃ preds, data.prop "predictions" = .arr preds ∧ preds.length = 7 ∧
        preds.map (fun entry => entry.prop "confidence") =
          [1, 2, 3, 4, 5, 6, 7].map
            fun i : Nat => JsVal.num (Max.max (60 - (i : Int) * 5) 30)) ∧
    (((params.prop "include_predictions").withDefault (.bool true)).truthy = false →
      data.prop "predictions" = .arr []) ∧
    List.Pairwise (fun a b : Int => b ≤ a)
      ([1, 2, 3, 4, 5, 6, 7].map fun i : Nat => Max.max (60 - (i : Int) * 5) 30) ∧
    ∀ v ∈ [1, 2, 3, 4, 5, 6, 7].map fun i : Nat => Max.max (60 - (i : Int) * 5) 30,
      (30 : Int) ≤ v ∧ v ≤ 55 := by
  obtain ⟨history, preds, hpreds, hdata⟩ := mandiPriceData_predictions rt params data
    (catchAs_success_inv _ _ data h)
  obtain ⟨hon, hoff⟩ := pricePredictions_confidence rt _ _ _ _ hpreds
  refine ⟨fun ht => ⟨preds, hdata, ?_, hon ht⟩, fun hf => ?_, by decide, by decide⟩
  · have hlen := congrArg List.length (hon ht)
    simpa using hlen
  · rw [hdata, hoff hf]

/-- Witness of C22: `wheat` with every default. -/
theorem mandiPriceHandler_predictions_witness :
    ∃ data preds,
      mandiPriceHandler sampleRuntime (.obj [("commodity", .str "wheat")]) =
        .ok (success data) ∧
      data.prop "predictions" = .arr preds ∧ preds.length = 7 := by
  obtain ⟨data, hdata⟩ := mandiPriceHandler_ok sampleRuntime
    (.obj [("commodity", .str "wheat")]) "wheat" 30 rfl rfl
    (sampleRuntime_dates 30 (by omega)) ⟨"Local", rfl⟩ ⟨"State", rfl⟩ (by decide)
  obtain ⟨preds, hp, hlen, _⟩ :=
    (mandiPriceHandler_predictions sampleRuntime _ data hdata).1 rfl
  exact ⟨data, preds, hdata, hp, hlen⟩

/-! ### The score of `soilHealthHandler` -/

theorem bandScore_mem (x : JsNumber) (high low : ℚ) (best good poor : Nat) :
    bandScore x high low best good poor = best ∨ bandScore x high low best good poor = good ∨
      bandScore x high low best good poor = poor := by
  unfold bandScore
  split
  · exact Or.inl rfl
  · split
    · exact Or.inr (Or.inl rfl)
    · exact Or.inr (Or.inr rfl)

theorem phScore_mem (ph : JsNumber) : phScore ph = 25 ∨ phScore ph = 15 ∨ phScore ph = 5 := by
  unfold phScore
  split
  · exact Or.inl rfl
  · split
    · exact Or.inr (Or.inl rfl)
    · exact Or.inr (Or.inr rfl)

/-- The sum of the five band scores lies between 23 and 100. -/
theorem healthScore_range (ph nitrogen phosphorus potassium organic : JsNumber) :
    23 ≤ healthScore ph nitrogen phosphorus potassium organic ∧
      healthScore ph nitrogen phosphorus potassium organic ≤ 100 := by
  unfold healthScore
  have h1 := phScore_mem ph
  have h2 := bandScore_mem nitrogen 280 200 20 15 5
  have h3 := bandScore_mem phosphorus 20 15 20 15 5
  have h4 := bandScore_mem potassium 280 200 20 15 5
  have h5 := bandScore_mem organic (3 / 4) (1 / 2) 15 10 3
  omega

/-- The cap `Math.min(healthScore, 100)` leaves the score as it is. -/
theorem healthScore_capped (ph nitrogen phosphorus potassium organic : JsNumber) :
    JsVal.num ((Nat.min (healthScore ph nitrogen phosphorus potassium organic) 100 : Nat) : Int) =
      .num (healthScore ph nitrogen phosphorus potassium organic : Nat) := by
  have hle := (healthScore_range ph nitrogen phosphorus potassium organic).2
  have hmin : Nat.min (healthScore ph nitrogen phosphorus potassium organic) 100 =
      healthScore ph nitrogen phosphorus potassium organic := Nat.min_eq_left hle
  rw [hmin]

/-- What a `Success` of `soilHealthHandler` holds: the score, the
recommendations and the crops of the five converted readings. -/
theorem soilHealthData_inv (rt : Runtime) (params data : JsVal)
    (h : soilHealthData rt params = .ok data) :
    ∃ ph nitrogen phosphorus potassium organic : JsNumber,
      ((params.prop "ph_level").orElse (.nonInt (.finite (13 / 2)))).toNumber rt = .ok ph ∧
      (((params.prop "npk_values").optProp "nitrogen").orElse (.num 280)).toNumber rt =
        .ok nitrogen ∧
      (((params.prop "npk_values").optProp "phosphorus").orElse (.num 23)).toNumber rt =
        .ok phosphorus ∧
      (((params.prop "npk_values").optProp "potassium").orElse (.num 280)).toNumber rt =
        .ok potassium ∧
      ((params.prop "organic_content").orElse (.nonInt (.finite (3 / 4)))).toNumber rt =
        .ok organic ∧
      (data.prop "analysis").prop "health_score" =
        .num (healthScore ph nitrogen phosphorus potassium organic : Nat) ∧
      (data.prop "analysis").prop "recommendations" =
        .arr ((soilRecommendations ph nitrogen phosphorus potassium organic).map JsVal.str) := by
  simp only [soilHealthData, bind, Except.bind, pure, Except.pure] at h
  repeat' split at h
  all_goals first
    | contradiction
    | (cases h
       exact ⟨_, _, _, _, _, ‹_›, ‹_›, ‹_›, ‹_›, ‹_›, healthScore_capped _ _ _ _ _, rfl⟩)

theorem toNumber_orElse_numeric (rt : Runtime) (v fallback : JsVal) (hv : IsNumericInput v)
    (hf : fallback.isNumber = true) : ∃ x, (v.orElse fallback).toNumber rt = .ok x := by
  have hnum : ∀ w : JsVal, w.isNumber = true → ∃ x, w.toNumber rt = .ok x := by
    intro w hw
    cases w <;> simp_all [JsVal.isNumber, JsVal.toNumber]
  by_cases ht : v.truthy = true
  · rcases hv with hv | hv
    · subst hv
      simp [JsVal.truthy] at ht
    · simp only [JsVal.orElse, ht, if_true]
      exact hnum v hv
  · simp only [JsVal.orElse, ht, Bool.false_eq_true, if_false]
    exact hnum fallback hf

/-- With numbers (or nothing) for the five readings the handler succeeds. -/
theorem soilHealthHandler_numeric (rt : Runtime) (params : JsVal)
    (hparams : params.isNullish = false)
    (hph : IsNumericInput (params.prop "ph_level"))
    (hn : IsNumericInput ((params.prop "npk_values").optProp "nitrogen"))
    (hp : IsNumericInput ((params.prop "npk_values").optProp "phosphorus"))
    (hk : IsNumericInput ((params.prop "npk_values").optProp "potassium"))
    (ho : IsNumericInput (params.prop "organic_content")) :
    ∃ data, soilHealthData rt params = .ok data := by
  obtain ⟨ph, h1⟩ := toNumber_orElse_numeric rt _ (.nonInt (.finite (13 / 2))) hph rfl
  obtain ⟨nitrogen, h2⟩ := toNumber_orElse_numeric rt _ (.num 280) hn rfl
  obtain ⟨phosphorus, h3⟩ := toNumber_orElse_numeric rt _ (.num 23) hp rfl
  obtain ⟨potassium, h4⟩ := toNumber_orElse_numeric rt _ (.num 280) hk rfl
  obtain ⟨organic, h5⟩ := toNumber_orElse_numeric rt _ (.nonInt (.finite (3 / 4))) ho rfl
  simp only [soilHealthData, paramOf_of_not_nullish _ _ _ hparams, h1, h2, h3, h4, h5,
    bind, Except.bind, pure, Except.pure]
  exact ⟨_, rfl⟩

theorem soilHealthHandler_of_data (rt : Runtime) (params data : JsVal)
    (h : soilHealthData rt params = .ok data) :
    soilHealthHandler rt params = .ok (success data) := by
  simp only [soilHealthHandler, h, bind, Except.bind, pure, Except.pure, catchAs]

/-- C23: for numeric readings (each a number or absent) `soilHealthHandler`
succeeds and its `health_score` is the sum `healthScore` of the five band
scores of the readings, a number between 23 and 100 that the cap
`Math.min(score, 100)` leaves as it is; with no parameter supplied it is 100. -/
theorem soilHealthHandler_score (rt : Runtime) (params : JsVal)
    (hparams : params.isNullish = false)
    (hph : IsNumericInput (params.prop "ph_level"))
    (hn : IsNumericInput ((params.prop "npk_values").optProp "nitrogen"))
    (hp : IsNumericInput ((params.prop "npk_values").optProp "phosphorus"))
    (hk : IsNumericInput ((params.prop "npk_values").optProp "potassium"))
    (ho : IsNumericInput (params.prop "organic_content")) :
    (∃ data, ∃ ph nitrogen phosphorus potassium organic : JsNumber,
      soilHealthHandler rt params = .ok (success data) ∧
      ((params.prop "ph_level").orElse (.nonInt (.finite (13 / 2)))).toNumber rt = .ok ph ∧
      (((params.prop "npk_values").optProp "nitrogen").orElse (.num 280)).toNumber rt =
        .ok nitrogen ∧
      (((params.prop "npk_values").optProp "phosphorus").orElse (.num 23)).toNumber rt =
        .ok phosphorus ∧
      (((params.prop "npk_values").optProp "potassium").orElse (.num 280)).toNumber rt =
        .ok potassium ∧
      ((params.prop "organic_content").orElse (.nonInt (.finite (3 / 4)))).toNumber rt =
        .ok organic ∧
      (data.prop "analysis").prop "health_score" =
        .num (healthScore ph nitrogen phosphorus potassium organic : Nat) ∧
      healthScore ph nitrogen phosphorus potassium organic =
        phScore ph + bandScore nitrogen 280 200 20 15 5 + bandScore phosphorus 20 15 20 15 5 +
          bandScore potassium 280 200 20 15 5 + bandScore organic (3 / 4) (1 / 2) 15 10 3 ∧
      23 ≤ healthScore ph nitrogen phosphorus potassium organic ∧
      healthScore ph nitrogen phosphorus potassium organic ≤ 100 ∧
      Nat.min (healthScore ph nitrogen phosphorus potassium organic) 100 =
        healthScore ph nitrogen phosphorus potassium organic) ∧
    (∃ data, soilHealthHandler rt (.obj []) = .ok (success data) ∧
      (data.prop "analysis").prop "health_score" = .num 100) := by
  obtain ⟨data, hdata⟩ := soilHealthHandler_numeric rt params hparams hph hn hp hk ho
  obtain ⟨ph, nitrogen, phosphorus, potassium, organic, h1, h2, h3, h4, h5, hscore, _⟩ :=
    soilHealthData_inv rt params data hdata
  have hrange := healthScore_range ph nitrogen phosphorus potassium organic
  exact ⟨⟨data, ph, nitrogen, phosphorus, potassium, organic,
    soilHealthHandler_of_data rt params data hdata, h1, h2, h3, h4, h5, hscore, rfl,
    hrange.1, hrange.2, Nat.min_eq_left hrange.2⟩, soilHealthHandler_empty rt⟩

/-- Witness of C23: an acid soil poor in nitrogen. -/
theorem soilHealthHandler_score_witness :
    ∃ data, soilHealthHandler sampleRuntime
        (.obj [("ph_level", .num 5), ("npk_values", .obj [("nitrogen", .num 100)])]) =
      .ok (success data) ∧ (data.prop "analysis").prop "health_score" = .num 65 := by
  obtain ⟨⟨data, ph, nitrogen, phosphorus, potassium, organic, hdata, h1, h2, h3, h4, h5,
      hscore, _⟩, _⟩ :=
    soilHealthHandler_score sampleRuntime
      (.obj [("ph_level", .num 5), ("npk_values", .obj [("nitrogen", .num 100)])])
      rfl (Or.inr rfl) (Or.inr rfl) (Or.inl rfl) (Or.inl rfl) (Or.inl rfl)
  refine ⟨data, hdata, ?_⟩
  cases h1
  cases h2
  cases h3
  cases h4
  cases h5
  rw [hscore]
  norm_num [healthScore, phScore, bandScore, JsNumber.ge, JsNumber.le, JsNumber.lt]

theorem JsNumber.ge_false_of_lt (x : JsNumber) (q : ℚ) (h : x.lt (.finite q) = true) :
    x.ge (.finite q) = false := by
  cases x <;> simp_all [JsNumber.ge, JsNumber.le, JsNumber.lt]

theorem JsNumber.le_false_of_gt (x : JsNumber) (q : ℚ) (h : x.gt (.finite q) = true) :
    x.le (.finite q) = false := by
  cases x <;> simp_all [JsNumber.gt, JsNumber.le, JsNumber.lt]

theorem JsNumber.lt_mono (x : JsNumber) (low high : ℚ) (hle : low ≤ high)
    (h : x.lt (.finite low) = true) : x.lt (.finite high) = true := by
  cases x with
  | nan => simp [JsNumber.lt] at h
  | infinity negative => simpa [JsNumber.lt] using h
  | finite q =>
    simp only [JsNumber.lt, decide_eq_true_eq] at h ⊢
    linarith

theorem bandScore_poor (x : JsNumber) (high low : ℚ) (best good poor : Nat) (hle : low ≤ high)
    (h : x.lt (.finite low) = true) : bandScore x high low best good poor = poor := by
  simp [bandScore, JsNumber.ge_false_of_lt x low h,
    JsNumber.ge_false_of_lt x high (JsNumber.lt_mono x low high hle h)]

theorem phScore_acid (ph : JsNumber) (h : ph.lt (.finite 6) = true) : phScore ph ≤ 15 := by
  have hge := JsNumber.ge_false_of_lt ph 6 h
  unfold phScore
  simp only [hge, Bool.false_and, Bool.false_eq_true, if_false]
  split <;> omega

theorem phScore_alkaline (ph : JsNumber) (h : ph.gt (.finite (15 / 2)) = true) :
    phScore ph ≤ 15 := by
  have hle := JsNumber.le_false_of_gt ph (15 / 2) h
  unfold phScore
  simp only [hle, Bool.and_false, Bool.false_eq_true, if_false]
  split <;> omega

/-- Every recommendation comes with a band below the best one, which costs at
least ten points. -/
theorem healthScore_le_of_recommendations
    (ph nitrogen phosphorus potassium organic : JsNumber)
    (h : soilRecommendations ph nitrogen phosphorus potassium organic ≠ []) :
    healthScore ph nitrogen phosphorus potassium organic ≤ 90 := by
  have h1 := phScore_mem ph
  have h2 := bandScore_mem nitrogen 280 200 20 15 5
  have h3 := bandScore_mem phosphorus 20 15 20 15 5
  have h4 := bandScore_mem potassium 280 200 20 15 5
  have h5 := bandScore_mem organic (3 / 4) (1 / 2) 15 10 3
  unfold healthScore
  by_cases c1 : ph.lt (.finite 6) = true
  · have := phScore_acid ph c1
    omega
  by_cases c2 : ph.gt (.finite (15 / 2)) = true
  · have := phScore_alkaline ph c2
    omega
  by_cases c3 : nitrogen.lt (.finite 200) = true
  · have := bandScore_poor nitrogen 280 200 20 15 5 (by norm_num) c3
    omega
  by_cases c4 : phosphorus.lt (.finite 15) = true
  · have := bandScore_poor phosphorus 20 15 20 15 5 (by norm_num) c4
    omega
  by_cases c5 : potassium.lt (.finite 200) = true
  · have := bandScore_poor potassium 280 200 20 15 5 (by norm_num) c5
    omega
  by_cases c6 : organic.lt (.finite (1 / 2)) = true
  · have := bandScore_poor organic (3 / 4) (1 / 2) 15 10 3 (by norm_num) c6
    omega
  exfalso
  apply h
  simp only [soilRecommendations, Bool.eq_false_iff.mpr c1, Bool.eq_false_iff.mpr c2,
    Bool.eq_false_iff.mpr c3, Bool.eq_false_iff.mpr c4, Bool.eq_false_iff.mpr c5,
    Bool.eq_false_iff.mpr c6, Bool.false_eq_true, if_false, List.append_nil]

/-- C29: in every `Success` of `soilHealthHandler` a non-empty list of
recommendations comes with a `health_score` of at most 90; a score above 90,
100 in particular, comes with no recommendation.  This holds for every input,
numeric or not. -/
theorem soilHealthHandler_recommendations (rt : Runtime) (params data : JsVal)
    (h : soilHealthHandler rt params = .ok (success data)) :
    ∃ (score : Nat) (recs : List JsVal),
      (data.prop "analysis").prop "health_score" = .num score ∧
      (data.prop "analysis").prop "recommendations" = .arr recs ∧
      (recs ≠ [] → score ≤ 90) ∧ (90 < score → recs = []) := by
  obtain ⟨ph, nitrogen, phosphorus, potassium, organic, _, _, _, _, _, hscore, hrecs⟩ :=
    soilHealthData_inv rt params data (catchAs_success_inv _ _ data h)
  have key : (soilRecommendations ph nitrogen phosphorus potassium organic).map JsVal.str ≠ [] →
      healthScore ph nitrogen phosphorus potassium organic ≤ 90 := by
    intro hne
    exact healthScore_le_of_recommendations _ _ _ _ _ (fun e => hne (by rw [e]; rfl))
  refine ⟨_, _, hscore, hrecs, key, ?_⟩
  intro hgt
  by_contra hne
  have := key hne
  omega

/-- Witness of C29: an acid soil. -/
theorem soilHealthHandler_recommendations_witness :
    ∃ (data : JsVal) (score : Nat) (recs : List JsVal),
      soilHealthHandler sampleRuntime (.obj [("ph_level", .num 5)]) = .ok (success data) ∧
      (data.prop "analysis").prop "health_score" = .num score ∧
      (data.prop "analysis").prop "recommendations" = .arr recs ∧
      (recs ≠ [] → score ≤ 90) := by
  obtain ⟨data, hdata⟩ := soilHealthHandler_numeric sampleRuntime
    (.obj [("ph_level", .num 5)]) rfl (Or.inr rfl) (Or.inl rfl) (Or.inl rfl) (Or.inl rfl)
    (Or.inl rfl)
  have hs := soilHealthHandler_of_data _ _ _ hdata
  obtain ⟨score, recs, h1, h2, h3, _⟩ :=
    soilHealthHandler_recommendations sampleRuntime _ data hs
  exact ⟨data, score, recs, hs, h1, h2, h3⟩

theorem orElse_zeroForAbsent (reported other fallback : JsVal)
    (h : ZeroForAbsent reported other) : reported.orElse fallback = other.orElse fallback := by
  rcases h with h | ⟨h0, h1⟩
  · rw [h]
  · rw [h0, h1]
    rfl

/-- The recommendation tied to a reading is absent when the reading is the
default. -/
theorem soilRecommendations_default (ph nitrogen phosphorus potassium organic : JsNumber) :
    (ph = .finite (13 / 2) →
      "Apply lime to increase soil pH" ∉
        soilRecommendations ph nitrogen phosphorus potassium organic) ∧
    (nitrogen = .finite 280 →
      "Apply nitrogen-rich fertilizers or compost" ∉
        soilRecommendations ph nitrogen phosphorus potassium organic) ∧
    (phosphorus = .finite 23 →
      "Apply phosphorus fertilizers (DAP/SSP)" ∉
        soilRecommendations ph nitrogen phosphorus potassium organic) ∧
    (potassium = .finite 280 →
      "Apply potassium fertilizers (MOP)" ∉
        soilRecommendations ph nitrogen phosphorus potassium organic) ∧
    (organic = .finite (3 / 4) →
      "Increase organic matter through compost and crop residues" ∉
        soilRecommendations ph nitrogen phosphorus potassium organic) := by
  refine ⟨?_, ?_, ?_, ?_, ?_⟩ <;> intro h <;> subst h <;>
    simp only [soilRecommendations, List.mem_append, not_or] <;>
    refine ⟨⟨⟨⟨⟨?_, ?_⟩, ?_⟩, ?_⟩, ?_⟩, ?_⟩ <;>
    (split <;> simp [JsNumber.lt, JsNumber.gt] at * <;> norm_num at *)


/-- The `soil_parameters` of a `Success` are the readings after their
defaults. -/
theorem soilHealthData_parameters (rt : Runtime) (params data : JsVal)
    (h : soilHealthData rt params = .ok data) :
    ((data.prop "analysis").prop "soil_parameters").prop "ph_level" =
        (params.prop "ph_level").orElse (.nonInt (.finite (13 / 2))) ∧
      ((data.prop "analysis").prop "soil_parameters").prop "nitrogen" =
        ((params.prop "npk_values").optProp "nitrogen").orElse (.num 280) ∧
      ((data.prop "analysis").prop "soil_parameters").prop "phosphorus" =
        ((params.prop "npk_values").optProp "phosphorus").orElse (.num 23) ∧
      ((data.prop "analysis").prop "soil_parameters").prop "potassium" =
        ((params.prop "npk_values").optProp "potassium").orElse (.num 280) ∧
      ((data.prop "analysis").prop "soil_parameters").prop "organic_content" =
        (params.prop "organic_content").orElse (.nonInt (.finite (3 / 4))) := by
  simp only [soilHealthData, bind, Except.bind, pure, Except.pure] at h
  repeat' split at h
  all_goals first
    | contradiction
    | (cases h
       exact ⟨rfl, rfl, rfl, rfl, rfl⟩)

theorem str_not_mem_map (s : String) (xs : List String) (h : s ∉ xs) :
    JsVal.str s ∉ xs.map JsVal.str := by
  intro hmem
  obtain ⟨x, hx, hxs⟩ := List.mem_map.mp hmem
  cases hxs
  exact h hx

/-- C30: a reading reported as the number 0 is replaced by its default before
anything is scored.  A request gives the same result, whole, as the request
that differs from it only in omitting readings it reports as 0; in the result
the reading shows as its default (pH 6.5, N 280, P 23, K 280, organic content
0.75) and the recommendation tied to that reading is absent. -/
theorem soilHealthHandler_zero_reading (rt : Runtime) (reported omitted : JsVal)
    (hreported : reported.isNullish = false) (homitted : omitted.isNullish = false)
    (hstate : reported.prop "state" = omitted.prop "state")
    (hdistrict : reported.prop "district" = omitted.prop "district")
    (hsoil : reported.prop "soil_type" = omitted.prop "soil_type")
    (hph : ZeroForAbsent (reported.prop "ph_level") (omitted.prop "ph_level"))
    (hn : ZeroForAbsent ((reported.prop "npk_values").optProp "nitrogen")
      ((omitted.prop "npk_values").optProp "nitrogen"))
    (hp : ZeroForAbsent ((reported.prop "npk_values").optProp "phosphorus")
      ((omitted.prop "npk_values").optProp "phosphorus"))
    (hk : ZeroForAbsent ((reported.prop "npk_values").optProp "potassium")
      ((omitted.prop "npk_values").optProp "potassium"))
    (ho : ZeroForAbsent (reported.prop "organic_content") (omitted.prop "organic_content")) :
    soilHealthHandler rt reported = soilHealthHandler rt omitted ∧
    ∀ data recs, soilHealthHandler rt reported = .ok (success data) →
      (data.prop "analysis").prop "recommendations" = .arr recs →
      (reported.prop "ph_level" = .num 0 →
        ((data.prop "analysis").prop "soil_parameters").prop "ph_level" =
            .nonInt (.finite (13 / 2)) ∧
          .str "Apply lime to increase soil pH" ∉ recs) ∧
      ((reported.prop "npk_values").optProp "nitrogen" = .num 0 →
        ((data.prop "analysis").prop "soil_parameters").prop "nitrogen" = .num 280 ∧
          .str "Apply nitrogen-rich fertilizers or compost" ∉ recs) ∧
      ((reported.prop "npk_values").optProp "phosphorus" = .num 0 →
        ((data.prop "analysis").prop "soil_parameters").prop "phosphorus" = .num 23 ∧
          .str "Apply phosphorus fertilizers (DAP/SSP)" ∉ recs) ∧
      ((reported.prop "npk_values").optProp "potassium" = .num 0 →
        ((data.prop "analysis").prop "soil_parameters").prop "potassium" = .num 280 ∧
          .str "Apply potassium fertilizers (MOP)" ∉ recs) ∧
      (reported.prop "organic_content" = .num 0 →
        ((data.prop "analysis").prop "soil_parameters").prop "organic_content" =
            .nonInt (.finite (3 / 4)) ∧
          .str "Increase organic matter through compost and crop residues" ∉ recs) := by
  constructor
  · simp only [soilHealthHandler, soilHealthData, paramOf_of_not_nullish _ _ _ hreported,
      paramOf_of_not_nullish _ _ _ homitted, hstate, hdistrict, hsoil,
      orElse_zeroForAbsent _ _ _ hph, orElse_zeroForAbsent _ _ _ hn,
      orElse_zeroForAbsent _ _ _ hp, orElse_zeroForAbsent _ _ _ hk,
      orElse_zeroForAbsent _ _ _ ho]
  · intro data recs hdata hrecs
    have hd := catchAs_success_inv _ _ data hdata
    obtain ⟨ph, nitrogen, phosphorus, potassium, organic, h1, h2, h3, h4, h5, _, hr⟩ :=
      soilHealthData_inv rt reported data hd
    obtain ⟨p1, p2, p3, p4, p5⟩ := soilHealthData_parameters rt reported data hd
    obtain ⟨d1, d2, d3, d4, d5⟩ :=
      soilRecommendations_default ph nitrogen phosphorus potassium organic
    rw [hrecs] at hr
    cases hr
    refine ⟨?_, ?_, ?_, ?_, ?_⟩
    · intro hz
      rw [hz] at h1 p1
      refine ⟨p1, str_not_mem_map _ _ (d1 ?_)⟩
      simp only [JsVal.orElse, JsVal.truthy, bne_self_eq_false, Bool.false_eq_true, if_false,
        JsVal.toNumber, Except.ok.injEq] at h1
      exact h1.symm
    · intro hz
      rw [hz] at h2 p2
      refine ⟨p2, str_not_mem_map _ _ (d2 ?_)⟩
      simp only [JsVal.orElse, JsVal.truthy, bne_self_eq_false, Bool.false_eq_true, if_false,
        JsVal.toNumber, Except.ok.injEq] at h2
      rw [← h2]
      norm_num
    · intro hz
      rw [hz] at h3 p3
      refine ⟨p3, str_not_mem_map _ _ (d3 ?_)⟩
      simp only [JsVal.orElse, JsVal.truthy, bne_self_eq_false, Bool.false_eq_true, if_false,
        JsVal.toNumber, Except.ok.injEq] at h3
      rw [← h3]
      norm_num
    · intro hz
      rw [hz] at h4 p4
      refine ⟨p4, str_not_mem_map _ _ (d4 ?_)⟩
      simp only [JsVal.orElse, JsVal.truthy, bne_self_eq_false, Bool.false_eq_true, if_false,
        JsVal.toNumber, Except.ok.injEq] at h4
      rw [← h4]
      norm_num
    · intro hz
      rw [hz] at h5 p5
      refine ⟨p5, str_not_mem_map _ _ (d5 ?_)⟩
      simp only [JsVal.orElse, JsVal.truthy, bne_self_eq_false, Bool.false_eq_true, if_false,
        JsVal.toNumber, Except.ok.injEq] at h5
      exact h5.symm

/-- Witness of C30: all five readings reported as 0 against the request with
no parameter. -/
theorem soilHealthHandler_zero_reading_witness :
    soilHealthHandler sampleRuntime (.obj [
        ("ph_level", .num 0),
        ("npk_values",
          .obj [("nitrogen", .num 0), ("phosphorus", .num 0), ("potassium", .num 0)]),
        ("organic_content", .num 0)]) =
      soilHealthHandler sampleRuntime (.obj []) :=
  (soilHealthHandler_zero_reading sampleRuntime
    (.obj [
      ("ph_level", .num 0),
      ("npk_values",
        .obj [("nitrogen", .num 0), ("phosphorus", .num 0), ("potassium", .num 0)]),
      ("organic_content", .num 0)])
    (.obj []) rfl rfl rfl rfl rfl
    (Or.inr ⟨rfl, rfl⟩) (Or.inr ⟨rfl, rfl⟩) (Or.inr ⟨rfl, rfl⟩) (Or.inr ⟨rfl, rfl⟩)
    (Or.inr ⟨rfl, rfl⟩)).1

/-! ### The identification of `pestIdentifierHandler` -/

/-- The report of `pestIdentifierHandler` in terms of the outcome `matched` of
the symptom loop: the identification and the alternatives. -/
theorem pestIdentifierData_report (rt : Runtime) (params key : JsVal) (pests : List PestData)
    (matched : Option PestData × ℚ)
    (hparams : params.isNullish = false)
    (hkey : lowerCased rt "crop" (params.prop "crop") = .ok key)
    (hpests : cropPestsOf (keyOf key) = some pests)
    (hmatched : ((params.prop "symptoms").truthy = false ∧ matched = (none, 0)) ∨
      ∃ s sl, params.prop "symptoms" = .str s ∧ s ≠ "" ∧
        symptomsListOf rt (.str s) = .ok sl ∧ matched = matchPests sl pests (none, 0)) :
    ∃ data, pestIdentifierData rt params = .ok data ∧
      (data.prop "analysis").prop "identification" =
        identificationOf (reportedPest matched pests).1 (reportedPest matched pests).2 ∧
      (data.prop "analysis").prop "alternative_pests" = .arr
        (((pests.filter fun p => some p != (reportedPest matched pests).1).take 2).map
          alternativeOf) := by
  rcases hmatched with ⟨hfalsy, hm⟩ | ⟨s, sl, hsym, hs, hlist, hm⟩
  · simp only [pestIdentifierData, paramOf_of_not_nullish _ _ _ hparams, hkey, hpests, hfalsy,
      Bool.false_eq_true, if_false, bind, Except.bind, pure, Except.pure]
    refine ⟨_, rfl, ?_⟩
    subst hm
    cases pests <;> exact ⟨rfl, rfl⟩
  · have htruthy : (JsVal.str s).truthy = true := by simp [JsVal.truthy, hs]
    simp only [pestIdentifierData, paramOf_of_not_nullish _ _ _ hparams, hkey, hpests, hsym,
      htruthy, hlist, if_true, bind, Except.bind, pure, Except.pure]
    refine ⟨_, rfl, ?_⟩
    subst hm
    rcases hmp : matchPests sl pests (none, 0) with ⟨m, c⟩
    cases m <;> cases pests <;> exact ⟨rfl, rfl⟩

/-- The symptom loop from the state `(cur, c)`: it ends in that state when no
pest beats `c`, else in the first pest of highest confidence. -/
theorem matchPests_spec (sl : List String) (pests : List PestData) (cur : Option PestData)
    (c : ℚ) :
    (matchPests sl pests (cur, c) = (cur, c) ∧ ∀ q ∈ pests, pestConfidence q sl ≤ c) ∨
    ∃ before pest after, pests = before ++ pest :: after ∧
      matchPests sl pests (cur, c) = (some pest, pestConfidence pest sl) ∧
      c < pestConfidence pest sl ∧
      (∀ q ∈ before, pestConfidence q sl < pestConfidence pest sl) ∧
      ∀ q ∈ after, pestConfidence q sl ≤ pestConfidence pest sl := by
  induction pests generalizing cur c with
  | nil => exact Or.inl ⟨rfl, by simp⟩
  | cons q rest ih =>
    by_cases hq : pestConfidence q sl > c
    · have hstep : matchPests sl (q :: rest) (cur, c) =
          matchPests sl rest (some q, pestConfidence q sl) := by
        simp only [matchPests, hq, if_true]
      rcases ih (some q) (pestConfidence q sl) with ⟨hsame, hall⟩ | ⟨before, pest, after, hsplit,
          hres, hlt, hbefore, hafter⟩
      · exact Or.inr ⟨[], q, rest, rfl, by rw [hstep, hsame], hq, by simp, hall⟩
      · refine Or.inr ⟨q :: before, pest, after, by rw [hsplit]; rfl, by rw [hstep, hres],
          lt_trans hq hlt, ?_, hafter⟩
        intro x hx
        rcases List.mem_cons.mp hx with hx | hx
        · rw [hx]; exact hlt
        · exact hbefore x hx
    · have hstep : matchPests sl (q :: rest) (cur, c) = matchPests sl rest (cur, c) := by
        simp only [matchPests, hq, if_false]
      rcases ih cur c with ⟨hsame, hall⟩ | ⟨before, pest, after, hsplit, hres, hlt, hbefore,
          hafter⟩
      · refine Or.inl ⟨by rw [hstep, hsame], ?_⟩
        intro x hx
        rcases List.mem_cons.mp hx with hx | hx
        · rw [hx]; exact not_lt.mp hq
        · exact hall x hx
      · refine Or.inr ⟨q :: before, pest, after, by rw [hsplit]; rfl, by rw [hstep, hres],
          hlt, ?_, hafter⟩
        intro x hx
        rcases List.mem_cons.mp hx with hx | hx
        · rw [hx]; exact lt_of_le_of_lt (not_lt.mp hq) hlt
        · exact hbefore x hx

/-! ### The confidence of `pestIdentifierHandler` in doubles -/

/-- The two roundings of `pestConfidence` move a ratio `r` of the unit interval
by at most `2 ^ -44` from `100 r`. -/
theorem Double.percent_err (r : ℚ) (h0 : 0 ≤ r) (h1 : r ≤ 1) :
    |Double.nearest (Double.nearest r * 100) - r * 100| ≤ 2 ^ (-44 : Int) := by
  have hA : (2 : ℚ) ^ (-53 : Int) = 1 / 9007199254740992 := by norm_num [zpow_neg]
  have hB : (2 : ℚ) ^ (-1075 : Int) ≤ 2 ^ (-53 : Int) :=
    zpow_le_zpow_right₀ (by norm_num) (by norm_num)
  have hE : (2 : ℚ) ^ (-44 : Int) = 1 / 17592186044416 := by norm_num [zpow_neg]
  rcases eq_or_lt_of_le h0 with hr | hr
  · rw [← hr, Double.nearest_zero, zero_mul, Double.nearest_zero, hE]
    norm_num
  · have e1 := Double.nearest_err r hr
    have n1 := Double.nearest_nonneg r h0
    rw [abs_le] at e1
    generalize Double.nearest r = x at e1 n1 ⊢
    have hy0 : 0 ≤ x * 100 := by positivity
    rcases eq_or_lt_of_le hy0 with hy | hy
    · rw [← hy, Double.nearest_zero, abs_le, hE]
      rw [hA] at hB e1
      constructor <;> nlinarith [e1.1, e1.2]
    · have e2 := Double.nearest_err (x * 100) hy
      rw [abs_le] at e2 ⊢
      generalize Double.nearest (x * 100) = z at e2 ⊢
      rw [hE]
      rw [hA] at hB e1 e2
      generalize (2 : ℚ) ^ (-1075 : Int) = B at hB e1 e2
      constructor <;> nlinarith [e1.1, e1.2, e2.1, e2.2]

theorem pestMatches_le (pest : PestData) (sl : List String) : pestMatches pest sl ≤ sl.length := by
  unfold pestMatches
  exact List.length_filter_le _ _

theorem matchRatio_range (pest : PestData) (sl : List String) :
    0 ≤ (pestMatches pest sl : ℚ) / (Max.max sl.length pest.symptoms.length : Nat) ∧
    (pestMatches pest sl : ℚ) / (Max.max sl.length pest.symptoms.length : Nat) ≤ 1 := by
  have hm := pestMatches_le pest sl
  have hmax : sl.length ≤ Max.max sl.length pest.symptoms.length := le_max_left _ _
  have hle : (pestMatches pest sl : ℚ) ≤ (Max.max sl.length pest.symptoms.length : Nat) := by
    exact_mod_cast le_trans hm hmax
  exact ⟨by positivity, div_le_one_of_le₀ hle (by positivity)⟩

/-- The confidence in doubles is within `2 ^ -44` of the exact percentage. -/
theorem pestConfidence_close (pest : PestData) (sl : List String) :
    |pestConfidence pest sl - exactConfidence pest sl| ≤ 2 ^ (-44 : Int) :=
  Double.percent_err _ (matchRatio_range pest sl).1 (matchRatio_range pest sl).2

theorem pestConfidence_nonneg (pest : PestData) (sl : List String) :
    0 ≤ pestConfidence pest sl :=
  Double.nearest_nonneg _
    (mul_nonneg (Double.nearest_nonneg _ (matchRatio_range pest sl).1) (by norm_num))

theorem exactConfidence_le (pest : PestData) (sl : List String) :
    exactConfidence pest sl ≤ 100 := by
  have := (matchRatio_range pest sl).2
  unfold exactConfidence
  linarith

theorem pestConfidence_lt (pest : PestData) (sl : List String) :
    pestConfidence pest sl < 100 + 1 / 2 := by
  have h1 := pestConfidence_close pest sl
  have h2 := exactConfidence_le pest sl
  have hE : (2 : ℚ) ^ (-44 : Int) = 1 / 17592186044416 := by norm_num [zpow_neg]
  rw [hE, abs_le] at h1
  linarith [h1.2]

theorem pestConfidence_zero (pest : PestData) (sl : List String) (h : pestMatches pest sl = 0) :
    pestConfidence pest sl = 0 := by
  simp [pestConfidence, h, Double.nearest_zero]

/-- A number within `2 ^ -44` of a fraction `N / (2 D)` with `D < 2 ^ 24` has
the same floor, except that it may fall just below when the fraction is an
integer. -/
theorem floor_close (t g : ℚ) (D : Nat) (N : Int) (hD : 0 < D) (hD24 : D < 2 ^ 24)
    (ht : t = (N : ℚ) / (2 * D)) (hclose : |g - t| ≤ 2 ^ (-44 : Int)) :
    ⌊g⌋ = ⌊t⌋ ∨ (t = ⌊t⌋ ∧ ⌊g⌋ = ⌊t⌋ - 1) := by
  have hE : (2 : ℚ) ^ (-44 : Int) = 1 / 17592186044416 := by norm_num [zpow_neg]
  rw [hE, abs_le] at hclose
  have hDq : (0 : ℚ) < D := by exact_mod_cast hD
  have hD24q : (D : ℚ) < 16777216 := by exact_mod_cast hD24
  have hk1 : ((⌊t⌋ : Int) : ℚ) ≤ t := Int.floor_le t
  have hk2 : t < ((⌊t⌋ : Int) : ℚ) + 1 := Int.lt_floor_add_one t
  generalize ⌊t⌋ = k at hk1 hk2 ⊢
  have hgap : (1 : ℚ) / (2 * D) > 1 / 17592186044416 := by
    rw [gt_iff_lt, div_lt_div_iff₀ (by norm_num) (by positivity)]
    linarith
  rcases eq_or_lt_of_le hk1 with heq | hlt
  · by_cases hg : (k : ℚ) ≤ g
    · left
      rw [Int.floor_eq_iff]
      exact ⟨hg, by linarith [hclose.2]⟩
    · right
      refine ⟨heq.symm, ?_⟩
      rw [Int.floor_eq_iff]
      push_cast
      constructor <;> linarith [hclose.1]
  · left
    have h2D : (0 : ℚ) < 2 * D := by positivity
    have hN1 : (2 * (D : Int)) * k < N := by
      have : ((2 * (D : Int) * k : Int) : ℚ) < (N : ℚ) := by
        push_cast
        rw [ht, lt_div_iff₀ h2D] at hlt
        linarith
      exact_mod_cast this
    have hN2 : N < (2 * (D : Int)) * (k + 1) := by
      have : ((N : Int) : ℚ) < ((2 * (D : Int) * (k + 1) : Int) : ℚ) := by
        push_cast
        rw [ht, div_lt_iff₀ h2D] at hk2
        linarith
      exact_mod_cast this
    have hN1q : ((2 * (D : Int) * k + 1 : Int) : ℚ) ≤ (N : ℚ) := by
      exact_mod_cast Int.add_one_le_iff.mpr hN1
    have hN2q : ((N + 1 : Int) : ℚ) ≤ ((2 * (D : Int) * (k + 1) : Int) : ℚ) := by
      exact_mod_cast Int.add_one_le_iff.mpr hN2
    push_cast at hN1q hN2q
    have ht1 : (k : ℚ) + 1 / (2 * D) ≤ t := by
      rw [ht, le_div_iff₀ h2D]
      field_simp
      linarith
    have ht2 : t ≤ (k : ℚ) + 1 - 1 / (2 * D) := by
      rw [ht, div_le_iff₀ h2D]
      field_simp
      linarith
    rw [Int.floor_eq_iff]
    constructor <;> linarith [hclose.1, hclose.2]

theorem exactConfidence_half (pest : PestData) (sl : List String)
    (hpos : 0 < Max.max sl.length pest.symptoms.length) :
    exactConfidence pest sl + 1 / 2 =
      ((200 * (pestMatches pest sl : Int) + (Max.max sl.length pest.symptoms.length : Nat) : Int) : ℚ) /
        (2 * (Max.max sl.length pest.symptoms.length : Nat)) := by
  unfold exactConfidence
  generalize Max.max sl.length pest.symptoms.length = d at hpos ⊢
  have hq : (0 : ℚ) < d := by exact_mod_cast hpos
  push_cast
  field_simp
  ring

/-- The reported score against the exact percentage. -/
theorem score_exact (pest : PestData) (sl : List String)
    (hpos : 0 < Max.max sl.length pest.symptoms.length)
    (hlt : Max.max sl.length pest.symptoms.length < 2 ^ 24) :
    ⌊pestConfidence pest sl + 1 / 2⌋ = ⌊exactConfidence pest sl + 1 / 2⌋ ∨
      (exactConfidence pest sl + 1 / 2 = ⌊exactConfidence pest sl + 1 / 2⌋ ∧
        ⌊pestConfidence pest sl + 1 / 2⌋ = ⌊exactConfidence pest sl + 1 / 2⌋ - 1) := by
  refine floor_close _ _ _ _ hpos hlt (exactConfidence_half pest sl hpos) ?_
  have := pestConfidence_close pest sl
  have e : pestConfidence pest sl + 1 / 2 - (exactConfidence pest sl + 1 / 2) =
      pestConfidence pest sl - exactConfidence pest sl := by ring
  rw [e]
  exact this

theorem pestConfidence_of_exact (pest : PestData) (sl : List String) :
    pestConfidence pest sl =
      Double.nearest (Double.nearest (exactConfidence pest sl / 100) * 100) := by
  unfold pestConfidence exactConfidence
  rw [mul_div_assoc, div_self (by norm_num), mul_one]

/-- Two different exact percentages over fewer than `2 ^ 24` symptoms are at
least `2 ^ -42` apart. -/
theorem exactConfidence_gap (p q : PestData) (sl : List String)
    (hp0 : 0 < Max.max sl.length p.symptoms.length)
    (hq0 : 0 < Max.max sl.length q.symptoms.length)
    (hp : Max.max sl.length p.symptoms.length < 2 ^ 24)
    (hq : Max.max sl.length q.symptoms.length < 2 ^ 24)
    (h : exactConfidence q sl < exactConfidence p sl) :
    exactConfidence q sl + 2 ^ (-42 : Int) ≤ exactConfidence p sl := by
  have hE : (2 : ℚ) ^ (-42 : Int) = 1 / 4398046511104 := by norm_num [zpow_neg]
  rw [hE]
  unfold exactConfidence at h ⊢
  generalize Max.max sl.length p.symptoms.length = dp at hp0 hp h ⊢
  generalize Max.max sl.length q.symptoms.length = dq at hq0 hq h ⊢
  generalize pestMatches p sl = mp at h ⊢
  generalize pestMatches q sl = mq at h ⊢
  have hdp : (0 : ℚ) < dp := by exact_mod_cast hp0
  have hdq : (0 : ℚ) < dq := by exact_mod_cast hq0
  have hdp24 : (dp : ℚ) < 16777216 := by exact_mod_cast hp
  have hdq24 : (dq : ℚ) < 16777216 := by exact_mod_cast hq
  have hcross : mq * dp < mp * dq := by
    have h2 : (mq : ℚ) / dq < (mp : ℚ) / dp := by linarith
    rw [div_lt_div_iff₀ hdq hdp] at h2
    exact_mod_cast h2
  have hcross1 : ((mq * dp + 1 : Nat) : ℚ) ≤ ((mp * dq : Nat) : ℚ) := by
    exact_mod_cast hcross
  push_cast at hcross1
  have hdiff : (mp : ℚ) / dp - (mq : ℚ) / dq = ((mp : ℚ) * dq - mq * dp) / (dq * dp) := by
    field_simp
    ring
  have key : 1 / ((dq : ℚ) * dp) ≤ (mp : ℚ) / dp - (mq : ℚ) / dq := by
    rw [hdiff]
    exact div_le_div_of_nonneg_right (by linarith) (by positivity)
  have hsmall : (1 : ℚ) / (16777216 * 16777216) ≤ 1 / (dq * dp) := by
    apply one_div_le_one_div_of_le (by positivity)
    nlinarith
  generalize (1 : ℚ) / (dq * dp) = g at key hsmall
  norm_num at hsmall
  linarith

theorem pestConfidence_lt_of_exact (p q : PestData) (sl : List String)
    (hp0 : 0 < Max.max sl.length p.symptoms.length)
    (hq0 : 0 < Max.max sl.length q.symptoms.length)
    (hp : Max.max sl.length p.symptoms.length < 2 ^ 24)
    (hq : Max.max sl.length q.symptoms.length < 2 ^ 24)
    (h : exactConfidence q sl < exactConfidence p sl) :
    pestConfidence q sl < pestConfidence p sl := by
  have hgap := exactConfidence_gap p q sl hp0 hq0 hp hq h
  have c1 := pestConfidence_close p sl
  have c2 := pestConfidence_close q sl
  have hE : (2 : ℚ) ^ (-44 : Int) = 1 / 17592186044416 := by norm_num [zpow_neg]
  have hG : (2 : ℚ) ^ (-42 : Int) = 1 / 4398046511104 := by norm_num [zpow_neg]
  rw [hE, abs_le] at c1 c2
  rw [hG] at hgap
  linarith [c1.1, c2.2]

/-- Over fewer than `2 ^ 24` symptoms the confidences in doubles are ordered as
the exact percentages. -/
theorem pestConfidence_lt_iff (p q : PestData) (sl : List String)
    (hp0 : 0 < Max.max sl.length p.symptoms.length)
    (hq0 : 0 < Max.max sl.length q.symptoms.length)
    (hp : Max.max sl.length p.symptoms.length < 2 ^ 24)
    (hq : Max.max sl.length q.symptoms.length < 2 ^ 24) :
    pestConfidence q sl < pestConfidence p sl ↔ exactConfidence q sl < exactConfidence p sl := by
  constructor
  · intro h
    by_contra hnot
    rcases eq_or_lt_of_le (not_lt.mp hnot) with heq | hlt
    · rw [pestConfidence_of_exact p, pestConfidence_of_exact q, heq] at h
      exact lt_irrefl _ h
    · exact lt_asymm h (pestConfidence_lt_of_exact q p sl hq0 hp0 hq hp hlt)
  · exact pestConfidence_lt_of_exact p q sl hp0 hq0 hp hq

theorem pestConfidence_le_iff (p q : PestData) (sl : List String)
    (hp0 : 0 < Max.max sl.length p.symptoms.length)
    (hq0 : 0 < Max.max sl.length q.symptoms.length)
    (hp : Max.max sl.length p.symptoms.length < 2 ^ 24)
    (hq : Max.max sl.length q.symptoms.length < 2 ^ 24) :
    pestConfidence q sl ≤ pestConfidence p sl ↔ exactConfidence q sl ≤ exactConfidence p sl := by
  rw [← not_lt, ← not_lt, pestConfidence_lt_iff q p sl hq0 hp0 hq hp]

theorem pestConfidence_pos (pest : PestData) (sl : List String)
    (hlt : Max.max sl.length pest.symptoms.length < 2 ^ 24)
    (h : 0 < pestMatches pest sl) : 0 < pestConfidence pest sl := by
  have hm := pestMatches_le pest sl
  have hpos : 0 < Max.max sl.length pest.symptoms.length :=
    lt_of_lt_of_le (lt_of_lt_of_le h hm) (le_max_left _ _)
  have hclose := pestConfidence_close pest sl
  have hE : (2 : ℚ) ^ (-44 : Int) = 1 / 17592186044416 := by norm_num [zpow_neg]
  rw [hE, abs_le] at hclose
  have hexact : (1 : ℚ) / 16777216 ≤ exactConfidence pest sl := by
    unfold exactConfidence
    have h1 : (1 : ℚ) ≤ (pestMatches pest sl : ℚ) := by exact_mod_cast h
    have h2 : (0 : ℚ) < (Max.max sl.length pest.symptoms.length : Nat) := by exact_mod_cast hpos
    have h3 : ((Max.max sl.length pest.symptoms.length : Nat) : ℚ) < 16777216 := by
      exact_mod_cast hlt
    rw [div_mul_eq_mul_div, le_div_iff₀ h2]
    linarith
  linarith [hclose.1]

theorem toVal_roundHalfUp (q : ℚ) :
    (JsNumber.finite (roundHalfUp q)).toVal = .num ⌊q + 1 / 2⌋ := by
  simp [JsNumber.toVal, roundHalfUp]

theorem roundHalfUp_range (q : ℚ) (h0 : 0 ≤ q) (h1 : q < 100 + 1 / 2) :
    0 ≤ ⌊q + 1 / 2⌋ ∧ ⌊q + 1 / 2⌋ ≤ 100 := by
  constructor
  · exact Int.floor_nonneg.mpr (by linarith)
  · have : ⌊q + 1 / 2⌋ < 101 := by
      rw [Int.floor_lt]
      push_cast
      linarith
    omega

theorem pestIdentifierHandler_of_data (rt : Runtime) (params data : JsVal)
    (h : pestIdentifierData rt params = .ok data) :
    pestIdentifierHandler rt params = .ok (success data) := by
  simp only [pestIdentifierHandler, h, bind, Except.bind, pure, Except.pure, catchAs]

theorem identificationOf_some (pest : PestData) (confidence : ℚ) :
    identificationOf (some pest) confidence = .obj [
      ("pest_name", .str pest.name),
      ("confidence_score", .num ⌊confidence + 1 / 2⌋),
      ("severity", .str pest.severity),
      ("season", .str pest.season)] := by
  simp only [identificationOf, toVal_roundHalfUp]

theorem reportedPest_some (pest : PestData) (c : ℚ) (pests : List PestData) :
    reportedPest (some pest, c) pests = (some pest, c) := by
  cases pests <;> rfl

theorem sampleRuntime_lower_rice : sampleRuntime.toLowerCase "Rice" = "rice" := by
  show "Rice".map Char.toLower = "rice"
  apply String.ext
  simp [String.map_eq]

theorem lookup_mem {α : Type} (key : String) (value : α) (table : List (String × α))
    (h : table.lookup key = some value) : value ∈ table.map Prod.snd := by
  induction table with
  | nil => simp [List.lookup] at h
  | cons entry rest ih =>
    obtain ⟨k, v⟩ := entry
    by_cases hk : key = k
    · subst hk
      simp only [List.lookup, beq_self_eq_true, Option.some.injEq] at h
      simp [h]
    · have hne : (key == k) = false := by simpa using hk
      simp only [List.lookup, hne] at h
      simp [ih h]

/-- Each crop of the database has a first pest, and its other pests differ
from the first. -/
theorem pestDatabase_rest (pests : List PestData) (h : pests ∈ pestDatabase.map Prod.snd) :
    ∃ first rest, pests = first :: rest ∧
      (pests.filter fun p => some p != some first).take 2 = rest := by
  simp only [pestDatabase, List.map_cons, List.map_nil, List.mem_cons, List.mem_singleton,
    List.not_mem_nil, or_false] at h
  rcases h with h | h | h <;> subst h <;> exact ⟨_, _, rfl, by decide⟩


/-- Every pest of the database lists three symptoms. -/
theorem cropPestsOf_symptoms (key : String) (pests : List PestData)
    (h : cropPestsOf key = some pests) : ∀ q ∈ pests, q.symptoms.length = 3 := by
  unfold cropPestsOf at h
  cases hl : pestDatabase.lookup key with
  | none =>
    rw [hl] at h
    simp only at h
    split at h
    · cases h
    · cases h
      simp
  | some found =>
    rw [hl] at h
    cases h
    have hmem := lookup_mem _ _ _ hl
    simp only [pestDatabase, List.map_cons, List.map_nil, List.mem_cons, List.mem_singleton,
      List.not_mem_nil, or_false] at hmem
    rcases hmem with h | h | h <;> subst h <;> decide

/-- C28: for a crop whose key is not an inherited property (every crop of the
database, every unknown crop, an absent crop) and every symptoms string,
`pestIdentifierHandler` succeeds; it reports no identification when the crop
has no pest, and otherwise a pest of the crop with a `confidence_score` that
is an integer from 0 to 100.  When the string is not empty, lists fewer than
`2 ^ 24` symptoms, and some listed symptom matches a pest of the crop, the
reported pest is the first of the list that attains the highest exact
percentage `exactConfidence` (matches over the larger of the two symptom
counts, times 100).  The score is `Math.round` of `pestConfidence`, the
percentage as the code computes it in doubles: it is the exact percentage
rounded, except that an exact percentage half way between two integers may be
reported as the lower one. -/
theorem pestIdentifierHandler_confidence (rt : Runtime) (params key : JsVal)
    (pests : List PestData) (s : String)
    (hparams : params.isNullish = false)
    (hkey : lowerCased rt "crop" (params.prop "crop") = .ok key)
    (hpests : cropPestsOf (keyOf key) = some pests)
    (hsym : params.prop "symptoms" = .str s) :
    ∃ data, pestIdentifierHandler rt params = .ok (success data) ∧
      ((pests = [] ∧ (data.prop "analysis").prop "identification" = .null) ∨
        ∃ (pest : PestData) (score : Int), pest ∈ pests ∧
          (data.prop "analysis").prop "identification" = .obj [
            ("pest_name", .str pest.name),
            ("confidence_score", .num score),
            ("severity", .str pest.severity),
            ("season", .str pest.season)] ∧
          0 ≤ score ∧ score ≤ 100 ∧
          ∀ sl, s ≠ "" → symptomsListOf rt (.str s) = .ok sl → sl.length < 2 ^ 24 →
            (∃ q ∈ pests, 0 < pestMatches q sl) →
            score = ⌊pestConfidence pest sl + 1 / 2⌋ ∧
            (score = ⌊exactConfidence pest sl + 1 / 2⌋ ∨
              (exactConfidence pest sl + 1 / 2 = ⌊exactConfidence pest sl + 1 / 2⌋ ∧
                score = ⌊exactConfidence pest sl + 1 / 2⌋ - 1)) ∧
            ∃ before after, pests = before ++ pest :: after ∧
              (∀ q ∈ before, exactConfidence q sl < exactConfidence pest sl) ∧
              ∀ q ∈ after, exactConfidence q sl ≤ exactConfidence pest sl) := by
  have hthree := cropPestsOf_symptoms _ _ hpests
  have hbound : ∀ (sl : List String), sl.length < 2 ^ 24 → ∀ q ∈ pests,
      0 < Max.max sl.length q.symptoms.length ∧ Max.max sl.length q.symptoms.length < 2 ^ 24 := by
    intro sl hsl q hq
    rw [hthree q hq]
    constructor
    · exact lt_of_lt_of_le (by norm_num) (le_max_right _ _)
    · exact max_lt hsl (by norm_num)
  by_cases hs : s = ""
  · obtain ⟨data, hdata, hid, _⟩ := pestIdentifierData_report rt params key pests (none, 0)
      hparams hkey hpests (Or.inl ⟨by rw [hsym, hs]; rfl, rfl⟩)
    refine ⟨data, pestIdentifierHandler_of_data rt params data hdata, ?_⟩
    cases pests with
    | nil => exact Or.inl ⟨rfl, hid⟩
    | cons first rest =>
      refine Or.inr ⟨first, 30, List.mem_cons_self _ _, ?_, by norm_num, by norm_num, ?_⟩
      · rw [hid]
        show identificationOf (some first) 30 = _
        rw [identificationOf_some]
        norm_num
      · intro sl hne
        exact absurd hs hne
  · obtain ⟨data, hdata, hid, _⟩ := pestIdentifierData_report rt params key pests
      (matchPests ((splitComma [] (rt.toLowerCase s).data).map fun piece => String.mk (trim piece))
        pests (none, 0))
      hparams hkey hpests (Or.inr ⟨s, _, hsym, hs, rfl, rfl⟩)
    refine ⟨data, pestIdentifierHandler_of_data rt params data hdata, ?_⟩
    rcases matchPests_spec
        ((splitComma [] (rt.toLowerCase s).data).map fun piece => String.mk (trim piece))
        pests none 0 with
      ⟨hsame, hall⟩ | ⟨before, pest, after, hsplit, hres, hlt, hbefore, hafter⟩
    · rw [hsame] at hid
      cases pests with
      | nil => exact Or.inl ⟨rfl, hid⟩
      | cons first rest =>
        refine Or.inr ⟨first, 30, List.mem_cons_self _ _, ?_, by norm_num, by norm_num, ?_⟩
        · rw [hid]
          show identificationOf (some first) 30 = _
          rw [identificationOf_some]
          norm_num
        · intro sl _ hsl hlen hmatch
          cases hsl
          obtain ⟨q, hq, hpos⟩ := hmatch
          exact absurd (pestConfidence_pos q _ (hbound _ hlen q hq).2 hpos)
            (not_lt.mpr (hall q hq))
    · rw [hres, reportedPest_some] at hid
      have hmem : pest ∈ pests := by
        rw [hsplit]
        simp
      have hrange := roundHalfUp_range _
        (pestConfidence_nonneg pest
          ((splitComma [] (rt.toLowerCase s).data).map fun piece => String.mk (trim piece)))
        (pestConfidence_lt pest _)
      refine Or.inr ⟨pest, ⌊pestConfidence pest _ + 1 / 2⌋, hmem, ?_, hrange.1, hrange.2, ?_⟩
      · rw [hid, identificationOf_some]
      · intro sl _ hsl hlen _
        cases hsl
        have hp := hbound _ hlen pest hmem
        refine ⟨rfl, score_exact pest _ hp.1 hp.2, before, after, hsplit, ?_, ?_⟩
        · intro q hq
          have hqm : q ∈ pests := by
            rw [hsplit]
            exact List.mem_append_left _ hq
          have hq2 := hbound _ hlen q hqm
          exact (pestConfidence_lt_iff pest q _ hp.1 hq2.1 hp.2 hq2.2).mp (hbefore q hq)
        · intro q hq
          have hqm : q ∈ pests := by
            rw [hsplit]
            exact List.mem_append_right _ (List.mem_cons_of_mem _ hq)
          have hq2 := hbound _ hlen q hqm
          exact (pestConfidence_le_iff pest q _ hp.1 hq2.1 hp.2 hq2.2).mp (hafter q hq)

/-- Witness of C28: two of the three symptoms of the stem borer on rice.  The
second pest of the crop is reported, at 67 for the exact percentage
66.67. -/
theorem pestIdentifierHandler_confidence_witness :
    ∃ data, pestIdentifierHandler sampleRuntime
        (.obj [("crop", .str "Rice"),
          ("symptoms", .str "Dead hearts, white ears, wilting")]) = .ok (success data) ∧
      (data.prop "analysis").prop "identification" = .obj [
        ("pest_name", .str "Stem Borer"),
        ("confidence_score", .num 67),
        ("severity", .str "medium"),
        ("season", .str "kharif")] := by
  have hkey : lowerCased sampleRuntime "crop"
      ((JsVal.obj [("crop", .str "Rice"),
        ("symptoms", .str "Dead hearts, white ears, wilting")]).prop "crop") =
        .ok (.str "rice") := by
    show Except.ok (JsVal.str (sampleRuntime.toLowerCase "Rice")) = _
    rw [sampleRuntime_lower_rice]
  obtain ⟨data, hdata, _⟩ := pestIdentifierHandler_confidence sampleRuntime
    (.obj [("crop", .str "Rice"), ("symptoms", .str "Dead hearts, white ears, wilting")])
    (.str "rice") _ "Dead hearts, white ears, wilting" rfl hkey rfl rfl
  have hvalue : (pestIdentifierHandler sampleRuntime
      (.obj [("crop", .str "Rice"),
        ("symptoms", .str "Dead hearts, white ears, wilting")])).toOption.map
      (fun r => ((r.prop "data").prop "analysis").prop "identification") = some (.obj [
        ("pest_name", .str "Stem Borer"),
        ("confidence_score", .num 67),
        ("severity", .str "medium"),
        ("season", .str "kharif")]) := by
    decide!
  rw [hdata] at hvalue
  exact ⟨data, hdata, Option.some.inj hvalue⟩

/-- Counterexample to C28 as stated: 40 symptoms on rice of which 23 match the
brown plant hopper.  The ratio times 100 is 57.5, which rounds to 58; the
quotient and the product in doubles give 57.49999999999999, and the reported
score is 57. -/
theorem pestIdentifierHandler_confidence_counterexample :
    (pestIdentifierHandler sampleRuntime (.obj [("crop", .str "rice"),
        ("symptoms", .str ("y,y,y,y,y,y,y,y,y,y,y,y,y,y,y,y,y,y,y,y,y,y,y," ++
          "q,q,q,q,q,q,q,q,q,q,q,q,q,q,q,q,q"))])).toOption.map
      (fun r => ((r.prop "data").prop "analysis").prop "identification") = some (.obj [
        ("pest_name", .str "Brown Plant Hopper"),
        ("confidence_score", .num 57),
        ("severity", .str "high"),
        ("season", .str "kharif")]) ∧
    (symptomsListOf sampleRuntime (.str ("y,y,y,y,y,y,y,y,y,y,y,y,y,y,y,y,y,y,y,y,y,y,y," ++
        "q,q,q,q,q,q,q,q,q,q,q,q,q,q,q,q,q"))).toOption =
      some (List.replicate 23 "y" ++ List.replicate 17 "q") ∧
    (cropPestsOf "rice").map (fun pests => pests.map fun pest =>
        (pest.name, pestMatches pest (List.replicate 23 "y" ++ List.replicate 17 "q"))) =
      some [("Brown Plant Hopper", 23), ("Stem Borer", 0)] ∧
    (cropPestsOf "rice").map (fun pests => pests.map fun pest =>
        ⌊exactConfidence pest (List.replicate 23 "y" ++ List.replicate 17 "q") + 1 / 2⌋) =
      some [58, 0] := by
  refine ⟨?_, ?_, ?_, ?_⟩ <;> decide!

theorem matchPests_none (sl : List String) (pests : List PestData)
    (h : ∀ q ∈ pests, pestMatches q sl = 0) : matchPests sl pests (none, 0) = (none, 0) := by
  rcases matchPests_spec sl pests none 0 with ⟨hsame, _⟩ |
    ⟨before, pest, after, hsplit, _, hlt, _, _⟩
  · exact hsame
  · have hmem : pest ∈ pests := by rw [hsplit]; simp
    rw [pestConfidence_zero pest sl (h pest hmem)] at hlt
    exact absurd hlt (lt_irrefl 0)

/-- C24: for a crop of the pest database, in any letter case, when `symptoms`
is absent or empty, or is a string none of whose listed symptoms matches a
symptom of a pest of the crop, `pestIdentifierHandler` succeeds and reports the
first pest of the crop with `confidence_score` 30 and the other pests of the
crop under `alternative_pests`. -/
theorem pestIdentifierHandler_fallback (rt : Runtime) (params : JsVal) (c : String)
    (pests : List PestData)
    (hcrop : params.prop "crop" = .str c)
    (hpests : pestDatabase.lookup (rt.toLowerCase c) = some pests)
    (hsymptoms : (params.prop "symptoms").truthy = false ∨
      ∃ s sl, params.prop "symptoms" = .str s ∧ s ≠ "" ∧
        symptomsListOf rt (.str s) = .ok sl ∧ ∀ q ∈ pests, pestMatches q sl = 0) :
    ∃ data first rest, pests = first :: rest ∧
      pestIdentifierHandler rt params = .ok (success data) ∧
      (data.prop "analysis").prop "identification" = .obj [
        ("pest_name", .str first.name),
        ("confidence_score", .num 30),
        ("severity", .str first.severity),
        ("season", .str first.season)] ∧
      (data.prop "analysis").prop "alternative_pests" = .arr (rest.map alternativeOf) := by
  obtain ⟨first, rest, hsplit, hrest⟩ := pestDatabase_rest pests (lookup_mem _ _ _ hpests)
  have hparams := JsVal.not_nullish_of_prop_str hcrop
  have hkey : lowerCased rt "crop" (params.prop "crop") = .ok (.str (rt.toLowerCase c)) := by
    rw [hcrop]
    rfl
  have hcropPests : cropPestsOf (keyOf (.str (rt.toLowerCase c))) = some pests := by
    simp only [cropPestsOf, keyOf, hpests]
  have hmatched : ((params.prop "symptoms").truthy = false ∧
      ((none, 0) : Option PestData × ℚ) = (none, 0)) ∨
      ∃ s sl, params.prop "symptoms" = .str s ∧ s ≠ "" ∧
        symptomsListOf rt (.str s) = .ok sl ∧
        ((none, 0) : Option PestData × ℚ) = matchPests sl pests (none, 0) := by
    rcases hsymptoms with h | ⟨s, sl, h1, h2, h3, h4⟩
    · exact Or.inl ⟨h, rfl⟩
    · exact Or.inr ⟨s, sl, h1, h2, h3, (matchPests_none sl pests h4).symm⟩
  obtain ⟨data, hdata, hid, halt⟩ := pestIdentifierData_report rt params _ pests (none, 0)
    hparams hkey hcropPests hmatched
  refine ⟨data, first, rest, hsplit, pestIdentifierHandler_of_data rt params data hdata, ?_, ?_⟩
  · rw [hid, hsplit]
    show identificationOf (some first) 30 = _
    rw [identificationOf_some]
    norm_num
  · rw [halt]
    have hreported : (reportedPest (none, 0) pests).1 = some first := by
      rw [hsplit]
      rfl
    rw [hreported, hrest]

/-- Witness of C24: `Rice` with no symptoms. -/
theorem pestIdentifierHandler_fallback_witness :
    ∃ data, pestIdentifierHandler sampleRuntime (.obj [("crop", .str "Rice")]) =
        .ok (success data) ∧
      ((data.prop "analysis").prop "identification").prop "pest_name" =
        .str "Brown Plant Hopper" ∧
      ((data.prop "analysis").prop "identification").prop "confidence_score" = .num 30 := by
  have hpests : pestDatabase.lookup (sampleRuntime.toLowerCase "Rice") = some [
      { name := "Brown Plant Hopper"
        symptoms := ["yellowing leaves", "stunted growth", "hopper burn"]
        treatment := ["Use neem oil spray", "Apply imidacloprid", "Maintain proper water levels"]
        severity := "high"
        season := "kharif" },
      { name := "Stem Borer"
        symptoms := ["dead hearts", "white ears", "holes in stem"]
        treatment :=
          ["Use pheromone traps", "Apply cartap hydrochloride", "Remove affected tillers"]
        severity := "medium"
        season := "kharif" }] := by
    rw [sampleRuntime_lower_rice]
    rfl
  obtain ⟨data, first, rest, hsplit, hdata, hid, _⟩ :=
    pestIdentifierHandler_fallback sampleRuntime (.obj [("crop", .str "Rice")]) "Rice" _
      rfl hpests (Or.inl rfl)
  cases hsplit
  exact ⟨data, hdata, by rw [hid]; rfl, by rw [hid]; rfl⟩

/-! ### The two surfaces: `POST /tools/<name>` and `tools/call` -/

/-- The `tools/call` request for a string name reaches `toolsCall`, and what
`toolsCall` throws becomes the error `-32603`. -/
theorem handleMCPRequest_call (side : MergeSide) (hs : Handlers) (id args : JsVal)
    (name : String) :
    handleMCPRequest side hs (callRequest id (.str name) args) =
      match toolsCall side hs (callRequest id (.str name) args) with
      | .ok response => .ok response
      | .error error => .ok (.obj [
          ("jsonrpc", .str "2.0"),
          ("id", id),
          ("error", .obj [
            ("code", .num (-32603)),
            ("message", .str ("Internal error: " ++ error.toString))])]) := by
  have hr : (callRequest id (.str name) args).isNullish = false := rfl
  have hmethod : (callRequest id (.str name) args).prop "method" = .str "tools/call" := rfl
  have hid : (callRequest id (.str name) args).prop "id" = id := rfl
  have hd : dispatch side hs (callRequest id (.str name) args) =
      toolsCall side hs (callRequest id (.str name) args) := by
    simp [dispatch, JsVal.getProp_eq _ _ hr, hmethod, strictEqStr, bind, Except.bind]
  simp only [handleMCPRequest, hd, JsVal.getProp_eq _ _ hr, hid, bind, Except.bind, pure,
    Except.pure]

theorem toolsCall_none (side : MergeSide) (hs : Handlers) (id args : JsVal) (name : String)
    (hreg : (toolHandlers side hs).get (.str name) = none) :
    toolsCall side hs (callRequest id (.str name) args) = .ok (.obj [
      ("jsonrpc", .str "2.0"),
      ("id", id),
      ("error", .obj [
        ("code", .num (-32601)),
        ("message", .str ("Tool \x27" ++ name ++ "\x27 not found")),
        ("data", .obj [("availableTools", toolNames side hs)])])]) := by
  have hr : (callRequest id (.str name) args).isNullish = false := rfl
  have hid : (callRequest id (.str name) args).prop "id" = id := rfl
  have hparams : (callRequest id (.str name) args).prop "params" =
      .obj [("name", .str name), ("arguments", args)] := rfl
  have hp : (JsVal.obj [("name", .str name), ("arguments", args)]).isNullish = false := rfl
  have hname : (JsVal.obj [("name", .str name), ("arguments", args)]).prop "name" =
      .str name := rfl
  simp only [toolsCall, JsVal.getProp_eq _ _ hr, hparams, JsVal.destructure_eq _ _ _ hp, hname,
    hreg, hid, JsVal.toStr, bind, Except.bind, pure, Except.pure]

theorem toolsCall_some (side : MergeSide) (hs : Handlers) (id args : JsVal) (name : String)
    (handler : ToolHandler) (hreg : (toolHandlers side hs).get (.str name) = some handler) :
    toolsCall side hs (callRequest id (.str name) args) =
      (match handler args with
        | .error e => .error e
        | .ok R =>
          match R.getProp "error" with
          | .error e => .error e
          | .ok _ => .ok (encodeToolResult id R)) := by
  have hr : (callRequest id (.str name) args).isNullish = false := rfl
  have hid : (callRequest id (.str name) args).prop "id" = id := rfl
  have hparams : (callRequest id (.str name) args).prop "params" =
      .obj [("name", .str name), ("arguments", args)] := rfl
  have hp : (JsVal.obj [("name", .str name), ("arguments", args)]).isNullish = false := rfl
  have hname : (JsVal.obj [("name", .str name), ("arguments", args)]).prop "name" =
      .str name := rfl
  have hargs : (JsVal.obj [("name", .str name), ("arguments", args)]).prop "arguments" =
      args := rfl
  simp only [toolsCall, JsVal.getProp_eq _ _ hr, hparams, JsVal.destructure_eq _ _ _ hp, hname,
    hargs, hreg, hid, bind, Except.bind, pure, Except.pure]
  cases handler args with
  | error e => rfl
  | ok R =>
    by_cases hn : R.isNullish = false
    · simp only [JsVal.getProp_eq _ _ hn, encodeToolResult]
      split <;> rfl
    · cases R <;> first | rfl | simp [JsVal.isNullish] at hn


theorem toolsRoute_none (side : MergeSide) (hs : Handlers) (rt : Runtime) (name body : String)
    (args : JsVal) (hparse : rt.parse (if body = "" then "\x7b\x7d" else body) = .ok args)
    (hreg : (toolHandlers side hs).get (.str name) = none) :
    (toolsRoute side hs rt name body).status = 404 := by
  simp only [toolsRoute, hparse, hreg, bind, Except.bind, pure, Except.pure]

theorem toolsRoute_some (side : MergeSide) (hs : Handlers) (rt : Runtime) (name body : String)
    (args : JsVal) (handler : ToolHandler)
    (hparse : rt.parse (if body = "" then "\x7b\x7d" else body) = .ok args)
    (hreg : (toolHandlers side hs).get (.str name) = some handler) :
    toolsRoute side hs rt name body =
      match handler args with
      | .ok R => { status := 200, body := R }
      | .error e =>
        { status := 400, body := .obj [("error", .str ("Invalid request: " ++ e.toString))] } := by
  simp only [toolsRoute, hparse, hreg, bind, Except.bind, pure, Except.pure]
  cases handler args <;> rfl

theorem encodeToolResult_code (id R : JsVal) :
    ((encodeToolResult id R).prop "error").prop "code" ≠ .num (-32601) := by
  unfold encodeToolResult
  split
  · simp [JsVal.prop, List.lookup]
  · simp [JsVal.prop, List.lookup]

/-- C26: the REST route and `tools/call` look a name up in the same registry.
For a `POST /tools/<name>` whose body is empty or parses to `args`, and the
`tools/call` request for the same name and `args`: the REST answer is HTTP 404
exactly when the `tools/call` response is the error `-32601`; and when the
handler of the name resolves to a result `R` (an object), the REST answer is
HTTP 200 with the body `R` while the `tools/call` response is
`encodeToolResult id R`, the encoding of the same `R`. -/
theorem surfaces_agree (side : MergeSide) (hs : Handlers) (rt : Runtime) (url body : String)
    (id args : JsVal)
    (hurl : "/tools/".data.isPrefixOf url.data = true)
    (hparse : rt.parse (if body = "" then "\x7b\x7d" else body) = .ok args) :
    ((httpServer side hs rt { method := "POST", url := url, body := body }).status = 404 ↔
      ∃ response,
        handleMCPRequest side hs (callRequest id (.str (urlToolName url)) args) = .ok response ∧
        (response.prop "error").prop "code" = .num (-32601)) ∧
    ∀ handler R, (toolHandlers side hs).get (.str (urlToolName url)) = some handler →
      handler args = .ok R → R.isNullish = false →
      httpServer side hs rt { method := "POST", url := url, body := body } =
          { status := 200, body := R } ∧
        handleMCPRequest side hs (callRequest id (.str (urlToolName url)) args) =
          .ok (encodeToolResult id R) := by
  rw [httpServer_tools side hs rt { method := "POST", url := url, body := body } rfl hurl,
    handleMCPRequest_call]
  constructor
  · cases hreg : (toolHandlers side hs).get (.str (urlToolName url)) with
    | none =>
      rw [toolsCall_none side hs id args _ hreg]
      exact ⟨fun _ => ⟨_, rfl, rfl⟩, fun _ => toolsRoute_none side hs rt _ _ args hparse hreg⟩
    | some handler =>
      rw [toolsCall_some side hs id args _ handler hreg,
        toolsRoute_some side hs rt _ _ args handler hparse hreg]
      cases hres : handler args with
      | error e =>
        constructor
        · intro h
          simp at h
        · rintro ⟨response, hresp, hcode⟩
          cases hresp
          simp [JsVal.prop, List.lookup] at hcode
      | ok R =>
        constructor
        · intro h
          simp at h
        · rintro ⟨response, hresp, hcode⟩
          exfalso
          cases hget : R.getProp "error" with
          | error e =>
            simp only [hget, Except.ok.injEq] at hresp
            rw [← hresp] at hcode
            simp [JsVal.prop, List.lookup] at hcode
          | ok v =>
            simp only [hget, Except.ok.injEq] at hresp
            rw [← hresp] at hcode
            exact encodeToolResult_code id R hcode
  · intro handler R hreg hres hR
    rw [toolsCall_some side hs id args _ handler hreg,
      toolsRoute_some side hs rt _ _ args handler hparse hreg, hres]
    simp only [JsVal.getProp_eq _ _ hR, and_self]

/-- Witness of C26: `weather` with a handler that resolves to a `Failure`. -/
theorem surfaces_agree_witness :
    httpServer .head (constHandlers fun _ => .ok (failure (.str "boom"))) sampleRuntime
        { method := "POST", url := "/tools/weather", body := "" } =
        { status := 200, body := failure (.str "boom") } ∧
      handleMCPRequest .head (constHandlers fun _ => .ok (failure (.str "boom")))
          (callRequest (.num 7) (.str "weather") (.obj [])) =
        .ok (encodeToolResult (.num 7) (failure (.str "boom"))) :=
  (surfaces_agree .head (constHandlers fun _ => .ok (failure (.str "boom"))) sampleRuntime
    "/tools/weather" "" (.num 7) (.obj []) rfl rfl).2
    (fun _ => .ok (failure (.str "boom"))) (failure (.str "boom")) rfl rfl rfl

/-! ### The schemes and the compensation of `schemeToolHandler` -/

theorem insuranceAdvice_category (rt : Runtime) (has_insurance insurance_type advice : JsVal)
    (h : insuranceAdvice rt has_insurance insurance_type = .ok advice) :
    advice.prop "category" =
      .str (if has_insurance.truthy then "insurance_claim" else "insurance_enrollment") := by
  unfold insuranceAdvice at h
  split at h
  · rename_i ht
    simp only [bind, Except.bind, pure, Except.pure] at h
    split at h
    · contradiction
    · cases h
      simp [ht, JsVal.prop, List.lookup]
  · rename_i hf
    simp only [pure, Except.pure, Except.ok.injEq] at h
    rw [← h]
    simp [hf, JsVal.prop, List.lookup]

/-- What a `Success` of `schemeToolHandler` holds: the eligible schemes, the
recommendations and the compensation. -/
theorem schemeToolData_inv (rt : Runtime) (params data : JsVal)
    (h : schemeToolData rt params = .ok data) :
    ∃ insurance compensation,
      insuranceAdvice rt (params.prop "has_insurance") (params.prop "insurance_type") =
        .ok insurance ∧
      estimatedCompensation rt (params.prop "land_size_acres") (params.prop "damage_extent") =
        .ok compensation ∧
      data.prop "eligible_schemes" = .arr (applicableReliefSchemes (params.prop "damage_type")) ∧
      data.prop "recommendations" = .arr
        ([insurance] ++ (applicableReliefSchemes (params.prop "damage_type")).map reliefAdvice ++
          (if params.prop "damage_extent" = .str "complete" ∨
              params.prop "damage_extent" = .str "severe" then
            inputSchemes.map inputAdvice else [])) ∧
      (data.prop "farmer_situation").prop "estimated_compensation" = compensation.toVal := by
  have hparams : params.isNullish = false := by
    cases params <;> first
      | rfl
      | simp [schemeToolData, paramOf, JsVal.destructure, bind, Except.bind] at h
  simp only [schemeToolData, paramOf_of_not_nullish _ _ _ hparams, bind, Except.bind, pure,
    Except.pure] at h
  repeat' split at h
  all_goals first
    | contradiction
    | (cases h
       refine ⟨_, _, ‹_›, ‹_›, rfl, ?_, rfl⟩
       first
         | (rw [if_pos ‹_›]; rfl)
         | (rw [if_neg ‹_›]; rfl))

theorem schemeToolHandler_of_data (rt : Runtime) (params data : JsVal)
    (h : schemeToolData rt params = .ok data) :
    schemeToolHandler rt params = .ok (success data) := by
  simp only [schemeToolHandler, h, bind, Except.bind, pure, Except.pure, catchAs]

/-- The flood scenario succeeds for every damage extent that is a string, and
reports the compensation of `estimatedCompensation`. -/
theorem floodScenario_compensation (rt : Runtime) (extent : String) :
    ∃ data, schemeToolHandler rt (floodScenario (.str extent)) = .ok (success data) ∧
      (data.prop "farmer_situation").prop "estimated_compensation" =
        (if extent = "" then JsNumber.finite 0
          else (JsNumber.finite 5).mul (damageMultiplierOf extent)).toVal := by
  by_cases he : extent = ""
  · subst he
    exact ⟨_, rfl, rfl⟩
  · have ht : (JsVal.str extent).truthy = true := by simp [JsVal.truthy, he]
    have hcomp : estimatedCompensation rt (.num 5) (.str extent) =
        .ok ((JsNumber.finite 5).mul (damageMultiplierOf extent)) := by
      simp [estimatedCompensation, he, JsVal.truthy, JsVal.toStr, JsVal.toNumber, bind,
        Except.bind, pure, Except.pure]
    have hdata : ∃ data, schemeToolData rt (floodScenario (.str extent)) = .ok data ∧
        (data.prop "farmer_situation").prop "estimated_compensation" =
          ((JsNumber.finite 5).mul (damageMultiplierOf extent)).toVal := by
      have h1 : (floodScenario (.str extent)).prop "land_size_acres" = .num 5 := rfl
      have h2 : (floodScenario (.str extent)).prop "damage_extent" = .str extent := rfl
      have h3 : insuranceAdvice rt ((floodScenario (.str extent)).prop "has_insurance")
          ((floodScenario (.str extent)).prop "insurance_type") = .ok _ := rfl
      have h4 : ((floodScenario (.str extent)).prop "district").toStr = .ok "Ludhiana" := rfl
      simp only [schemeToolData, paramOf_of_not_nullish _ _ _ (rfl : (floodScenario
        (.str extent)).isNullish = false), h1, h2, h3, h4, hcomp, bind, Except.bind, pure,
        Except.pure]
      exact ⟨_, rfl, rfl⟩
    obtain ⟨data, hd, hc⟩ := hdata
    exact ⟨data, schemeToolHandler_of_data rt _ data hd, by rw [hc, if_neg he]⟩

theorem compensation_values :
    ((JsNumber.finite 5).mul (damageMultiplierOf "complete")).toVal = .num 75000 ∧
    ((JsNumber.finite 5).mul (damageMultiplierOf "severe")).toVal = .num 50000 ∧
    ((JsNumber.finite 5).mul (damageMultiplierOf "moderate")).toVal = .num 30000 ∧
    ((JsNumber.finite 5).mul (damageMultiplierOf "minor")).toVal = .num 15000 ∧
    ((JsNumber.finite 5).mul (damageMultiplierOf "partial")).toVal = .num 30000 ∧
    ((JsNumber.finite 5).mul (damageMultiplierOf "constructor")).toVal = .nonInt .nan := by
  have hrate : ∀ r : Int, (JsNumber.finite ((r : Int) : ℚ)).toVal = .num r := by
    intro r
    simp [JsNumber.toVal]
  have hmul : ∀ r : Int, (JsNumber.finite 5).mul (.finite (r : ℚ)) =
      .finite ((5 * r : Int) : ℚ) := by
    intro r
    simp [JsNumber.mul]
  have h1 : damageMultiplierOf "complete" = .finite ((15000 : Int) : ℚ) := by
    simp [damageMultiplierOf, baseCompensation, List.lookup]
  have h2 : damageMultiplierOf "severe" = .finite ((10000 : Int) : ℚ) := by
    simp [damageMultiplierOf, baseCompensation, List.lookup]
  have h3 : damageMultiplierOf "moderate" = .finite ((6000 : Int) : ℚ) := by
    simp [damageMultiplierOf, baseCompensation, List.lookup]
  have h4 : damageMultiplierOf "minor" = .finite ((3000 : Int) : ℚ) := by
    simp [damageMultiplierOf, baseCompensation, List.lookup]
  have h5 : damageMultiplierOf "partial" = .finite ((6000 : Int) : ℚ) := by
    simp [damageMultiplierOf, baseCompensation, List.lookup, objectPrototypeKeys]
  have h6 : damageMultiplierOf "constructor" = .nan := by
    simp [damageMultiplierOf, baseCompensation, List.lookup, objectPrototypeKeys]
  simp only [h1, h2, h3, h4, h5, h6, hmul, hrate]
  exact ⟨rfl, rfl, rfl, rfl, rfl, rfl⟩

/-- C25, evaluated on the flood scenario with five acres: the compensation is
75000, 50000, 30000 and 15000 for the four extents of the table, 30000 for the
unlisted extent `partial`, 0 for the empty extent; but for the extent
`constructor` the lookup `baseCompensation[damage_extent]` finds the inherited
property of that name, which is truthy, and the compensation is `NaN`, not
five times 6000. -/
theorem schemeToolHandler_compensation (rt : Runtime) :
    (∃ data, schemeToolHandler rt (floodScenario (.str "complete")) = .ok (success data) ∧
      (data.prop "farmer_situation").prop "estimated_compensation" = .num 75000) ∧
    (∃ data, schemeToolHandler rt (floodScenario (.str "severe")) = .ok (success data) ∧
      (data.prop "farmer_situation").prop "estimated_compensation" = .num 50000) ∧
    (∃ data, schemeToolHandler rt (floodScenario (.str "moderate")) = .ok (success data) ∧
      (data.prop "farmer_situation").prop "estimated_compensation" = .num 30000) ∧
    (∃ data, schemeToolHandler rt (floodScenario (.str "minor")) = .ok (success data) ∧
      (data.prop "farmer_situation").prop "estimated_compensation" = .num 15000) ∧
    (∃ data, schemeToolHandler rt (floodScenario (.str "partial")) = .ok (success data) ∧
      (data.prop "farmer_situation").prop "estimated_compensation" = .num 30000) ∧
    (∃ data, schemeToolHandler rt (floodScenario (.str "")) = .ok (success data) ∧
      (data.prop "farmer_situation").prop "estimated_compensation" = .num 0) ∧
    (∃ data, schemeToolHandler rt (floodScenario (.str "constructor")) = .ok (success data) ∧
      (data.prop "farmer_situation").prop "estimated_compensation" = .nonInt .nan) := by
  obtain ⟨v1, v2, v3, v4, v5, v6⟩ := compensation_values
  refine ⟨?_, ?_, ?_, ?_, ?_, ?_, ?_⟩
  · obtain ⟨data, h, hc⟩ := floodScenario_compensation rt "complete"
    exact ⟨data, h, by rw [hc, if_neg (by decide), v1]⟩
  · obtain ⟨data, h, hc⟩ := floodScenario_compensation rt "severe"
    exact ⟨data, h, by rw [hc, if_neg (by decide), v2]⟩
  · obtain ⟨data, h, hc⟩ := floodScenario_compensation rt "moderate"
    exact ⟨data, h, by rw [hc, if_neg (by decide), v3]⟩
  · obtain ⟨data, h, hc⟩ := floodScenario_compensation rt "minor"
    exact ⟨data, h, by rw [hc, if_neg (by decide), v4]⟩
  · obtain ⟨data, h, hc⟩ := floodScenario_compensation rt "partial"
    exact ⟨data, h, by rw [hc, if_neg (by decide), v5]⟩
  · obtain ⟨data, h, hc⟩ := floodScenario_compensation rt ""
    exact ⟨data, h, by rw [hc, if_pos rfl]; rfl⟩
  · obtain ⟨data, h, hc⟩ := floodScenario_compensation rt "constructor"
    exact ⟨data, h, by rw [hc, if_neg (by decide), v6]⟩

theorem applicableReliefSchemes_head (damage_type : JsVal) :
    sdrfScheme ∈ applicableReliefSchemes damage_type := by
  unfold applicableReliefSchemes
  rw [List.mem_filter]
  refine ⟨by decide, ?_⟩
  have h : coverageIncludes sdrfScheme (.str "natural_calamities") = true := by decide
  rw [h, Bool.or_true]

theorem applicableReliefSchemes_enum (damage_type : JsVal) (h : damage_type ∈ damageTypeEnum) :
    applicableReliefSchemes damage_type = [sdrfScheme] := by
  have hall : ∀ t ∈ damageTypeEnum, applicableReliefSchemes t = [sdrfScheme] := by decide
  exact hall damage_type h

/-- C27: in every `Success` of `schemeToolHandler`, `eligible_schemes`
contains the State Disaster Response Fund, whatever the damage type; for a
damage type of the schema it is that scheme alone, and the recommendations are
one insurance entry (`insurance_claim` when `has_insurance` is truthy, else
`insurance_enrollment`), one `relief_assistance` entry, and two
`input_support` entries exactly when the damage extent is `complete` or
`severe`. -/
theorem schemeToolHandler_eligible (rt : Runtime) (params data : JsVal)
    (h : schemeToolHandler rt params = .ok (success data)) :
    schemeName sdrfScheme = "State Disaster Response Fund (SDRF)" ∧
    (∃ schemes, data.prop "eligible_schemes" = .arr schemes ∧ sdrfScheme ∈ schemes) ∧
    (params.prop "damage_type" ∈ damageTypeEnum →
      data.prop "eligible_schemes" = .arr [sdrfScheme] ∧
      ∃ recs, data.prop "recommendations" = .arr recs ∧
        recs.map (fun entry => entry.prop "category") =
          [.str (if (params.prop "has_insurance").truthy then "insurance_claim"
              else "insurance_enrollment"),
            .str "relief_assistance"] ++
          (if params.prop "damage_extent" = .str "complete" ∨
              params.prop "damage_extent" = .str "severe" then
            [.str "input_support", .str "input_support"] else [])) := by
  obtain ⟨insurance, compensation, hins, _, helig, hrecs, _⟩ :=
    schemeToolData_inv rt params data (catchAs_success_inv _ _ data h)
  refine ⟨rfl, ⟨_, helig, applicableReliefSchemes_head _⟩, ?_⟩
  intro henum
  have hone := applicableReliefSchemes_enum _ henum
  rw [hone] at helig hrecs
  refine ⟨helig, _, hrecs, ?_⟩
  have hcat := insuranceAdvice_category rt _ _ insurance hins
  by_cases hext : params.prop "damage_extent" = .str "complete" ∨
      params.prop "damage_extent" = .str "severe"
  · simp only [List.map_append, List.map_cons, List.map_nil, hcat, if_pos hext]
    rfl
  · simp only [List.map_append, List.map_cons, List.map_nil, hcat, if_neg hext]
    rfl

/-- Witness of C27: the flood scenario of the test script. -/
theorem schemeToolHandler_eligible_witness :
    ∃ data, schemeToolHandler sampleRuntime (floodScenario (.str "severe")) =
        .ok (success data) ∧
      data.prop "eligible_schemes" = .arr [sdrfScheme] := by
  obtain ⟨data, hdata, _⟩ := floodScenario_compensation sampleRuntime "severe"
  exact ⟨data, hdata,
    ((schemeToolHandler_eligible sampleRuntime _ data hdata).2.2 (by decide)).1⟩

end KisanMitr
